import Mathlib

/-!
# BlackLib PWM control: a shallow embedding of `BlackCore.h` and `BlackPWM.h`

The development has two parts: the definitions, translated from the C++
sources function by function, and the theorems about them.

Conventions of the embedding.

* `std::string` is `String`; C strings (`d_name`, `c_str()`) are identified
  with the strings they hold, so names and search strings are taken to be
  free of the NUL character.
* The constants of `BlackDef.h` (a header that is not part of the sources at
  hand) are the fields of the parameter `BlackDef`.
* The file system is explicit state: a directory is its list of entry names
  in iteration order, a control file is a record of its text and of whether
  it can be opened for reading and for writing.
* `float` and `double` are IEEE-754 binary32 and binary64 with
  round-to-nearest-even, every operation rounded to the type the C++
  expression has (no excess precision).  Finite values are rationals.
* A conversion from `double` to an integer type whose value does not fit is
  undefined behaviour in C++; such a conversion yields `none`, and so does
  the member function that performs it.
* Integer arithmetic that can wrap is written with an explicit `% 2 ^ 64`.
* A constructor takes the error struct that `new` yields (the constructors of
  `BlackErr.h` are not among the sources) and returns the object it leaves.
-/

namespace BlackLib

/-! ## Definitions -/

/-- The named constants of `BlackDef.h` that the sources use.  The header is not
among the sources, so the values are parameters of every definition that uses
them. -/
structure BlackDef where
  SEARCH_DIR_NOT_FOUND : String
  FILE_COULD_NOT_OPEN_STRING : String
  FILE_COULD_NOT_OPEN_INT : Int
  PWM_TEST_NAME_NOT_FOUND : String
  DEFAULT_CAPE_MGR_NUMBER : String
  DEFAULT_OCP_NUMBER : String
  DEFAULT_SPI0_PINMUX : String
  DEFAULT_SPI1_PINMUX : String

/-- A sample assignment of the constants, used in the worked examples. -/
def sampleDef : BlackDef :=
  { SEARCH_DIR_NOT_FOUND := "Not Found"
    FILE_COULD_NOT_OPEN_STRING := "File Could Not Open"
    FILE_COULD_NOT_OPEN_INT := -1
    PWM_TEST_NAME_NOT_FOUND := "Pwm Test Name Not Found"
    DEFAULT_CAPE_MGR_NUMBER := "8"
    DEFAULT_OCP_NUMBER := "2"
    DEFAULT_SPI0_PINMUX := "48030000"
    DEFAULT_SPI1_PINMUX := "481a0000" }

/-! ### `BlackCore::searchDirectory` -/

/-- What `opendir` and `readdir` see: for a path, `none` when the directory
cannot be opened, otherwise the entry names in the order `readdir` yields them. -/
abbrev DirTree := String → Option (List String)

/-- The test `strstr(hay, needle) != NULL`: scan the positions of `hay` from the
left for one at which `needle` starts. -/
def strstr : List Char → List Char → Bool
  | [], needle => needle.isEmpty
  | c :: hay, needle => needle.isPrefixOf (c :: hay) || strstr hay needle

/-- The `while` loop of `BlackCore::searchDirectory` over the entries still to be
read: an entry whose first character is a dot is skipped, the first other entry
in which `searchThis` occurs is returned, and the sentinel is returned when the
entries are exhausted. -/
def scanEntries (notFound searchThis : String) : List String → String
  | [] => notFound
  | d_name :: rest =>
      if d_name.data.head? = some '.' then scanEntries notFound searchThis rest
      else if strstr d_name.data searchThis.data then d_name
      else scanEntries notFound searchThis rest

/-- The function `BlackCore::searchDirectory(seachIn, searchThis)`.  When `opendir`
fails the source still calls `closedir` on the null stream; that call is taken
to return with an error, as it does in the C library of the target board, and
the sentinel is returned. -/
def searchDirectory (d : BlackDef) (fs : DirTree) (seachIn searchThis : String) : String :=
  match fs seachIn with
  | some entries => scanEntries d.SEARCH_DIR_NOT_FOUND searchThis entries
  | none => d.SEARCH_DIR_NOT_FOUND

/-- Specification side: the entry `name` does not begin with a dot and contains
`s` as a contiguous block. -/
def Matches (s name : String) : Prop :=
  name.data.head? ≠ some '.' ∧ s.data <:+: name.data

/-- Specification side: `x` is the first entry of `l` that `Matches s`. -/
def FirstMatch (s : String) (l : List String) (x : String) : Prop :=
  ∃ pre post, l = pre ++ x :: post ∧ Matches s x ∧ ∀ y ∈ pre, ¬ Matches s y

/-- The fake directory of the worked example: `.`, `..`, `foo.1`, `bar.2`. -/
def fakeDir : DirTree := fun _ => some [".", "..", "foo.1", "bar.2"]

/-- A directory whose only entry carries the name that `sampleDef` uses as the
not-found sentinel. -/
def collisionDir : DirTree := fun _ => some ["Not Found"]

/-! ### IEEE-754 arithmetic

Finite floating-point values are rationals.  `roundFmt prec emin` is the
rounding of a real result to the binary format with `prec` significand bits and
smallest normal exponent `emin`, to nearest with ties to even, with gradual
underflow; the overflow threshold is applied separately (`dblFinite`). -/

/-- Round to the nearest integer, ties to the even one. -/
def rne (q : ℚ) : ℤ :=
  if q - ⌊q⌋ < 1 / 2 then ⌊q⌋
  else if 1 / 2 < q - ⌊q⌋ then ⌊q⌋ + 1
  else if ⌊q⌋ % 2 = 0 then ⌊q⌋ else ⌊q⌋ + 1

/-- The exponent of the unit in the last place of the format at `x`. -/
def ulpExp (prec : ℕ) (emin : ℤ) (x : ℚ) : ℤ :=
  max (Int.log 2 |x|) emin - ((prec : ℤ) - 1)

/-- The value `x` rounded to the format: the nearest multiple of the unit in the
last place, ties to the even multiple. -/
def roundFmt (prec : ℕ) (emin : ℤ) (x : ℚ) : ℚ :=
  rne (x / (2 : ℚ) ^ ulpExp prec emin x) * (2 : ℚ) ^ ulpExp prec emin x

/-- Rounding to `float` (binary32). -/
def flt (x : ℚ) : ℚ := roundFmt 24 (-126) x

/-- Rounding to `double` (binary64). -/
def dbl (x : ℚ) : ℚ := roundFmt 53 (-1022) x

/-- Rounding to `double` with the overflow threshold: `none` stands for a result
that is not finite. -/
def dblFinite (x : ℚ) : Option ℚ :=
  if |dbl x| < (2 : ℚ) ^ (1024 : ℕ) then some (dbl x) else none

/-- Truncation toward zero, the integer a floating-integral conversion keeps. -/
def trunc (v : ℚ) : ℤ := if 0 ≤ v then ⌊v⌋ else ⌈v⌉

/-- The conversion `static_cast<uint64_t>(v)` of a finite `double`: undefined
(`none`) when the truncated value is not a `uint64_t`. -/
def castUInt64 (v : ℚ) : Option ℕ :=
  if 0 ≤ trunc v ∧ trunc v < 2 ^ 64 then some (trunc v).toNat else none

/-- The conversion `static_cast<int64_t>(v)` of a finite `double`: undefined
(`none`) when the truncated value is not an `int64_t`. -/
def castInt64 (v : ℚ) : Option ℤ :=
  if -2 ^ 63 ≤ trunc v ∧ trunc v < 2 ^ 63 then some (trunc v) else none

/-- The C library function `round`: nearest integer, halfway cases away from
zero. -/
def cround (v : ℚ) : ℤ := if 0 ≤ v then ⌊v + 1 / 2⌋ else ⌈v - 1 / 2⌉

/-- A value of type `float`: a finite number, an infinity or a NaN.  The finite
values of the type are the rationals that binary32 represents; the definitions
below are stated for every rational, which covers them. -/
inductive F32 where
  | finite (q : ℚ)
  | posInf
  | negInf
  | nan

/-- The comparison `a > c` of a `float` with a finite constant. -/
def F32.gt (a : F32) (c : ℚ) : Bool :=
  match a with
  | .finite q => decide (c < q)
  | .posInf => true
  | .negInf => false
  | .nan => false

/-- The comparison `a < c` of a `float` with a finite constant. -/
def F32.lt (a : F32) (c : ℚ) : Bool :=
  match a with
  | .finite q => decide (q < c)
  | .posInf => false
  | .negInf => true
  | .nan => false

/-! ### Time units -/

/-- Modelled from the spec: the enum `timeType` is declared in `BlackDef.h`, which
is not among the sources.  A unit is represented by its integer value
`static_cast<int>(tType)`; the conversion factor to nanoseconds is
`10^(value + 9)`, so the documented examples (300000000 ps = 300000 ns,
700 us = 700000 ns, 1 ms = 1000000 ns) fix the values below. -/
abbrev timeType := ℤ

/-- Modelled from the spec: the unit picosecond, factor `10^(-3)`. -/
def picosecond : timeType := -12

/-- Modelled from the spec: the unit nanosecond, factor `10^0`; the default unit
of the setters. -/
def nanosecond : timeType := -9

/-- Modelled from the spec: the unit microsecond, factor `10^3`. -/
def microsecond : timeType := -6

/-- Modelled from the spec: the unit milisecond, factor `10^6`. -/
def milisecond : timeType := -3

/-- The value `static_cast<double>(pow(10, k))`, taken to be the correctly rounded
power; `none` when it is not finite. -/
def pow10 (k : ℤ) : Option ℚ := dblFinite ((10 : ℚ) ^ k)

/-- The `double` expression
`value * static_cast<double>(pow(10, static_cast<int>(tType) + 9))` shared by the
three time setters: `value` is converted to `double` and the product is rounded.
`none` when the result is not finite. -/
def scaled (value : ℕ) (tType : timeType) : Option ℚ :=
  (pow10 (tType + 9)).bind fun f => dblFinite (dbl (value : ℚ) * f)

/-! ### Stream extraction and insertion -/

/-- The whitespace characters of the classic locale. -/
def isSpace (c : Char) : Bool :=
  c = ' ' || c = '\t' || c = '\n' || c = '\x0b' || c = '\x0c' || c = '\r'

/-- The value of a run of decimal digits read from the left, starting from `acc`. -/
def digitsValue : List Char → ℕ → ℕ
  | [], acc => acc
  | c :: cs, acc => digitsValue cs (10 * acc + (c.toNat - 48))

/-- Saturation of a parsed value to the range of `int64_t`. -/
def clampInt64 (v : ℤ) : ℤ := max (-2 ^ 63) (min v (2 ^ 63 - 1))

/-- The extraction `stream >> value` into an `int64_t`: leading whitespace is
skipped, an optional sign and the longest run of decimal digits are read.  `none`
when there is no digit to read (the extraction fails); a value outside the type
is saturated. -/
def extractInt64? (s : List Char) : Option ℤ :=
  let t := s.dropWhile isSpace
  let r := if t.head? = some '-' ∨ t.head? = some '+' then t.tail else t
  let ds := r.takeWhile Char.isDigit
  if ds = [] then none
  else if t.head? = some '-' then some (clampInt64 (-(digitsValue ds 0 : ℤ)))
  else some (clampInt64 (digitsValue ds 0 : ℤ))

/-- The value left by `stream >> value` in a variable that held `old`.  When
nothing but whitespace is left to read, the extraction fails before a
conversion is attempted and the variable keeps `old`; when there is text that
is no integer, the failed conversion stores zero. -/
def extractInt64 (old : ℤ) (s : List Char) : ℤ :=
  if s.dropWhile isSpace = [] then old else (extractInt64? s).getD 0

/-- The extraction `stream >> str` into a `std::string`: leading whitespace is
skipped and the characters up to the next whitespace are read. -/
def extractString (s : List Char) : String :=
  String.mk ((s.dropWhile isSpace).takeWhile fun c => !isSpace c)

/-! ### The state of a `BlackPWM` object -/

/-- A control file: its text, and whether opening it succeeds for reading
(`std::ios::in`) and for writing (`std::ios::out`). -/
structure File where
  content : String
  canRead : Bool
  canWrite : Bool

/-- Opening a file for writing truncates it; the inserted text is then its whole
content. -/
def File.write (f : File) (text : String) : File := { f with content := text }

/-- The file can be read and its text is read as the integer `v`. -/
def File.HoldsInt (f : File) (v : ℤ) : Prop :=
  f.canRead = true ∧ extractInt64? f.content.data = some v

/-- Modelled from the spec: the struct `errorCore` is declared in `BlackErr.h`,
which is not among the sources; its fields are the platform-level flags that
`BlackCore.h` assigns. -/
structure errorCore where
  capeMgrError : Bool
  ocpError : Bool

/-- Modelled from the spec: the struct `errorCorePWM` of `BlackErr.h`; its fields
are the overlay-level flags that `BlackPWM.h` assigns, and the flags of the layer
below. -/
structure errorCorePWM where
  dtError : Bool
  dtSsError : Bool
  pwmTestError : Bool
  coreErrors : errorCore

/-- Modelled from the spec: the struct `errorPWM` of `BlackErr.h`; its fields are
the control-level flags that `BlackPWM.h` assigns, and the flags of the layer
below. -/
structure errorPWM where
  periodFileError : Bool
  dutyFileError : Bool
  runFileError : Bool
  polarityFileError : Bool
  outOfRange : Bool
  pwmCoreErrors : errorCorePWM

/-- The state a `BlackPWM` member function works on: the error flags of the
object and the four files its paths name.  The paths are pairwise different, so
the files are four separate components. -/
structure BlackPWM where
  pwmErrors : errorPWM
  periodFile : File
  dutyFile : File
  runFile : File
  polarityFile : File

/-- The enum `BlackPWM::flags`. -/
inductive flags where
  | periodFileErr
  | dutyFileErr
  | runFileErr
  | polarityFileErr
  | outOfRangeErr
  | dtErr
  | dtSubSystemErr
  | pwmTestErr
  | cpmgrErr
  | ocpErr

/-- The function `BlackPWM::fail(flags f)`. -/
def BlackPWM.failFlag (st : BlackPWM) (f : flags) : Bool :=
  match f with
  | .outOfRangeErr => st.pwmErrors.outOfRange
  | .runFileErr => st.pwmErrors.runFileError
  | .dutyFileErr => st.pwmErrors.dutyFileError
  | .periodFileErr => st.pwmErrors.periodFileError
  | .polarityFileErr => st.pwmErrors.polarityFileError
  | .dtErr => st.pwmErrors.pwmCoreErrors.dtError
  | .dtSubSystemErr => st.pwmErrors.pwmCoreErrors.dtSsError
  | .pwmTestErr => st.pwmErrors.pwmCoreErrors.pwmTestError
  | .ocpErr => st.pwmErrors.pwmCoreErrors.coreErrors.ocpError
  | .cpmgrErr => st.pwmErrors.pwmCoreErrors.coreErrors.capeMgrError

/-- Assignment to `pwmErrors->outOfRange`. -/
def BlackPWM.setOutOfRange (st : BlackPWM) (b : Bool) : BlackPWM :=
  { st with pwmErrors := { st.pwmErrors with outOfRange := b } }

/-- Assignment to `pwmErrors->periodFileError`. -/
def BlackPWM.setPeriodFileError (st : BlackPWM) (b : Bool) : BlackPWM :=
  { st with pwmErrors := { st.pwmErrors with periodFileError := b } }

/-- Assignment to `pwmErrors->dutyFileError`. -/
def BlackPWM.setDutyFileError (st : BlackPWM) (b : Bool) : BlackPWM :=
  { st with pwmErrors := { st.pwmErrors with dutyFileError := b } }

/-! ### `BlackPWM` member functions -/

/-- The function `BlackPWM::getPeriodValue`: the value read and the state after
the call. -/
def getPeriodValue (d : BlackDef) (st : BlackPWM) : String × BlackPWM :=
  if st.periodFile.canRead then
    (extractString st.periodFile.content.data, st.setPeriodFileError false)
  else
    (d.FILE_COULD_NOT_OPEN_STRING, st.setPeriodFileError true)

/-- The function `BlackPWM::getDutyValue`. -/
def getDutyValue (d : BlackDef) (st : BlackPWM) : String × BlackPWM :=
  if st.dutyFile.canRead then
    (extractString st.dutyFile.content.data, st.setDutyFileError false)
  else
    (d.FILE_COULD_NOT_OPEN_STRING, st.setDutyFileError true)

/-- The function `BlackPWM::getNumericPeriodValue`.  The variable `readValue`
is initialised with `FILE_COULD_NOT_OPEN_INT` and is returned on both paths. -/
def getNumericPeriodValue (d : BlackDef) (st : BlackPWM) : ℤ × BlackPWM :=
  if st.periodFile.canRead then
    (extractInt64 d.FILE_COULD_NOT_OPEN_INT st.periodFile.content.data,
      st.setPeriodFileError false)
  else
    (d.FILE_COULD_NOT_OPEN_INT, st.setPeriodFileError true)

/-- The function `BlackPWM::getNumericDutyValue`. -/
def getNumericDutyValue (d : BlackDef) (st : BlackPWM) : ℤ × BlackPWM :=
  if st.dutyFile.canRead then
    (extractInt64 d.FILE_COULD_NOT_OPEN_INT st.dutyFile.content.data,
      st.setDutyFileError false)
  else
    (d.FILE_COULD_NOT_OPEN_INT, st.setDutyFileError true)

/-- The value `static_cast<int64_t>(round(P * (1.0 - (percantage/100))))` of
`setDutyPercent` for a finite percentage `p` and the period `P` read: the
quotient is a `float` operation, the difference and the product are `double`
operations. -/
def dutyFromPercent (P : ℤ) (p : ℚ) : Option ℤ :=
  castInt64 (cround (dbl (dbl (P : ℚ) * dbl (1 - flt (p / 100)))))

/-- The function `BlackPWM::setDutyPercent`: the returned boolean and the state
after the call, `none` when the call has undefined behaviour. -/
def setDutyPercent (d : BlackDef) (st : BlackPWM) (percantage : F32) :
    Option (Bool × BlackPWM) :=
  if percantage.gt 100 || percantage.lt 0 then
    some (false, ((st.setOutOfRange true).setDutyFileError true).setPeriodFileError true)
  else if (st.setOutOfRange false).dutyFile.canWrite then
    match percantage with
    | .finite p =>
      (dutyFromPercent (getNumericPeriodValue d (st.setOutOfRange false)).1 p).map fun v =>
        (true,
          { (getNumericPeriodValue d (st.setOutOfRange false)).2.setDutyFileError false with
            dutyFile := (st.setOutOfRange false).dutyFile.write (toString v) })
    | _ => none
  else
    some (false, (st.setOutOfRange false).setDutyFileError true)

/-- The body shared by the three time setters once `writeThis` is known and is in
range: open the file, write the value, set the file's error flag. -/
def writeDuty (st : BlackPWM) (writeThis : ℕ) : Bool × BlackPWM :=
  if st.dutyFile.canWrite then
    (true, { st.setDutyFileError false with dutyFile := st.dutyFile.write (toString writeThis) })
  else
    (false, st.setDutyFileError true)

/-- The function `BlackPWM::setPeriodTime`. -/
def setPeriodTime (st : BlackPWM) (period : ℕ) (tType : timeType) :
    Option (Bool × BlackPWM) :=
  ((scaled period tType).bind castUInt64).map fun writeThis =>
    if writeThis > 1000000000 then
      (false, st.setOutOfRange true)
    else if (st.setOutOfRange false).periodFile.canWrite then
      (true,
        { (st.setOutOfRange false).setPeriodFileError false with
          periodFile := st.periodFile.write (toString writeThis) })
    else
      (false, (st.setOutOfRange false).setPeriodFileError true)

/-- The value `writeThis` of `setSpaceRatioTime`: the product is converted to
`int64_t` and then to `uint64_t`. -/
def spaceWriteThis (space : ℕ) (tType : timeType) : Option ℕ :=
  ((scaled space tType).bind castInt64).map fun i => (i % 2 ^ 64).toNat

/-- The function `BlackPWM::setSpaceRatioTime`. -/
def setSpaceRatioTime (st : BlackPWM) (space : ℕ) (tType : timeType) :
    Option (Bool × BlackPWM) :=
  (spaceWriteThis space tType).map fun writeThis =>
    if writeThis > 1000000000 then
      (false, st.setOutOfRange true)
    else
      writeDuty st writeThis

/-- The function `BlackPWM::setLoadRatioTime`: the period read and the converted
load are subtracted as `int64_t` and the difference is converted to `uint64_t`,
which reduces it modulo `2^64`. -/
def setLoadRatioTime (d : BlackDef) (st : BlackPWM) (load : ℕ) (tType : timeType) :
    Option (Bool × BlackPWM) :=
  ((scaled load tType).bind castInt64).map fun L =>
    if (((getNumericPeriodValue d st).1 - L) % 2 ^ 64).toNat > 1000000000 then
      (false, (getNumericPeriodValue d st).2.setOutOfRange true)
    else
      writeDuty (getNumericPeriodValue d st).2
        (((getNumericPeriodValue d st).1 - L) % 2 ^ 64).toNat

/-- The loop that ends `example_PWM` (pwmtest.cpp): while `fail(outOfRangeErr)` is
false, call `setDutyPercent(percent)` and add `25.0` to the `float` variable
`percent`.  The result is the list of the percentages passed to
`setDutyPercent` and the state when the loop is left; `fuel` bounds the number
of iterations, and `none` is returned when it is used up or a call is
undefined. -/
def percentLoop (d : BlackDef) : ℕ → BlackPWM → ℚ → Option (List ℚ × BlackPWM)
  | 0, _, _ => none
  | fuel + 1, st, percent =>
    if st.failFlag flags.outOfRangeErr then some ([], st)
    else
      (setDutyPercent d st (F32.finite percent)).bind fun r =>
        (percentLoop d fuel r.2 (flt (dbl (percent + 25)))).map fun out =>
          (percent :: out.1, out.2)

/-- Assignment to `pwmErrors->runFileError`. -/
def BlackPWM.setRunFileError (st : BlackPWM) (b : Bool) : BlackPWM :=
  { st with pwmErrors := { st.pwmErrors with runFileError := b } }

/-- Modelled from the spec: the enum `runValue` is declared in `BlackDef.h`, which
is not among the sources.  The documented examples of `BlackPWM.h` fix the
integer values: `setRunState(run)` leaves `1` in the run file and
`setRunState(stop)` leaves `0`. -/
inductive runValue where
  | stop
  | run

/-- The value `static_cast<int>(state)`. -/
def runValue.toInt : runValue → ℤ
  | .stop => 0
  | .run => 1

/-- The function `BlackPWM::getRunValue`: the value read and the state after the
call. -/
def getRunValue (d : BlackDef) (st : BlackPWM) : String × BlackPWM :=
  if st.runFile.canRead then
    (extractString st.runFile.content.data, st.setRunFileError false)
  else
    (d.FILE_COULD_NOT_OPEN_STRING, st.setRunFileError true)

/-- The function `BlackPWM::setRunState`: the returned boolean and the state
after the call. -/
def setRunState (st : BlackPWM) (state : runValue) : Bool × BlackPWM :=
  if st.runFile.canWrite then
    (true, { st.setRunFileError false with runFile := st.runFile.write (toString state.toInt) })
  else
    (false, st.setRunFileError true)

/-- The function `BlackPWM::isRunning`. -/
def isRunning (d : BlackDef) (st : BlackPWM) : Bool × BlackPWM :=
  (decide ((getRunValue d st).1 = "1"), (getRunValue d st).2)

/-- The function `BlackPWM::toggleRunState`: the state after the call. -/
def toggleRunState (d : BlackDef) (st : BlackPWM) : BlackPWM :=
  if (getRunValue d st).1 = "1" then (setRunState (getRunValue d st).2 runValue.stop).2
  else (setRunState (getRunValue d st).2 runValue.run).2

/-- The function `BlackPWM::fail()`. -/
def BlackPWM.fail (st : BlackPWM) : Bool :=
  st.pwmErrors.outOfRange ||
  st.pwmErrors.runFileError ||
  st.pwmErrors.dutyFileError ||
  st.pwmErrors.periodFileError ||
  st.pwmErrors.polarityFileError ||
  st.pwmErrors.pwmCoreErrors.dtError ||
  st.pwmErrors.pwmCoreErrors.dtSsError ||
  st.pwmErrors.pwmCoreErrors.pwmTestError ||
  st.pwmErrors.pwmCoreErrors.coreErrors.ocpError ||
  st.pwmErrors.pwmCoreErrors.coreErrors.capeMgrError

/-- The integer value of an enumerator of `BlackPWM::flags`. -/
def flags.toInt : flags → ℤ
  | .periodFileErr => 0
  | .dutyFileErr => 1
  | .runFileErr => 2
  | .polarityFileErr => 3
  | .outOfRangeErr => 4
  | .dtErr => 5
  | .dtSubSystemErr => 6
  | .pwmTestErr => 7
  | .cpmgrErr => 9
  | .ocpErr => 10

/-- The body of `BlackPWM::fail(flags f)` on the integer value of `f`: the chain
of comparisons in the order of the source, and `true` when none applies. -/
def BlackPWM.failValue (st : BlackPWM) (f : ℤ) : Bool :=
  if f = 4 then st.pwmErrors.outOfRange
  else if f = 2 then st.pwmErrors.runFileError
  else if f = 1 then st.pwmErrors.dutyFileError
  else if f = 0 then st.pwmErrors.periodFileError
  else if f = 3 then st.pwmErrors.polarityFileError
  else if f = 5 then st.pwmErrors.pwmCoreErrors.dtError
  else if f = 6 then st.pwmErrors.pwmCoreErrors.dtSsError
  else if f = 7 then st.pwmErrors.pwmCoreErrors.pwmTestError
  else if f = 10 then st.pwmErrors.pwmCoreErrors.coreErrors.ocpError
  else if f = 9 then st.pwmErrors.pwmCoreErrors.coreErrors.capeMgrError
  else true

/-- Assignment to `pwmErrors->polarityFileError`. -/
def BlackPWM.setPolarityFileError (st : BlackPWM) (b : Bool) : BlackPWM :=
  { st with pwmErrors := { st.pwmErrors with polarityFileError := b } }

/-- The enum `polarityType`. -/
inductive polarityType where
  | straight
  | reverse

/-- The value `static_cast<int>(polarity)`. -/
def polarityType.toInt : polarityType → ℤ
  | .straight => 0
  | .reverse => 1

/-- The function `BlackPWM::getPolarityValue`: the value read and the state after
the call. -/
def getPolarityValue (d : BlackDef) (st : BlackPWM) : String × BlackPWM :=
  if st.polarityFile.canRead then
    (extractString st.polarityFile.content.data, st.setPolarityFileError false)
  else
    (d.FILE_COULD_NOT_OPEN_STRING, st.setPolarityFileError true)

/-- The function `BlackPWM::setPolarity`: the returned boolean and the state
after the call. -/
def setPolarity (st : BlackPWM) (polarity : polarityType) : Bool × BlackPWM :=
  if st.polarityFile.canWrite then
    (true,
      { st.setPolarityFileError false with
        polarityFile := st.polarityFile.write (toString polarity.toInt) })
  else
    (false, st.setPolarityFileError true)

/-- The function `BlackPWM::isPolarityStraight`. -/
def isPolarityStraight (d : BlackDef) (st : BlackPWM) : Bool × BlackPWM :=
  (!decide ((getPolarityValue d st).1 = "1"), (getPolarityValue d st).2)

/-- The function `BlackPWM::isPolarityReverse`. -/
def isPolarityReverse (d : BlackDef) (st : BlackPWM) : Bool × BlackPWM :=
  (decide ((getPolarityValue d st).1 = "1"), (getPolarityValue d st).2)

/-- The function `BlackPWM::tooglePolarity`: the state after the call. -/
def tooglePolarity (d : BlackDef) (st : BlackPWM) : BlackPWM :=
  if (getPolarityValue d st).1 = "0" then
    (setPolarity (getPolarityValue d st).2 polarityType.reverse).2
  else (setPolarity (getPolarityValue d st).2 polarityType.straight).2

/-- The function `BlackPWM::getNumericValue`: the `float` returned and the state
after the call.  The period is read first, then the duty; each is converted to
`double` (through `long double`, which holds every value that a `double` holds),
and the quotient, the difference and the product are `double` operations whose
result is converted to `float`.  A period that reads as zero makes the quotient
an infinity or a NaN, which the difference, the product and the conversion
pass on. -/
def getNumericValue (d : BlackDef) (st : BlackPWM) : F32 × BlackPWM :=
  let period := dbl ((getNumericPeriodValue d st).1 : ℚ)
  let duty := dbl ((getNumericDutyValue d (getNumericPeriodValue d st).2).1 : ℚ)
  (if period = 0 then
      (if duty = 0 then F32.nan else if 0 < duty then F32.negInf else F32.posInf)
    else F32.finite (flt (dbl (dbl (1 - dbl (duty / period)) * 100))),
    (getNumericDutyValue d (getNumericPeriodValue d st).2).2)

/-! ### Construction: `BlackCore`, `BlackCorePWM`, `BlackPWM` -/

/-- The enum `pwmName`. -/
inductive pwmName where
  | P8_13
  | P8_19
  | P9_14
  | P9_16
  | P9_21
  | P9_22
  | P9_42
  deriving DecidableEq

/-- The enumerator `EHRPWM2B = P8_13`. -/
abbrev pwmName.EHRPWM2B : pwmName := pwmName.P8_13

/-- The enumerator `EHRPWM2A = P8_19`. -/
abbrev pwmName.EHRPWM2A : pwmName := pwmName.P8_19

/-- The enumerator `EHRPWM1A = P9_14`. -/
abbrev pwmName.EHRPWM1A : pwmName := pwmName.P9_14

/-- The enumerator `EHRPWM1B = P9_16`. -/
abbrev pwmName.EHRPWM1B : pwmName := pwmName.P9_16

/-- The enumerator `EHRPWM0B = P9_21`. -/
abbrev pwmName.EHRPWM0B : pwmName := pwmName.P9_21

/-- The enumerator `EHRPWM0A = P9_22`. -/
abbrev pwmName.EHRPWM0A : pwmName := pwmName.P9_22

/-- The enumerator `ECAP0 = P9_42`. -/
abbrev pwmName.ECAP0 : pwmName := pwmName.P9_42

/-- The array `pwmNameMap`, indexed by the value of the enumerator. -/
def pwmNameMap : pwmName → String
  | .P8_13 => "P8_13"
  | .P8_19 => "P8_19"
  | .P9_14 => "P9_14"
  | .P9_16 => "P9_16"
  | .P9_21 => "P9_21"
  | .P9_22 => "P9_22"
  | .P9_42 => "P9_42"

/-- The enum `BlackCore::ocpSearch`. -/
inductive ocpSearch where
  | ADC_helper
  | PWM_P8_13
  | PWM_P8_19
  | PWM_P9_14
  | PWM_P9_16
  | PWM_P9_21
  | PWM_P9_22
  | PWM_P9_42
  | SPI0
  | SPI1
  deriving DecidableEq

/-- The data members of a `BlackCore` object. -/
structure BlackCore where
  coreErrors : errorCore
  capeMgrName : String
  ocpName : String
  slotsFilePath : String

/-- The function `BlackCore::findCapeMgrName`: the returned boolean and the
object after the call. -/
def BlackCore.findCapeMgrName (d : BlackDef) (fs : DirTree) (self : BlackCore) :
    Bool × BlackCore :=
  if searchDirectory d fs "/sys/devices/" "bone_capemgr." = d.SEARCH_DIR_NOT_FOUND then
    (false,
      { self with
        capeMgrName := "bone_capemgr." ++ d.DEFAULT_CAPE_MGR_NUMBER
        coreErrors := { self.coreErrors with capeMgrError := true } })
  else
    (true,
      { self with
        capeMgrName := searchDirectory d fs "/sys/devices/" "bone_capemgr."
        coreErrors := { self.coreErrors with capeMgrError := false } })

/-- The function `BlackCore::findOcpName`. -/
def BlackCore.findOcpName (d : BlackDef) (fs : DirTree) (self : BlackCore) :
    Bool × BlackCore :=
  if searchDirectory d fs "/sys/devices/" "ocp." = d.SEARCH_DIR_NOT_FOUND then
    (false,
      { self with
        ocpName := "ocp." ++ d.DEFAULT_OCP_NUMBER
        coreErrors := { self.coreErrors with ocpError := true } })
  else
    (true,
      { self with
        ocpName := searchDirectory d fs "/sys/devices/" "ocp."
        coreErrors := { self.coreErrors with ocpError := false } })

/-- The constructor `BlackCore::BlackCore()`.  The argument `coreErrors` is the
struct that `new errorCore()` yields; the three strings start empty. -/
def BlackCore.construct (d : BlackDef) (fs : DirTree) (coreErrors : errorCore) : BlackCore :=
  let self : BlackCore :=
    { coreErrors := coreErrors, capeMgrName := "", ocpName := "", slotsFilePath := "" }
  let self := (self.findCapeMgrName d fs).2
  let self := (self.findOcpName d fs).2
  { self with slotsFilePath := "/sys/devices/" ++ self.capeMgrName ++ "/slots" }

/-- The function `BlackCore::searchDirectoryOcp`. -/
def BlackCore.searchDirectoryOcp (d : BlackDef) (fs : DirTree) (self : BlackCore)
    (searchThis : ocpSearch) : String :=
  let searchPath := "/sys/devices/" ++ self.ocpName ++ "/"
  let searchPath :=
    if searchThis = ocpSearch.SPI0 then
      searchPath ++ (d.DEFAULT_SPI0_PINMUX ++ ".spi/spi_master/")
    else if searchThis = ocpSearch.SPI1 then
      searchPath ++ (d.DEFAULT_SPI1_PINMUX ++ ".spi/spi_master/")
    else searchPath
  match searchThis with
  | .ADC_helper => searchDirectory d fs searchPath "helper."
  | .PWM_P8_13 => searchDirectory d fs searchPath "pwm_test_P8_13."
  | .PWM_P8_19 => searchDirectory d fs searchPath "pwm_test_P8_19."
  | .PWM_P9_14 => searchDirectory d fs searchPath "pwm_test_P9_14."
  | .PWM_P9_16 => searchDirectory d fs searchPath "pwm_test_P9_16."
  | .PWM_P9_21 => searchDirectory d fs searchPath "pwm_test_P9_21."
  | .PWM_P9_22 => searchDirectory d fs searchPath "pwm_test_P9_22."
  | .PWM_P9_42 => searchDirectory d fs searchPath "pwm_test_P9_42."
  | .SPI0 => searchDirectory d fs searchPath "spi"
  | .SPI1 => searchDirectory d fs searchPath "spi"

/-- The slots file as `loadDeviceTree` meets it: its text, and whether the first
and the second `open` for writing of a call succeed.  The two are separate
fields because the first write makes the kernel act, so the outcome of the
second `open` need not repeat that of the first. -/
structure SlotsFile where
  content : String
  firstOpen : Bool
  secondOpen : Bool

/-- The data members of a `BlackCorePWM` object, with its base `BlackCore`.  The
pointer `pwmCoreErrors->coreErrors` refers to the struct of the base, which no
function assigns once the base is constructed; it is held as a copy. -/
structure BlackCorePWM where
  core : BlackCore
  pwmCoreErrors : errorCorePWM
  pwmTestPath : String
  pwmPinName : pwmName

/-- What a call of `loadDeviceTree` leaves: the returned boolean, the object, the
files, and the texts inserted into the slots file in the order of insertion. -/
structure Loaded where
  result : Bool
  self : BlackCorePWM
  files : String → SlotsFile
  inserted : List String

/-- The function `BlackCorePWM::loadDeviceTree`; `files` gives the file each path
names.  Each successful `open` truncates the file, so the text inserted after it
is the whole content. -/
def BlackCorePWM.loadDeviceTree (self : BlackCorePWM) (files : String → SlotsFile) : Loaded :=
  let file := self.core.slotsFilePath
  if (files file).firstOpen then
    let files1 := Function.update files file { files file with content := "am33xx_pwm" }
    let self1 := { self with pwmCoreErrors := { self.pwmCoreErrors with dtSsError := false } }
    if (files1 file).secondOpen then
      { result := true
        self := { self1 with pwmCoreErrors := { self1.pwmCoreErrors with dtError := false } }
        files := Function.update files1 file
          { files1 file with content := "bone_pwm_" ++ pwmNameMap self.pwmPinName }
        inserted := ["am33xx_pwm", "bone_pwm_" ++ pwmNameMap self.pwmPinName] }
    else
      { result := false
        self := { self1 with pwmCoreErrors := { self1.pwmCoreErrors with dtError := true } }
        files := files1
        inserted := ["am33xx_pwm"] }
  else
    { result := false
      self := { self with
        pwmCoreErrors := { self.pwmCoreErrors with dtSsError := true, dtError := true } }
      files := files
      inserted := [] }

/-- The function `BlackCorePWM::findPwmTestName`: the returned string and the
object after the call. -/
def BlackCorePWM.findPwmTestName (d : BlackDef) (fs : DirTree) (self : BlackCorePWM)
    (pwm : pwmName) : String × BlackCorePWM :=
  let searchResult :=
    match pwm with
    | .P8_13 => self.core.searchDirectoryOcp d fs ocpSearch.PWM_P8_13
    | .P8_19 => self.core.searchDirectoryOcp d fs ocpSearch.PWM_P8_19
    | .P9_14 => self.core.searchDirectoryOcp d fs ocpSearch.PWM_P9_14
    | .P9_16 => self.core.searchDirectoryOcp d fs ocpSearch.PWM_P9_16
    | .P9_21 => self.core.searchDirectoryOcp d fs ocpSearch.PWM_P9_21
    | .P9_22 => self.core.searchDirectoryOcp d fs ocpSearch.PWM_P9_22
    | .P9_42 => self.core.searchDirectoryOcp d fs ocpSearch.PWM_P9_42
  if searchResult = d.SEARCH_DIR_NOT_FOUND then
    (d.PWM_TEST_NAME_NOT_FOUND,
      { self with pwmCoreErrors := { self.pwmCoreErrors with pwmTestError := true } })
  else
    (searchResult,
      { self with pwmCoreErrors := { self.pwmCoreErrors with pwmTestError := false } })

/-- The constructor `BlackCorePWM::BlackCorePWM(pwm)`, after the constructor of
the base: the object and the files it leaves.  The argument `init` is the struct
that `new errorCorePWM(...)` yields, its pointer set to the struct of the base;
the value `loadDeviceTree` returns is dropped. -/
def BlackCorePWM.construct (d : BlackDef) (fs : DirTree) (files : String → SlotsFile)
    (init : errorCorePWM) (pwm : pwmName) : BlackCorePWM × (String → SlotsFile) :=
  let core := BlackCore.construct d fs init.coreErrors
  let self : BlackCorePWM :=
    { core := core
      pwmCoreErrors := { init with coreErrors := core.coreErrors }
      pwmTestPath := ""
      pwmPinName := pwm }
  let loaded := self.loadDeviceTree files
  let found := loaded.self.findPwmTestName d fs loaded.self.pwmPinName
  ({ found.2 with pwmTestPath := "/sys/devices/" ++ found.2.core.ocpName ++ "/" ++ found.1 },
    loaded.files)

/-- The function `BlackCorePWM::getPeriodFilePath`. -/
def BlackCorePWM.getPeriodFilePath (self : BlackCorePWM) : String := self.pwmTestPath ++ "/period"

/-- The function `BlackCorePWM::getDutyFilePath`. -/
def BlackCorePWM.getDutyFilePath (self : BlackCorePWM) : String := self.pwmTestPath ++ "/duty"

/-- The function `BlackCorePWM::getRunFilePath`. -/
def BlackCorePWM.getRunFilePath (self : BlackCorePWM) : String := self.pwmTestPath ++ "/run"

/-- The function `BlackCorePWM::getPolarityFilePath`. -/
def BlackCorePWM.getPolarityFilePath (self : BlackCorePWM) : String :=
  self.pwmTestPath ++ "/polarity"

/-- The data members of a `BlackPWM` object with its base `BlackCorePWM`: the
error struct and the four paths. -/
structure PwmObject where
  base : BlackCorePWM
  pwmErrors : errorPWM
  periodPath : String
  dutyPath : String
  runPath : String
  polarityPath : String

/-- The constructor `BlackPWM::BlackPWM(pwm)`: the object and the slots files it
leaves.  The argument `init` is the struct that `new errorPWM(...)` yields, its
pointer set to the struct of the base. -/
def PwmObject.construct (d : BlackDef) (fs : DirTree) (files : String → SlotsFile)
    (init : errorPWM) (pwm : pwmName) : PwmObject × (String → SlotsFile) :=
  let base := BlackCorePWM.construct d fs files init.pwmCoreErrors pwm
  ({ base := base.1
     pwmErrors := { init with pwmCoreErrors := base.1.pwmCoreErrors }
     periodPath := base.1.getPeriodFilePath
     dutyPath := base.1.getDutyFilePath
     runPath := base.1.getRunFilePath
     polarityPath := base.1.getPolarityFilePath },
    base.2)

/-- The state the member functions of a constructed object work on, the control
files being those its four paths name. -/
def PwmObject.state (self : PwmObject) (control : String → File) : BlackPWM :=
  { pwmErrors := self.pwmErrors
    periodFile := control self.periodPath
    dutyFile := control self.dutyPath
    runFile := control self.runPath
    polarityFile := control self.polarityPath }

/-! ### Notions of the specification and sample states -/

/-- Specification side: the percentage lies within `[0, 100]`, that is
`0 ≤ a` and `a ≤ 100`.  No comparison holds of a NaN, so a NaN is not within
the interval. -/
def F32.InRange (a : F32) : Prop :=
  match a with
  | .finite q => 0 ≤ q ∧ q ≤ 100
  | .posInf => False
  | .negInf => False
  | .nan => False

/-- Specification side: the percentage compares below `0` or above `100`, as
every finite value outside `[0, 100]` and both infinities do.  A NaN compares
with nothing, so it is not within the interval and does not satisfy this
either. -/
def F32.Outside (a : F32) : Prop :=
  match a with
  | .finite q => q < 0 ∨ 100 < q
  | .posInf => True
  | .negInf => True
  | .nan => False

/-- Specification side: the period and duty files hold integers with
`0 ≤ duty ≤ period ≤ 10^9`. -/
def DutyWithinPeriod (st : BlackPWM) : Prop :=
  ∃ P D : ℤ, st.periodFile.HoldsInt P ∧ st.dutyFile.HoldsInt D ∧
    0 ≤ D ∧ D ≤ P ∧ P ≤ 1000000000

/-- Specification side: the period and duty files hold integers that are each
within `[0, 10^9]`. -/
def ValuesInRange (st : BlackPWM) : Prop :=
  ∃ P D : ℤ, st.periodFile.HoldsInt P ∧ st.dutyFile.HoldsInt D ∧
    0 ≤ D ∧ D ≤ 1000000000 ∧ 0 ≤ P ∧ P ≤ 1000000000

/-- Specification side: `st'` has the error flags of `st`, the one that `f` names
apart. -/
def FlagsKeptExcept (f : flags) (st st' : BlackPWM) : Prop :=
  ∀ g : flags, g ≠ f → st'.failFlag g = st.failFlag g

/-- Specification side: the four files of `st'` are those of `st`, text and
access alike. -/
def FilesKept (st st' : BlackPWM) : Prop :=
  st'.periodFile = st.periodFile ∧ st'.dutyFile = st.dutyFile ∧
    st'.runFile = st.runFile ∧ st'.polarityFile = st.polarityFile

/-- All error flags false. -/
def noErrors : errorPWM :=
  { periodFileError := false, dutyFileError := false, runFileError := false,
    polarityFileError := false, outOfRange := false,
    pwmCoreErrors :=
      { dtError := false, dtSsError := false, pwmTestError := false,
        coreErrors := { capeMgrError := false, ocpError := false } } }

/-- A sample state: no error flag set, every file readable and writable, the
period and duty files with the given texts, run and polarity files holding 0. -/
def sampleState (period duty : String) : BlackPWM :=
  { pwmErrors := noErrors
    periodFile := { content := period, canRead := true, canWrite := true }
    dutyFile := { content := duty, canRead := true, canWrite := true }
    runFile := { content := "0", canRead := true, canWrite := true }
    polarityFile := { content := "0", canRead := true, canWrite := true } }

/-- A file system without device tree: no directory can be opened. -/
def noTree : DirTree := fun _ => none

/-- Slots files none of which can be opened for writing. -/
def lockedSlots : String → SlotsFile :=
  fun _ => { content := "", firstOpen := false, secondOpen := false }

/-- Slots files that can be opened for writing every time, holding `text`. -/
def openSlots (text : String) : String → SlotsFile :=
  fun _ => { content := text, firstOpen := true, secondOpen := true }

/-- Slots files whose first `open` succeeds and whose second fails. -/
def halfOpenSlots (text : String) : String → SlotsFile :=
  fun _ => { content := text, firstOpen := true, secondOpen := false }

/-- Control files none of which can be opened. -/
def absentControl : String → File :=
  fun _ => { content := "", canRead := false, canWrite := false }

/-- The directories of a board with the device tree loaded: the capemgr and ocp
entries in `/sys/devices/` and the test directory of pin `P8_19` under the ocp
directory. -/
def boardDirs : DirTree := fun path =>
  if path = "/sys/devices/" then some [".", "..", "bone_capemgr.9", "ocp.3", "platform"]
  else if path = "/sys/devices/ocp.3/" then some [".", "..", "pwm_test_P8_19.15"]
  else none

/-- A listing of `/sys/devices/` in which the search strings occur inside entry
names, not at their start. -/
def innerDirs : DirTree := fun path =>
  if path = "/sys/devices/" then some [".", "..", "old_bone_capemgr.8", "socp.1"]
  else none

/-- A listing of `/sys/devices/` with a capemgr entry and no ocp entry. -/
def capeOnlyDirs : DirTree := fun path =>
  if path = "/sys/devices/" then some [".", "..", "bone_capemgr.9"] else none

/-- A listing of `/sys/devices/` with an ocp entry and no capemgr entry. -/
def ocpOnlyDirs : DirTree := fun path =>
  if path = "/sys/devices/" then some [".", "..", "ocp.3"] else none

/-- The object a fresh `BlackCorePWM` is before `loadDeviceTree` runs, for the
worked examples: pin `pwm`, the slots path of `boardDirs`. -/
def sampleCorePWM (pwm : pwmName) : BlackCorePWM :=
  { core := BlackCore.construct sampleDef boardDirs noErrors.pwmCoreErrors.coreErrors
    pwmCoreErrors := noErrors.pwmCoreErrors
    pwmTestPath := ""
    pwmPinName := pwm }

/-- A sample state whose run and polarity files hold the given texts, every file
readable and writable. -/
def switchState (run polarity : String) : BlackPWM :=
  { sampleState "500000" "0" with
    runFile := { content := run, canRead := true, canWrite := true }
    polarityFile := { content := polarity, canRead := true, canWrite := true } }

/-- A sample state whose period file cannot be opened, the duty file holding
`duty`. -/
def noPeriodState (duty : String) : BlackPWM :=
  { sampleState "500000" duty with
    periodFile := { content := "500000", canRead := false, canWrite := false } }

/-- A sample state whose duty file cannot be opened for writing, the period file
holding 500000 and the duty file 250000. -/
def lockedDutyState : BlackPWM :=
  { sampleState "500000" "250000" with
    dutyFile := { content := "250000", canRead := true, canWrite := false } }

theorem rne_floor_le (q : ℚ) : ⌊q⌋ ≤ rne q := by
  unfold rne; split_ifs <;> omega

theorem rne_le_floor_succ (q : ℚ) : rne q ≤ ⌊q⌋ + 1 := by
  unfold rne; split_ifs <;> omega

theorem rne_intCast (n : ℤ) : rne (n : ℚ) = n := by
  unfold rne
  simp

theorem rne_mono {a b : ℚ} (h : a ≤ b) : rne a ≤ rne b := by
  rcases (Int.floor_mono h).lt_or_eq with hlt | heq
  · calc rne a ≤ ⌊a⌋ + 1 := rne_le_floor_succ a
      _ ≤ ⌊b⌋ := hlt
      _ ≤ rne b := rne_floor_le b
  · have hab : a - ⌊a⌋ ≤ b - ⌊b⌋ := by rw [heq]; linarith
    unfold rne
    rw [heq]
    rw [heq] at hab
    split_ifs <;> first | omega | (exfalso; linarith)

theorem rne_sub_le (q : ℚ) : |(rne q : ℚ) - q| ≤ 1 / 2 := by
  have h1 := Int.floor_le q
  have h2 := Int.lt_floor_add_one q
  unfold rne
  split_ifs with h3 h4 h5
  · rw [abs_le]; constructor <;> linarith
  · rw [abs_le]; push_cast; constructor <;> linarith
  · rw [abs_le]; constructor <;> linarith
  · rw [abs_le]; push_cast; constructor <;> linarith

theorem rne_nonneg {q : ℚ} (h : 0 ≤ q) : 0 ≤ rne q := by
  have := rne_mono h
  rwa [show ((0:ℚ)) = ((0:ℤ):ℚ) by simp, rne_intCast] at this

theorem two_zpow_pos (k : ℤ) : (0 : ℚ) < (2 : ℚ) ^ k := zpow_pos (by norm_num) k

theorem roundFmt_zero (prec : ℕ) (emin : ℤ) : roundFmt prec emin 0 = 0 := by
  unfold roundFmt
  rw [zero_div, show ((0:ℚ)) = ((0:ℤ):ℚ) by simp, rne_intCast]
  simp

theorem roundFmt_nonneg (prec : ℕ) (emin : ℤ) {x : ℚ} (h : 0 ≤ x) :
    0 ≤ roundFmt prec emin x := by
  unfold roundFmt
  have hu := two_zpow_pos (ulpExp prec emin x)
  have : 0 ≤ rne (x / (2 : ℚ) ^ ulpExp prec emin x) := rne_nonneg (div_nonneg h hu.le)
  have h2 : (0:ℚ) ≤ (rne (x / (2 : ℚ) ^ ulpExp prec emin x) : ℚ) := by exact_mod_cast this
  exact mul_nonneg h2 hu.le

/-- A value `m * 2 ^ k` whose significand `m` has at most `prec` bits and whose exponent `k`
is not below that of the smallest subnormal is representable: rounding leaves it unchanged. -/
theorem roundFmt_exact (prec : ℕ) (emin : ℤ) (m k : ℤ) (hm : |m| < 2 ^ prec)
    (hk : emin - ((prec : ℤ) - 1) ≤ k) :
    roundFmt prec emin ((m : ℚ) * (2 : ℚ) ^ k) = (m : ℚ) * (2 : ℚ) ^ k := by
  by_cases hm0 : m = 0
  · subst hm0; simp [roundFmt_zero]
  set x : ℚ := (m : ℚ) * (2 : ℚ) ^ k with hx
  have hk2 := two_zpow_pos k
  have hxabs : |x| = (|m| : ℤ) * (2 : ℚ) ^ k := by
    rw [hx, abs_mul, abs_of_pos hk2]; push_cast; rfl
  have hxpos : 0 < |x| := by
    rw [hxabs]
    have : (0:ℚ) < ((|m| : ℤ) : ℚ) := by exact_mod_cast abs_pos.2 hm0
    positivity
  have hlt : |x| < (2 : ℚ) ^ (k + prec) := by
    rw [hxabs, zpow_add₀ (by norm_num : (2:ℚ) ≠ 0), mul_comm ((2:ℚ)^k)]
    have : ((|m| : ℤ) : ℚ) < (2 : ℚ) ^ (prec : ℤ) := by
      rw [zpow_natCast]; exact_mod_cast hm
    exact mul_lt_mul_of_pos_right this hk2
  have hlog : Int.log 2 |x| < k + prec := by
    have := (Int.lt_zpow_iff_log_lt (R := ℚ) (b := 2) (by norm_num) hxpos).1 (by exact_mod_cast hlt)
    exact this
  have hE : ulpExp prec emin x ≤ k := by
    unfold ulpExp
    rcases max_cases (Int.log 2 |x|) emin with ⟨h1, _⟩ | ⟨h1, _⟩ <;> rw [h1] <;> omega
  obtain ⟨j, hj⟩ := Int.eq_ofNat_of_zero_le (sub_nonneg.2 hE)
  have hdiv : x / (2 : ℚ) ^ ulpExp prec emin x = ((m * 2 ^ j : ℤ) : ℚ) := by
    rw [hx, mul_div_assoc, ← zpow_sub₀ (by norm_num : (2:ℚ) ≠ 0), hj]
    push_cast
    rw [zpow_natCast]
  unfold roundFmt
  rw [hdiv, rne_intCast, ← hdiv]
  exact div_mul_cancel₀ _ (two_zpow_pos _).ne'

theorem roundFmt_natCast (prec : ℕ) (emin : ℤ) (n : ℕ) (hn : n < 2 ^ prec)
    (he : emin ≤ (prec : ℤ) - 1) : roundFmt prec emin (n : ℚ) = n := by
  have := roundFmt_exact prec emin (n : ℤ) 0 (by rw [abs_of_nonneg (by positivity)]; exact_mod_cast hn)
    (by omega)
  simpa using this

theorem roundFmt_mono_nonneg (prec : ℕ) (emin : ℤ) (hp : 1 ≤ prec) {x y : ℚ}
    (hx : 0 ≤ x) (hxy : x ≤ y) : roundFmt prec emin x ≤ roundFmt prec emin y := by
  rcases hx.eq_or_lt with rfl | hx0
  · rw [roundFmt_zero]; exact roundFmt_nonneg prec emin hxy
  have hy0 : 0 < y := lt_of_lt_of_le hx0 hxy
  have hlog : Int.log 2 |x| ≤ Int.log 2 |y| := by
    rw [abs_of_pos hx0, abs_of_pos hy0]
    exact Int.log_mono_right hx0 hxy
  have hE : ulpExp prec emin x ≤ ulpExp prec emin y := by
    unfold ulpExp
    have := max_le_max hlog (le_refl emin)
    omega
  rcases hE.lt_or_eq with hlt | heq
  · -- different binades
    have hxlt : x < (2 : ℚ) ^ (ulpExp prec emin x + prec) := by
      have h1 : x < (2 : ℚ) ^ (Int.log 2 x + 1) := by
        exact_mod_cast Int.lt_zpow_succ_log_self (R := ℚ) (b := 2) (by norm_num) x
      refine lt_of_lt_of_le h1 ?_
      apply zpow_le_zpow_right₀ (by norm_num)
      unfold ulpExp
      rw [abs_of_pos hx0]
      have := le_max_left (Int.log 2 x) emin
      omega
    have hxr : roundFmt prec emin x ≤ (2 : ℚ) ^ (ulpExp prec emin x + prec) := by
      unfold roundFmt
      have hu := two_zpow_pos (ulpExp prec emin x)
      have hq : x / (2 : ℚ) ^ ulpExp prec emin x ≤ (((2 : ℤ) ^ prec : ℤ) : ℚ) := by
        rw [div_le_iff₀ hu]
        push_cast
        rw [← zpow_natCast, ← zpow_add₀ (by norm_num : (2:ℚ) ≠ 0), add_comm]
        exact hxlt.le
      have := rne_mono hq
      rw [rne_intCast] at this
      have h3 : (rne (x / (2 : ℚ) ^ ulpExp prec emin x) : ℚ) ≤ (2 : ℚ) ^ (prec : ℤ) := by
        rw [zpow_natCast]; exact_mod_cast this
      calc (rne (x / (2 : ℚ) ^ ulpExp prec emin x) : ℚ) * (2 : ℚ) ^ ulpExp prec emin x
          ≤ (2 : ℚ) ^ (prec : ℤ) * (2 : ℚ) ^ ulpExp prec emin x :=
            mul_le_mul_of_nonneg_right h3 hu.le
        _ = (2 : ℚ) ^ (ulpExp prec emin x + prec) := by
            rw [← zpow_add₀ (by norm_num : (2:ℚ) ≠ 0), add_comm]
    have hylog : max (Int.log 2 |y|) emin = Int.log 2 y := by
      rw [abs_of_pos hy0]
      apply max_eq_left
      unfold ulpExp at hlt
      rw [abs_of_pos hy0] at hlt
      by_contra hcon
      push_neg at hcon
      rw [max_eq_right hcon.le] at hlt
      have := le_max_right (Int.log 2 |x|) emin
      omega
    have hyge : (2 : ℚ) ^ (ulpExp prec emin y + ((prec : ℤ) - 1)) ≤ y := by
      have h1 : (2 : ℚ) ^ (Int.log 2 y) ≤ y := by
        exact_mod_cast Int.zpow_log_le_self (R := ℚ) (b := 2) (by norm_num) hy0
      refine le_trans (le_of_eq ?_) h1
      unfold ulpExp
      rw [hylog]
      congr 1
      ring
    have hyr : (2 : ℚ) ^ (ulpExp prec emin y + ((prec : ℤ) - 1)) ≤ roundFmt prec emin y := by
      unfold roundFmt
      have hu := two_zpow_pos (ulpExp prec emin y)
      obtain ⟨j, hj⟩ : ∃ j : ℕ, (prec : ℤ) - 1 = j := ⟨prec - 1, by omega⟩
      have hq : (((2 : ℤ) ^ j : ℤ) : ℚ) ≤ y / (2 : ℚ) ^ ulpExp prec emin y := by
        rw [le_div_iff₀ hu]
        push_cast
        rw [← zpow_natCast, ← zpow_add₀ (by norm_num : (2:ℚ) ≠ 0), add_comm, ← hj]
        exact hyge
      have := rne_mono hq
      rw [rne_intCast] at this
      have h3 : (2 : ℚ) ^ ((prec : ℤ) - 1) ≤ (rne (y / (2 : ℚ) ^ ulpExp prec emin y) : ℚ) := by
        rw [hj, zpow_natCast]; exact_mod_cast this
      calc (2 : ℚ) ^ (ulpExp prec emin y + ((prec : ℤ) - 1))
          = (2 : ℚ) ^ ((prec : ℤ) - 1) * (2 : ℚ) ^ ulpExp prec emin y := by
            rw [← zpow_add₀ (by norm_num : (2:ℚ) ≠ 0), add_comm]
        _ ≤ _ := mul_le_mul_of_nonneg_right h3 hu.le
    calc roundFmt prec emin x ≤ (2 : ℚ) ^ (ulpExp prec emin x + prec) := hxr
      _ ≤ (2 : ℚ) ^ (ulpExp prec emin y + ((prec : ℤ) - 1)) := by
          apply zpow_le_zpow_right₀ (by norm_num); omega
      _ ≤ roundFmt prec emin y := hyr
  · unfold roundFmt
    rw [heq]
    have hu := two_zpow_pos (ulpExp prec emin y)
    have hq : x / (2 : ℚ) ^ ulpExp prec emin y ≤ y / (2 : ℚ) ^ ulpExp prec emin y :=
      div_le_div_of_nonneg_right hxy hu.le
    have := rne_mono hq
    have h3 : (rne (x / (2 : ℚ) ^ ulpExp prec emin y) : ℚ) ≤ rne (y / (2 : ℚ) ^ ulpExp prec emin y) := by
      exact_mod_cast this
    exact mul_le_mul_of_nonneg_right h3 hu.le

theorem roundFmt_sub_le (prec : ℕ) (emin : ℤ) (x : ℚ) :
    |roundFmt prec emin x - x| ≤ (2 : ℚ) ^ ulpExp prec emin x / 2 := by
  unfold roundFmt
  have hu := two_zpow_pos (ulpExp prec emin x)
  have h := rne_sub_le (x / (2 : ℚ) ^ ulpExp prec emin x)
  have e : (rne (x / (2 : ℚ) ^ ulpExp prec emin x) : ℚ) * (2 : ℚ) ^ ulpExp prec emin x - x
      = ((rne (x / (2 : ℚ) ^ ulpExp prec emin x) : ℚ) - x / (2 : ℚ) ^ ulpExp prec emin x)
          * (2 : ℚ) ^ ulpExp prec emin x := by
    rw [sub_mul, div_mul_cancel₀ _ hu.ne']
  rw [e, abs_mul, abs_of_pos hu]
  calc _ ≤ (1/2 : ℚ) * (2 : ℚ) ^ ulpExp prec emin x := mul_le_mul_of_nonneg_right h hu.le
    _ = _ := by ring

theorem ulpExp_le (prec : ℕ) (emin : ℤ) (x : ℚ) (e : ℤ) (he : emin ≤ e) (hx0 : x ≠ 0)
    (hx : |x| < (2 : ℚ) ^ (e + 1)) : ulpExp prec emin x ≤ e - ((prec : ℤ) - 1) := by
  unfold ulpExp
  have hpos : 0 < |x| := abs_pos.2 hx0
  have hlog : Int.log 2 |x| ≤ e := by
    have := (Int.lt_zpow_iff_log_lt (R := ℚ) (b := 2) (by norm_num) hpos).1
      (by exact_mod_cast hx)
    omega
  have := max_le hlog he
  omega

/-- The rounding error is at most half a unit in the last place; for `|x| < 2^(e+1)` this is
`2^(e - prec)`. -/
theorem roundFmt_sub_le_of_lt (prec : ℕ) (emin : ℤ) (x : ℚ) (e : ℤ) (he : emin ≤ e)
    (hx : |x| < (2 : ℚ) ^ (e + 1)) :
    |roundFmt prec emin x - x| ≤ (2 : ℚ) ^ (e - (prec : ℤ)) := by
  by_cases hx0 : x = 0
  · subst hx0
    rw [roundFmt_zero, sub_zero, abs_zero]
    exact (two_zpow_pos _).le
  refine le_trans (roundFmt_sub_le prec emin x) ?_
  have h := ulpExp_le prec emin x e he hx0 hx
  have h2 : (2 : ℚ) ^ ulpExp prec emin x ≤ (2 : ℚ) ^ (e - ((prec : ℤ) - 1)) :=
    zpow_le_zpow_right₀ (by norm_num) h
  have h3 : (2 : ℚ) ^ (e - ((prec : ℤ) - 1)) = 2 * (2 : ℚ) ^ (e - (prec : ℤ)) := by
    rw [show e - ((prec : ℤ) - 1) = 1 + (e - (prec : ℤ)) by ring,
      zpow_add₀ (by norm_num : (2:ℚ) ≠ 0), zpow_one]
  rw [h3] at h2
  linarith

/-- Relative form of the rounding error. -/
theorem roundFmt_sub_le_rel (prec : ℕ) (emin : ℤ) (x B : ℚ) (hB : |x| ≤ B)
    (hmin : (2 : ℚ) ^ emin ≤ B) :
    |roundFmt prec emin x - x| ≤ B * (2 : ℚ) ^ (-(prec : ℤ)) := by
  have hp := two_zpow_pos (-(prec : ℤ))
  have hBpos : 0 < B := lt_of_lt_of_le (two_zpow_pos emin) hmin
  by_cases hx0 : x = 0
  · subst hx0
    rw [roundFmt_zero, sub_zero, abs_zero]
    positivity
  refine le_trans (roundFmt_sub_le prec emin x) ?_
  have hpos : 0 < |x| := abs_pos.2 hx0
  have hpow : (2 : ℚ) ^ (max (Int.log 2 |x|) emin) ≤ B := by
    rcases max_cases (Int.log 2 |x|) emin with ⟨h1, _⟩ | ⟨h1, _⟩
    · rw [h1]
      have : (2 : ℚ) ^ Int.log 2 |x| ≤ |x| := by
        exact_mod_cast Int.zpow_log_le_self (R := ℚ) (b := 2) (by norm_num) hpos
      exact le_trans this hB
    · rw [h1]; exact hmin
  unfold ulpExp
  rw [show max (Int.log 2 |x|) emin - ((prec : ℤ) - 1)
      = max (Int.log 2 |x|) emin + (1 + -(prec : ℤ)) by ring,
    zpow_add₀ (by norm_num : (2:ℚ) ≠ 0), zpow_add₀ (by norm_num : (2:ℚ) ≠ 0), zpow_one]
  have := mul_le_mul_of_nonneg_right hpow hp.le
  linarith

theorem roundFmt_intCast (prec : ℕ) (emin : ℤ) (n : ℤ) (hn : |n| < 2 ^ prec)
    (he : emin ≤ (prec : ℤ) - 1) : roundFmt prec emin (n : ℚ) = n := by
  have := roundFmt_exact prec emin n 0 hn (by omega)
  simpa using this

theorem roundFmt_le_of_le_exact (prec : ℕ) (emin : ℤ) (hp : 1 ≤ prec) {x y : ℚ}
    (hx : 0 ≤ x) (hxy : x ≤ y) (hy : roundFmt prec emin y = y) : roundFmt prec emin x ≤ y := by
  have := roundFmt_mono_nonneg prec emin hp hx hxy
  rwa [hy] at this

theorem dbl_intCast (n : ℤ) (hn : |n| < 2 ^ 53) : dbl (n : ℚ) = n :=
  roundFmt_intCast 53 (-1022) n hn (by norm_num)

theorem dbl_natCast (n : ℕ) (hn : n < 2 ^ 53) : dbl (n : ℚ) = n := by
  have := dbl_intCast (n : ℤ) (by rw [abs_of_nonneg (by positivity)]; exact_mod_cast hn)
  simpa using this

theorem flt_zero : flt 0 = 0 := roundFmt_zero 24 (-126)
theorem dbl_zero : dbl 0 = 0 := roundFmt_zero 53 (-1022)
theorem flt_one : flt 1 = 1 := by
  have := roundFmt_intCast 24 (-126) 1 (by norm_num) (by norm_num)
  simpa [flt] using this
theorem dbl_one : dbl 1 = 1 := by
  have := dbl_intCast 1 (by norm_num)
  simpa using this
theorem flt_half : flt (1 / 2) = 1 / 2 := by
  have := roundFmt_exact 24 (-126) 1 (-1) (by norm_num) (by norm_num)
  simpa [flt] using this
theorem dbl_half : dbl (1 / 2) = 1 / 2 := by
  have := roundFmt_exact 53 (-1022) 1 (-1) (by norm_num) (by norm_num)
  simpa [dbl] using this

theorem dbl_mono {x y : ℚ} (hx : 0 ≤ x) (hxy : x ≤ y) : dbl x ≤ dbl y :=
  roundFmt_mono_nonneg 53 (-1022) (by norm_num) hx hxy
theorem flt_mono {x y : ℚ} (hx : 0 ≤ x) (hxy : x ≤ y) : flt x ≤ flt y :=
  roundFmt_mono_nonneg 24 (-126) (by norm_num) hx hxy
theorem dbl_nonneg {x : ℚ} (hx : 0 ≤ x) : 0 ≤ dbl x := roundFmt_nonneg 53 (-1022) hx
theorem flt_nonneg {x : ℚ} (hx : 0 ≤ x) : 0 ≤ flt x := roundFmt_nonneg 24 (-126) hx

theorem rne_eq_of_near (q : ℚ) (m : ℤ) (h : |q - m| < 1 / 2) : rne q = m := by
  have h1 := rne_sub_le q
  rw [abs_lt] at h
  rw [abs_le] at h1
  have h2 : ((rne q - m : ℤ) : ℚ) < 1 := by push_cast; linarith [h.1, h1.2]
  have h3 : (-1 : ℚ) < ((rne q - m : ℤ) : ℚ) := by push_cast; linarith [h.2, h1.1]
  have h4 : rne q - m < 1 := by exact_mod_cast h2
  have h5 : -1 < rne q - m := by exact_mod_cast h3
  omega

/-- Evaluation of a rounding from a certificate: the binade `e` of `x` and the integer `m`
nearest to `x` in units of the last place. -/
theorem roundFmt_eq_of_near (prec : ℕ) (emin : ℤ) (x : ℚ) (e m : ℤ) (hx0 : 0 < x)
    (h1 : (2 : ℚ) ^ e ≤ x) (h2 : x < (2 : ℚ) ^ (e + 1)) (he : emin ≤ e)
    (hm : |x / (2 : ℚ) ^ (e - ((prec : ℤ) - 1)) - m| < 1 / 2) :
    roundFmt prec emin x = m * (2 : ℚ) ^ (e - ((prec : ℤ) - 1)) := by
  have hlog : Int.log 2 |x| = e := by
    rw [abs_of_pos hx0]
    have a1 := (Int.zpow_le_iff_le_log (R := ℚ) (b := 2) (by norm_num) hx0).1
      (by exact_mod_cast h1)
    have a2 := (Int.lt_zpow_iff_log_lt (R := ℚ) (b := 2) (by norm_num) hx0).1
      (by exact_mod_cast h2)
    omega
  have hu : ulpExp prec emin x = e - ((prec : ℤ) - 1) := by
    unfold ulpExp
    rw [hlog, max_eq_left he]
  unfold roundFmt
  rw [hu, rne_eq_of_near _ m hm]

theorem trunc_intCast (n : ℤ) : trunc (n : ℚ) = n := by
  unfold trunc
  split_ifs <;> simp

theorem cround_intCast (n : ℤ) : cround (n : ℚ) = n := by
  unfold cround
  split_ifs
  · rw [Int.floor_eq_iff]; constructor <;> linarith
  · rw [Int.ceil_eq_iff]; constructor <;> linarith

theorem cround_sub_le (v : ℚ) : |(cround v : ℚ) - v| ≤ 1 / 2 := by
  unfold cround
  split_ifs
  · have h1 := Int.floor_le (v + 1 / 2)
    have h2 := Int.lt_floor_add_one (v + 1 / 2)
    rw [abs_le]; constructor <;> linarith
  · have h1 := Int.le_ceil (v - 1 / 2)
    have h2 := Int.ceil_lt_add_one (v - 1 / 2)
    rw [abs_le]; constructor <;> linarith

theorem cround_mem_of_nonneg (v : ℚ) (n : ℤ) (h0 : 0 ≤ v) (hn : v ≤ n) :
    0 ≤ cround v ∧ cround v ≤ n := by
  unfold cround
  rw [if_pos h0]
  constructor
  · apply Int.floor_nonneg.2; linarith
  · have : ⌊v + 1 / 2⌋ ≤ ⌊(n : ℚ) + 1 / 2⌋ := Int.floor_mono (by linarith)
    have h2 : ⌊(n : ℚ) + 1 / 2⌋ = n := by
      rw [Int.floor_eq_iff]; constructor <;> linarith
    omega

theorem castInt64_intCast (n : ℤ) (h1 : -2 ^ 63 ≤ n) (h2 : n < 2 ^ 63) :
    castInt64 (n : ℚ) = some n := by
  unfold castInt64
  rw [trunc_intCast, if_pos ⟨h1, h2⟩]

theorem castUInt64_natCast (n : ℕ) (h2 : n < 2 ^ 64) :
    castUInt64 (n : ℚ) = some n := by
  unfold castUInt64
  have : trunc (n : ℚ) = (n : ℤ) := by exact_mod_cast trunc_intCast n
  rw [this, if_pos ⟨by positivity, by exact_mod_cast h2⟩]
  simp

theorem flt_fifth : flt (1 / 5) = 13421773 / 67108864 := by
  have := roundFmt_eq_of_near 24 (-126) (1 / 5) (-3) 13421773 (by norm_num) (by norm_num)
    (by norm_num) (by norm_num) (by norm_num [abs_lt])
  rw [flt, this]
  norm_num

/-! ### The duty computed from a percentage -/

/-- The `float` quotient `p / 100` of an in-range percentage lies in `[0, 1]` and is within
`2^(-24)` of the exact quotient. -/
theorem flt_percent (p : ℚ) (h0 : 0 ≤ p) (h1 : p ≤ 100) :
    0 ≤ flt (p / 100) ∧ flt (p / 100) ≤ 1 ∧ |flt (p / 100) - p / 100| ≤ (2 : ℚ) ^ (-24 : ℤ) := by
  have hq0 : (0 : ℚ) ≤ p / 100 := by positivity
  have hq1 : p / 100 ≤ 1 := by rw [div_le_one (by norm_num)]; exact h1
  refine ⟨flt_nonneg hq0, ?_, ?_⟩
  · have := flt_mono hq0 hq1
    rwa [flt_one] at this
  · have := roundFmt_sub_le_of_lt 24 (-126) (p / 100) 0 (by norm_num)
      (by rw [abs_of_nonneg hq0]; norm_num; linarith)
    simpa [flt] using this

/-- The `double` factor `1.0 - a` for `a` in `[0, 1]` lies in `[0, 1]` and is within
`2^(-53)` of the exact difference. -/
theorem dbl_one_sub (a : ℚ) (h0 : 0 ≤ a) (h1 : a ≤ 1) :
    0 ≤ dbl (1 - a) ∧ dbl (1 - a) ≤ 1 ∧ |dbl (1 - a) - (1 - a)| ≤ (2 : ℚ) ^ (-53 : ℤ) := by
  have hq0 : (0 : ℚ) ≤ 1 - a := by linarith
  have hq1 : 1 - a ≤ 1 := by linarith
  refine ⟨dbl_nonneg hq0, ?_, ?_⟩
  · have := dbl_mono hq0 hq1
    rwa [dbl_one] at this
  · have := roundFmt_sub_le_of_lt 53 (-1022) (1 - a) 0 (by norm_num)
      (by rw [abs_of_nonneg hq0]; norm_num; linarith)
    simpa [dbl] using this

theorem dutyFromPercent_bound (P : ℤ) (p : ℚ) (hP : |P| < 2 ^ 53) (h0 : 0 ≤ p) (h1 : p ≤ 100) :
    ∃ v : ℤ, dutyFromPercent P p = some v ∧
      |(v : ℚ) - (P : ℚ) * (1 - p / 100)| ≤ 1 / 2 + |(P : ℚ)| / 2 ^ 23 := by
  obtain ⟨ha0, ha1, haerr⟩ := flt_percent p h0 h1
  obtain ⟨hb0, hb1, hberr⟩ := dbl_one_sub (flt (p / 100)) ha0 ha1
  set a := flt (p / 100) with ha
  set b := dbl (1 - a) with hb
  have hPd : dbl (P : ℚ) = P := dbl_intCast P hP
  have hPq : |(P : ℚ)| < 2 ^ 53 := by exact_mod_cast hP
  have hPb : |(P : ℚ) * b| ≤ |(P : ℚ)| := by
    rw [abs_mul, abs_of_nonneg hb0]
    exact mul_le_of_le_one_right (abs_nonneg _) hb1
  -- the product
  have hc : |dbl ((P : ℚ) * b) - (P : ℚ) * b| ≤ |(P : ℚ)| * (2 : ℚ) ^ (-53 : ℤ) := by
    by_cases hP0 : P = 0
    · subst hP0; simp [dbl_zero]
    · have hP1 : (1 : ℚ) ≤ |(P : ℚ)| := by
        have : (1 : ℤ) ≤ |P| := Int.one_le_abs hP0
        exact_mod_cast this
      have := roundFmt_sub_le_rel 53 (-1022) ((P : ℚ) * b) |(P : ℚ)| hPb
        (le_trans (zpow_le_one_of_nonpos₀ (by norm_num) (by norm_num)) hP1)
      simpa [dbl] using this
  set c := dbl ((P : ℚ) * b) with hcdef
  have hd := cround_sub_le c
  have hcabs : |c| ≤ |(P : ℚ)| + 1 := by
    have h2 : |(P : ℚ)| * (2 : ℚ) ^ (-53 : ℤ) ≤ 1 := by
      have : (2 : ℚ) ^ (-53 : ℤ) = 1 / 2 ^ 53 := by norm_num
      rw [this]
      rw [mul_one_div, div_le_one (by norm_num)]
      exact hPq.le
    calc |c| = |(c - (P : ℚ) * b) + (P : ℚ) * b| := by ring_nf
      _ ≤ |c - (P : ℚ) * b| + |(P : ℚ) * b| := abs_add _ _
      _ ≤ 1 + |(P : ℚ)| := by linarith
      _ = _ := by ring
  have hvabs : |(cround c : ℚ)| ≤ |(P : ℚ)| + 2 := by
    calc |(cround c : ℚ)| = |((cround c : ℚ) - c) + c| := by ring_nf
      _ ≤ |(cround c : ℚ) - c| + |c| := abs_add _ _
      _ ≤ _ := by linarith
  have hvint : |cround c| < 2 ^ 53 + 2 := by
    have : |((cround c : ℤ) : ℚ)| < 2 ^ 53 + 2 := by linarith
    exact_mod_cast this
  rw [abs_lt] at hvint
  refine ⟨cround c, ?_, ?_⟩
  · unfold dutyFromPercent
    rw [hPd]
    exact castInt64_intCast (cround c) (by omega) (by omega)
  · have e : (cround c : ℚ) - (P : ℚ) * (1 - p / 100)
        = ((cround c : ℚ) - c) + (c - (P : ℚ) * b) + (P : ℚ) * (b - (1 - a))
          + (P : ℚ) * (p / 100 - a) := by ring
    have t3 : |(P : ℚ) * (b - (1 - a))| ≤ |(P : ℚ)| * (2 : ℚ) ^ (-53 : ℤ) := by
      rw [abs_mul]; exact mul_le_mul_of_nonneg_left hberr (abs_nonneg _)
    have t4 : |(P : ℚ) * (p / 100 - a)| ≤ |(P : ℚ)| * (2 : ℚ) ^ (-24 : ℤ) := by
      rw [abs_mul, abs_sub_comm]; exact mul_le_mul_of_nonneg_left haerr (abs_nonneg _)
    have hsum : |(cround c : ℚ) - (P : ℚ) * (1 - p / 100)|
        ≤ 1 / 2 + |(P : ℚ)| * (2 : ℚ) ^ (-53 : ℤ) + |(P : ℚ)| * (2 : ℚ) ^ (-53 : ℤ)
          + |(P : ℚ)| * (2 : ℚ) ^ (-24 : ℤ) := by
      rw [e]
      refine le_trans (abs_add _ _) (add_le_add ?_ t4)
      refine le_trans (abs_add _ _) (add_le_add ?_ t3)
      exact le_trans (abs_add _ _) (add_le_add hd hc)
    have hnn := abs_nonneg (P : ℚ)
    have e53 : (2 : ℚ) ^ (-53 : ℤ) = 1 / 2 ^ 53 := by norm_num
    have e24 : (2 : ℚ) ^ (-24 : ℤ) = 1 / 2 ^ 24 := by norm_num
    rw [e53, e24] at hsum
    refine le_trans hsum ?_
    have : |(P : ℚ)| * (1 / 2 ^ 53) + |(P : ℚ)| * (1 / 2 ^ 53) + |(P : ℚ)| * (1 / 2 ^ 24)
        ≤ |(P : ℚ)| / 2 ^ 23 := by
      have : |(P : ℚ)| * (1 / 2 ^ 53) + |(P : ℚ)| * (1 / 2 ^ 53) + |(P : ℚ)| * (1 / 2 ^ 24)
          = |(P : ℚ)| * (1 / 2 ^ 52 + 1 / 2 ^ 24) := by ring
      have key : (1 / 2 ^ 52 + 1 / 2 ^ 24 : ℚ) ≤ 1 / 2 ^ 23 := by norm_num
      have e2 : |(P : ℚ)| / 2 ^ 23 = |(P : ℚ)| * (1 / 2 ^ 23) := by ring
      rw [this, e2]
      exact mul_le_mul_of_nonneg_left key hnn
    linarith

theorem dutyFromPercent_zero (P : ℤ) (hP : |P| < 2 ^ 53) : dutyFromPercent P 0 = some P := by
  have hP2 := abs_lt.1 hP
  unfold dutyFromPercent
  rw [zero_div, flt_zero, sub_zero, dbl_one, mul_one, dbl_intCast P hP, dbl_intCast P hP,
    cround_intCast]
  exact castInt64_intCast P (by omega) (by omega)

theorem dutyFromPercent_hundred (P : ℤ) : dutyFromPercent P 100 = some 0 := by
  unfold dutyFromPercent
  rw [div_self (by norm_num), flt_one, sub_self, dbl_zero, mul_zero, dbl_zero]
  have h := cround_intCast 0
  have h2 := castInt64_intCast 0 (by norm_num) (by norm_num)
  simp only [Int.cast_zero] at h h2
  rw [h]
  simpa using h2

theorem dutyFromPercent_fifty (P : ℤ) (hP : |P| < 2 ^ 53) :
    dutyFromPercent P 50 = some (cround ((P : ℚ) / 2)) := by
  have hP2 := abs_lt.1 hP
  have hex : dbl ((P : ℚ) * (1 / 2)) = (P : ℚ) / 2 := by
    have := roundFmt_exact 53 (-1022) P (-1) hP (by norm_num)
    have e : (P : ℚ) * (2 : ℚ) ^ (-1 : ℤ) = (P : ℚ) * (1 / 2) := by norm_num
    rw [e] at this
    rw [dbl, this]; ring
  have hr := cround_sub_le ((P : ℚ) / 2)
  have hPq : |(P : ℚ)| < 2 ^ 53 := by exact_mod_cast hP
  have hv : |((cround ((P : ℚ) / 2) : ℤ) : ℚ)| < 2 ^ 53 := by
    have h2 : |(P : ℚ) / 2| ≤ |(P : ℚ)| / 2 := by rw [abs_div]; norm_num
    calc |((cround ((P : ℚ) / 2) : ℤ) : ℚ)|
        = |((cround ((P : ℚ) / 2) : ℚ) - (P : ℚ) / 2) + (P : ℚ) / 2| := by ring_nf
      _ ≤ |(cround ((P : ℚ) / 2) : ℚ) - (P : ℚ) / 2| + |(P : ℚ) / 2| := abs_add _ _
      _ < 2 ^ 53 := by
          have := abs_nonneg (P : ℚ)
          have h53 : (1 : ℚ) ≤ 2 ^ 53 := by norm_num
          linarith
  have hv2 : |cround ((P : ℚ) / 2)| < 2 ^ 53 := by exact_mod_cast hv
  rw [abs_lt] at hv2
  unfold dutyFromPercent
  rw [show (50 : ℚ) / 100 = 1 / 2 by norm_num, flt_half,
    show (1 : ℚ) - 1 / 2 = 1 / 2 by norm_num, dbl_half, dbl_intCast P hP, hex]
  exact castInt64_intCast _ (by omega) (by omega)

theorem dutyFromPercent_range (P : ℤ) (p : ℚ) (hP0 : 0 ≤ P) (hP : P < 2 ^ 53)
    (h0 : 0 ≤ p) (h1 : p ≤ 100) :
    ∃ v : ℤ, dutyFromPercent P p = some v ∧ 0 ≤ v ∧ v ≤ P := by
  obtain ⟨ha0, ha1, _⟩ := flt_percent p h0 h1
  obtain ⟨hb0, hb1, _⟩ := dbl_one_sub (flt (p / 100)) ha0 ha1
  have habs : |P| < 2 ^ 53 := by rw [abs_of_nonneg hP0]; exact hP
  have hPd : dbl (P : ℚ) = P := dbl_intCast P habs
  have hPq : (0 : ℚ) ≤ (P : ℚ) := by exact_mod_cast hP0
  have hc0 : 0 ≤ dbl ((P : ℚ) * dbl (1 - flt (p / 100))) := dbl_nonneg (mul_nonneg hPq hb0)
  have hc1 : dbl ((P : ℚ) * dbl (1 - flt (p / 100))) ≤ P := by
    have := dbl_mono (mul_nonneg hPq hb0) (mul_le_of_le_one_right hPq hb1)
    rwa [hPd] at this
  obtain ⟨hv0, hv1⟩ := cround_mem_of_nonneg _ P hc0 hc1
  refine ⟨cround (dbl ((P : ℚ) * dbl (1 - flt (p / 100)))), ?_, hv0, hv1⟩
  unfold dutyFromPercent
  rw [hPd]
  exact castInt64_intCast _ (by omega) (by omega)

theorem cround_eq_of_near (v : ℚ) (n : ℤ) (h : |v - n| < 1 / 2) : cround v = n := by
  rw [abs_lt] at h
  unfold cround
  split_ifs
  · rw [Int.floor_eq_iff]; constructor <;> linarith [h.1, h.2]
  · rw [Int.ceil_eq_iff]; constructor <;> linarith [h.1, h.2]

theorem dbl_factor_twenty : dbl (1 - flt (20 / 100)) = 53687091 / 67108864 := by
  rw [show (20 : ℚ) / 100 = 1 / 5 by norm_num, flt_fifth]
  have := roundFmt_exact 53 (-1022) 53687091 (-26) (by norm_num) (by norm_num)
  rw [dbl, show (1 : ℚ) - 13421773 / 67108864 = ((53687091 : ℤ) : ℚ) * (2 : ℚ) ^ (-26 : ℤ) by
    norm_num, this]
  norm_num

theorem dutyFromPercent_1e9_20 : dutyFromPercent 1000000000 20 = some 799999997 := by
  unfold dutyFromPercent
  rw [dbl_factor_twenty, dbl_intCast 1000000000 (by norm_num)]
  have := roundFmt_exact 53 (-1022) 104857599609375 (-17) (by norm_num) (by norm_num)
  rw [dbl, show ((1000000000 : ℤ) : ℚ) * (53687091 / 67108864)
      = ((104857599609375 : ℤ) : ℚ) * (2 : ℚ) ^ (-17 : ℤ) by norm_num, this,
    cround_eq_of_near _ 799999997 (by norm_num [abs_lt])]
  exact castInt64_intCast _ (by norm_num) (by norm_num)

theorem dutyFromPercent_500000_20 : dutyFromPercent 500000 20 = some 400000 := by
  unfold dutyFromPercent
  rw [dbl_factor_twenty, dbl_intCast 500000 (by norm_num)]
  have := roundFmt_exact 53 (-1022) 838860796875 (-21) (by norm_num) (by norm_num)
  rw [dbl, show ((500000 : ℤ) : ℚ) * (53687091 / 67108864)
      = ((838860796875 : ℤ) : ℚ) * (2 : ℚ) ^ (-21 : ℤ) by norm_num, this,
    cround_eq_of_near _ 400000 (by norm_num [abs_lt])]
  exact castInt64_intCast _ (by norm_num) (by norm_num)

theorem dutyFromPercent_900000_50 : dutyFromPercent 900000 50 = some 450000 := by
  rw [dutyFromPercent_fifty 900000 (by norm_num),
    cround_eq_of_near _ 450000 (by norm_num [abs_lt])]

/-! ### Decimal text -/

theorem digitChar_spec (d : ℕ) (h : d < 10) :
    (Nat.digitChar d).isDigit = true ∧ (Nat.digitChar d).toNat - 48 = d := by
  interval_cases d <;> decide

theorem isSpace_of_isDigit (c : Char) (h : c.isDigit = true) : isSpace c = false := by
  by_contra hs
  rw [Bool.not_eq_false] at hs
  simp only [isSpace, Bool.or_eq_true, decide_eq_true_eq] at hs
  rcases hs with ((((rfl | rfl) | rfl) | rfl) | rfl) | rfl <;> revert h <;> decide

theorem not_sign_of_isDigit (c : Char) (h : c.isDigit = true) : c ≠ '-' ∧ c ≠ '+' := by
  constructor <;> (rintro rfl; revert h; decide)

theorem digitsValue_append (l₁ l₂ : List Char) (a : ℕ) :
    digitsValue (l₁ ++ l₂) a = digitsValue l₂ (digitsValue l₁ a) := by
  induction l₁ generalizing a with
  | nil => rfl
  | cons c cs ih =>
    rw [List.cons_append, digitsValue, digitsValue]
    exact ih _

theorem toDigitsCore_spec (fuel : ℕ) : ∀ (n : ℕ) (acc : List Char), n < fuel →
    ∃ ds : List Char, Nat.toDigitsCore 10 fuel n acc = ds ++ acc ∧ ds ≠ [] ∧
      (∀ c ∈ ds, c.isDigit = true) ∧ ∀ a, digitsValue ds a = a * 10 ^ ds.length + n := by
  induction fuel with
  | zero => intro n acc h; omega
  | succ fuel ih =>
    intro n acc h
    have hd := digitChar_spec (n % 10) (Nat.mod_lt _ (by norm_num))
    rw [Nat.toDigitsCore]
    by_cases hq : n / 10 = 0
    · simp only [hq, if_true]
      refine ⟨[Nat.digitChar (n % 10)], rfl, by simp, ?_, ?_⟩
      · intro c hc
        rw [List.mem_singleton.1 hc]; exact hd.1
      · intro a
        simp only [digitsValue, List.length_singleton, pow_one, hd.2]
        have : n % 10 = n := by omega
        omega
    · simp only [hq, if_false]
      obtain ⟨ds, h1, h2, h3, h4⟩ := ih (n / 10) (Nat.digitChar (n % 10) :: acc) (by omega)
      refine ⟨ds ++ [Nat.digitChar (n % 10)], ?_, by simp, ?_, ?_⟩
      · rw [h1]; simp
      · intro c hc
        rcases List.mem_append.1 hc with hc | hc
        · exact h3 c hc
        · rw [List.mem_singleton.1 hc]; exact hd.1
      · intro a
        rw [digitsValue_append, h4]
        simp only [digitsValue, List.length_append, List.length_singleton, hd.2]
        have := Nat.div_add_mod n 10
        rw [pow_succ]
        nlinarith [Nat.div_add_mod n 10]

/-- The decimal text of a natural number: a non-empty run of digits whose value is the
number. -/
theorem toString_nat_spec (n : ℕ) :
    (toString n).data ≠ [] ∧ (∀ c ∈ (toString n).data, c.isDigit = true) ∧
      digitsValue (toString n).data 0 = n := by
  obtain ⟨ds, h1, h2, h3, h4⟩ := toDigitsCore_spec (n + 1) n [] (Nat.lt_succ_self n)
  have e : (toString n).data = ds := by
    show (Nat.repr n).data = ds
    rw [Nat.repr, Nat.toDigits, h1, List.append_nil]
    rfl
  rw [e]
  refine ⟨h2, h3, ?_⟩
  rw [h4]; simp

theorem dropWhile_isSpace_digits (ds : List Char) (hd : ∀ c ∈ ds, c.isDigit = true) :
    ds.dropWhile isSpace = ds := by
  cases ds with
  | nil => rfl
  | cons c cs =>
    rw [List.dropWhile_cons, isSpace_of_isDigit c (hd c (List.mem_cons_self c cs))]
    rfl

theorem extractInt64?_digits (ds : List Char) (hne : ds ≠ [])
    (hd : ∀ c ∈ ds, c.isDigit = true) :
    extractInt64? ds = some (clampInt64 (digitsValue ds 0 : ℤ)) := by
  have hdrop := dropWhile_isSpace_digits ds hd
  have htake : ds.takeWhile Char.isDigit = ds := List.takeWhile_eq_self_iff.2 hd
  obtain ⟨c, cs, rfl⟩ := List.exists_cons_of_ne_nil hne
  have hc := not_sign_of_isDigit c (hd c (List.mem_cons_self c cs))
  have hm : ¬ ((c :: cs).head? = some '-') := by simp [hc.1]
  have hp : ¬ ((c :: cs).head? = some '-' ∨ (c :: cs).head? = some '+') := by
    simp [hc.1, hc.2]
  unfold extractInt64?
  simp only [hdrop]
  rw [if_neg hp, htake, if_neg hne, if_neg hm]

theorem extractInt64?_toString_nat (n : ℕ) (h : n < 2 ^ 63) :
    extractInt64? (toString n).data = some (n : ℤ) := by
  obtain ⟨h1, h2, h3⟩ := toString_nat_spec n
  rw [extractInt64?_digits _ h1 h2, h3]
  unfold clampInt64
  congr 1
  have : (n : ℤ) < 2 ^ 63 := by exact_mod_cast h
  have hn : (0 : ℤ) ≤ n := by positivity
  rw [min_eq_left (by omega), max_eq_right (by omega)]

theorem extractString_toString_nat (n : ℕ) : extractString (toString n).data = toString n := by
  obtain ⟨_, h2, _⟩ := toString_nat_spec n
  unfold extractString
  rw [dropWhile_isSpace_digits _ h2]
  have : (toString n).data.takeWhile (fun c => !isSpace c) = (toString n).data := by
    apply List.takeWhile_eq_self_iff.2
    intro c hc
    rw [isSpace_of_isDigit c (h2 c hc)]; rfl
  rw [this]

/-- An extraction that yields an integer stores it, whatever the variable held. -/
theorem extractInt64_of_some (old : ℤ) (s : List Char) (v : ℤ)
    (h : extractInt64? s = some v) : extractInt64 old s = v := by
  have hne : s.dropWhile isSpace ≠ [] := by
    intro e
    unfold extractInt64? at h
    simp [e] at h
  unfold extractInt64
  rw [if_neg hne, h]
  rfl

/-- An extraction from nothing but whitespace leaves the variable as it was. -/
theorem extractInt64_of_blank (old : ℤ) (s : List Char) (h : ∀ c ∈ s, isSpace c = true) :
    extractInt64 old s = old := by
  have e : s.dropWhile isSpace = [] := by
    rw [List.dropWhile_eq_nil_iff]
    exact h
  unfold extractInt64
  rw [if_pos e]

theorem toString_int_of_nonneg (v : ℤ) (h : 0 ≤ v) : toString v = toString v.toNat := by
  obtain ⟨n, rfl⟩ := Int.eq_ofNat_of_zero_le h
  rfl

/-! ### Directory search -/

theorem strstr_iff (hay needle : List Char) : strstr hay needle = true ↔ needle <:+: hay := by
  induction hay with
  | nil =>
    cases needle with
    | nil => simp [strstr]
    | cons a t => simp [strstr]
  | cons c hay ih =>
    rw [strstr, Bool.or_eq_true, ih, List.isPrefixOf_iff_prefix, List.infix_cons_iff]

theorem matches_iff (s name : String) :
    Matches s name ↔
      (name.data.head? ≠ some '.' ∧ strstr name.data s.data = true) := by
  rw [Matches, strstr_iff]

theorem scanEntries_noMatch (nf s : String) (l : List String)
    (h : ∀ y ∈ l, ¬ Matches s y) : scanEntries nf s l = nf := by
  induction l with
  | nil => rfl
  | cons a t ih =>
    have ha := h a (List.mem_cons_self a t)
    have ht := ih (fun y hy => h y (List.mem_cons_of_mem a hy))
    rw [matches_iff] at ha
    rw [scanEntries]
    by_cases hd : a.data.head? = some '.'
    · rw [if_pos hd]; exact ht
    · rw [if_neg hd]
      have hs : ¬ strstr a.data s.data = true := fun hs => ha ⟨hd, hs⟩
      rw [if_neg hs]; exact ht

theorem scanEntries_firstMatch (nf s : String) (l : List String) (x : String)
    (h : FirstMatch s l x) : scanEntries nf s l = x := by
  obtain ⟨pre, post, rfl, hx, hpre⟩ := h
  induction pre with
  | nil =>
    rw [matches_iff] at hx
    rw [List.nil_append, scanEntries, if_neg hx.1, if_pos hx.2]
  | cons a t ih =>
    have ha := hpre a (List.mem_cons_self a t)
    have ht := ih (fun y hy => hpre y (List.mem_cons_of_mem a hy))
    rw [matches_iff] at ha
    rw [List.cons_append, scanEntries]
    by_cases hd : a.data.head? = some '.'
    · rw [if_pos hd]; exact ht
    · rw [if_neg hd]
      have hs : ¬ strstr a.data s.data = true := fun hs => ha ⟨hd, hs⟩
      rw [if_neg hs]; exact ht

theorem firstMatch_or_none (s : String) (l : List String) :
    (∀ y ∈ l, ¬ Matches s y) ∨ ∃ x, FirstMatch s l x := by
  induction l with
  | nil => left; intro y hy; cases hy
  | cons a t ih =>
    by_cases ha : Matches s a
    · right; exact ⟨a, [], t, rfl, ha, fun y hy => by cases hy⟩
    · rcases ih with h | ⟨x, pre, post, rfl, hx, hpre⟩
      · left
        intro y hy
        rcases List.mem_cons.1 hy with rfl | hy
        · exact ha
        · exact h y hy
      · right
        refine ⟨x, a :: pre, post, rfl, hx, ?_⟩
        intro y hy
        rcases List.mem_cons.1 hy with rfl | hy
        · exact ha
        · exact hpre y hy

theorem firstMatch_unique (s : String) (l : List String) (x y : String)
    (hx : FirstMatch s l x) (hy : FirstMatch s l y) : x = y := by
  rw [← scanEntries_firstMatch "" s l x hx, ← scanEntries_firstMatch "" s l y hy]

/-- Whatever the value of the sentinel, as long as it does not begin with a dot: in a
directory whose only entry carries the sentinel's name, searching that name returns the
sentinel although the entry matches. -/
theorem sentinel_collision (d : BlackDef) (fs : DirTree) (dir : String)
    (hfs : fs dir = some [d.SEARCH_DIR_NOT_FOUND])
    (hdot : d.SEARCH_DIR_NOT_FOUND.data.head? ≠ some '.') :
    searchDirectory d fs dir d.SEARCH_DIR_NOT_FOUND = d.SEARCH_DIR_NOT_FOUND
      ∧ FirstMatch d.SEARCH_DIR_NOT_FOUND [d.SEARCH_DIR_NOT_FOUND] d.SEARCH_DIR_NOT_FOUND := by
  have hm : FirstMatch d.SEARCH_DIR_NOT_FOUND [d.SEARCH_DIR_NOT_FOUND]
      d.SEARCH_DIR_NOT_FOUND :=
    ⟨[], [], rfl, ⟨hdot, List.infix_refl _⟩, fun y hy => by cases hy⟩
  refine ⟨?_, hm⟩
  rw [searchDirectory, hfs]
  exact scanEntries_firstMatch _ _ _ _ hm

/-- C1 (counterexample): the sentinel is an ordinary string, so "returns the
sentinel exactly when the directory cannot be opened or no entry matches" fails
when the first matching entry carries the sentinel's own name.  With the
sentinel "Not Found" and a directory whose only entry is named "Not Found",
searching "Not" returns the sentinel although the directory was opened and the
entry matches.  (The same happens for every value of the sentinel that does not begin
with a dot, see `sentinel_collision`.) -/
theorem C1_sentinel_collision :
    searchDirectory sampleDef collisionDir "/sys/devices/" "Not"
        = sampleDef.SEARCH_DIR_NOT_FOUND
      ∧ ¬ (collisionDir "/sys/devices/" = none
            ∨ ∃ l, collisionDir "/sys/devices/" = some l ∧ ∀ y ∈ l, ¬ Matches "Not" y) := by
  refine ⟨by decide, ?_⟩
  rintro (h | ⟨l, hl, hno⟩)
  · simp [collisionDir] at h
  · have hl2 : l = ["Not Found"] := by
      simp only [collisionDir, Option.some.injEq] at hl
      exact hl.symm
    subst hl2
    apply hno "Not Found" (List.mem_singleton.2 rfl)
    rw [matches_iff]
    decide

/-- C1 (amended): `searchDirectory` returns the first entry, in iteration order,
whose name does not begin with a dot and contains `s`, whenever there is one; it
returns `SEARCH_DIR_NOT_FOUND` when the directory cannot be opened and when no
such entry exists; and when it returns `SEARCH_DIR_NOT_FOUND`, the directory
could not be opened, or no such entry exists, or the first such entry is itself
named `SEARCH_DIR_NOT_FOUND`.  In the directory `.`, `..`, `foo.1`, `bar.2`,
searching `foo.` returns `foo.1` and searching `baz.` returns the sentinel. -/
theorem C1_searchDirectory (d : BlackDef) (fs : DirTree) (dir s : String) :
    (∀ l x, fs dir = some l → FirstMatch s l x → searchDirectory d fs dir s = x)
    ∧ (fs dir = none → searchDirectory d fs dir s = d.SEARCH_DIR_NOT_FOUND)
    ∧ (∀ l, fs dir = some l → (∀ y ∈ l, ¬ Matches s y) →
        searchDirectory d fs dir s = d.SEARCH_DIR_NOT_FOUND)
    ∧ (searchDirectory d fs dir s = d.SEARCH_DIR_NOT_FOUND →
        fs dir = none ∨ ∃ l, fs dir = some l ∧
          ((∀ y ∈ l, ¬ Matches s y) ∨ FirstMatch s l d.SEARCH_DIR_NOT_FOUND))
    ∧ searchDirectory d fakeDir dir "foo." = "foo.1"
    ∧ searchDirectory d fakeDir dir "baz." = d.SEARCH_DIR_NOT_FOUND := by
  refine ⟨?_, ?_, ?_, ?_, ?_, ?_⟩
  · intro l x hl hx
    rw [searchDirectory, hl]
    exact scanEntries_firstMatch _ s l x hx
  · intro h
    rw [searchDirectory, h]
  · intro l hl hno
    rw [searchDirectory, hl]
    exact scanEntries_noMatch _ s l hno
  · intro h
    cases hfs : fs dir with
    | none => exact Or.inl rfl
    | some l =>
      right
      refine ⟨l, rfl, ?_⟩
      rcases firstMatch_or_none s l with hno | ⟨x, hx⟩
      · exact Or.inl hno
      · right
        have hres : searchDirectory d fs dir s = x := by
          rw [searchDirectory, hfs]
          exact scanEntries_firstMatch _ s l x hx
        rw [← h, hres]
        exact hx
  · simp only [searchDirectory, fakeDir]
    simp [scanEntries, strstr]
  · simp only [searchDirectory, fakeDir]
    simp [scanEntries, strstr]

/-! ### `setDutyPercent` -/

theorem range_test_of_outside (p : F32) (h : p.Outside) : (p.gt 100 || p.lt 0) = true := by
  cases p with
  | finite q =>
    rcases h with h | h
    · simp [F32.gt, F32.lt, h]
    · simp [F32.gt, F32.lt, h]
  | posInf => simp [F32.gt, F32.lt]
  | negInf => simp [F32.gt, F32.lt]
  | nan => exact absurd h (by simp [F32.Outside])

theorem range_test_of_inside (p : ℚ) (h0 : 0 ≤ p) (h1 : p ≤ 100) :
    ((F32.finite p).gt 100 || (F32.finite p).lt 0) = false := by
  simp [F32.gt, F32.lt, h0, h1]

theorem setDutyPercent_outside (d : BlackDef) (st : BlackPWM) (p : F32) (h : p.Outside) :
    setDutyPercent d st p
      = some (false, ((st.setOutOfRange true).setDutyFileError true).setPeriodFileError true) := by
  unfold setDutyPercent
  rw [if_pos (range_test_of_outside p h)]

theorem getNumericPeriodValue_holds (d : BlackDef) (st : BlackPWM) (P : ℤ)
    (h : st.periodFile.HoldsInt P) :
    getNumericPeriodValue d st = (P, st.setPeriodFileError false) := by
  unfold getNumericPeriodValue
  rw [if_pos h.1, extractInt64_of_some _ _ P h.2]

/-- A NaN passes the range test of `setDutyPercent` (both comparisons are false): the
call clears `outOfRange`; when the duty file cannot be opened it returns false, and
otherwise the conversion of a NaN to `int64_t` is undefined. -/
theorem setDutyPercent_nan (d : BlackDef) (st : BlackPWM) :
    setDutyPercent d st F32.nan
      = if st.dutyFile.canWrite = true then none
        else some (false, (st.setOutOfRange false).setDutyFileError true) := by
  unfold setDutyPercent
  simp only [F32.gt, F32.lt, Bool.or_self, Bool.false_eq_true, if_false]
  rfl

theorem getNumericPeriodValue_snd (d : BlackDef) (st : BlackPWM) :
    (getNumericPeriodValue d st).2 = st.setPeriodFileError (!st.periodFile.canRead) := by
  unfold getNumericPeriodValue
  cases hr : st.periodFile.canRead <;> simp

theorem getNumericPeriodValue_fst_setOutOfRange (d : BlackDef) (st : BlackPWM) (b : Bool) :
    (getNumericPeriodValue d (st.setOutOfRange b)).1 = (getNumericPeriodValue d st).1 := by
  unfold getNumericPeriodValue
  have e : (st.setOutOfRange b).periodFile = st.periodFile := rfl
  rw [e]
  cases hr : st.periodFile.canRead <;> simp

theorem setDutyPercent_inside (d : BlackDef) (st : BlackPWM) (p : ℚ) (h0 : 0 ≤ p)
    (h1 : p ≤ 100) (hw : st.dutyFile.canWrite = true) :
    setDutyPercent d st (F32.finite p)
      = (dutyFromPercent (getNumericPeriodValue d st).1 p).map fun v =>
        (true,
          { ((st.setOutOfRange false).setPeriodFileError (!st.periodFile.canRead)).setDutyFileError
              false with
            dutyFile := st.dutyFile.write (toString v) }) := by
  unfold setDutyPercent
  have hne : ¬ (((F32.finite p).gt 100 || (F32.finite p).lt 0) = true) := by
    rw [range_test_of_inside p h0 h1]; simp
  rw [if_neg hne]
  have hw2 : (st.setOutOfRange false).dutyFile.canWrite = true := hw
  rw [if_pos hw2]
  simp only [getNumericPeriodValue_fst_setOutOfRange, getNumericPeriodValue_snd]
  rfl

theorem setDutyPercent_unwritable (d : BlackDef) (st : BlackPWM) (p : ℚ) (h0 : 0 ≤ p)
    (h1 : p ≤ 100) (hw : st.dutyFile.canWrite = false) :
    setDutyPercent d st (F32.finite p)
      = some (false, (st.setOutOfRange false).setDutyFileError true) := by
  unfold setDutyPercent
  have hne : ¬ (((F32.finite p).gt 100 || (F32.finite p).lt 0) = true) := by
    rw [range_test_of_inside p h0 h1]; simp
  rw [if_neg hne]
  have hw2 : ¬ ((st.setOutOfRange false).dutyFile.canWrite = true) := by
    show ¬ (st.dutyFile.canWrite = true)
    rw [hw]; simp
  rw [if_neg hw2]

/-- An in-range call on a state whose period reads as a value below `2^53` in absolute value
is defined, clears `outOfRange` and leaves the period file and the openness of the duty file
as they were. -/
theorem setDutyPercent_step (d : BlackDef) (st : BlackPWM) (p : ℚ) (h0 : 0 ≤ p)
    (h1 : p ≤ 100) (hP : |(getNumericPeriodValue d st).1| < 2 ^ 53) :
    ∃ b st', setDutyPercent d st (F32.finite p) = some (b, st') ∧
      st'.pwmErrors.outOfRange = false ∧ st'.periodFile = st.periodFile ∧
      st'.dutyFile.canWrite = st.dutyFile.canWrite := by
  cases hw : st.dutyFile.canWrite with
  | false =>
    refine ⟨false, _, setDutyPercent_unwritable d st p h0 h1 hw, rfl, rfl, ?_⟩
    exact hw
  | true =>
    obtain ⟨v, hv, _⟩ := dutyFromPercent_bound _ p hP h0 h1
    rw [setDutyPercent_inside d st p h0 h1 hw, hv]
    exact ⟨true, _, rfl, rfl, rfl, hw⟩

theorem flt_intCast (n : ℤ) (hn : |n| < 2 ^ 24) : flt (n : ℚ) = n :=
  roundFmt_intCast 24 (-126) n hn (by norm_num)

theorem percent_next (n : ℤ) (hn : |n + 25| < 2 ^ 24) :
    flt (dbl ((n : ℚ) + 25)) = ((n + 25 : ℤ) : ℚ) := by
  have e : (n : ℚ) + 25 = ((n + 25 : ℤ) : ℚ) := by push_cast; ring
  rw [e, dbl_intCast _ (lt_trans hn (by norm_num)), flt_intCast _ hn]

theorem percentLoop_step (d : BlackDef) (fuel : ℕ) (st : BlackPWM) (n : ℤ)
    (hn0 : 0 ≤ n) (hn1 : n ≤ 100) (ho : st.pwmErrors.outOfRange = false)
    (hP : |(getNumericPeriodValue d st).1| < 2 ^ 53) :
    ∃ st', st'.pwmErrors.outOfRange = false ∧
      (getNumericPeriodValue d st').1 = (getNumericPeriodValue d st).1 ∧
      percentLoop d (fuel + 1) st (n : ℚ)
        = (percentLoop d fuel st' ((n + 25 : ℤ) : ℚ)).map fun out =>
            ((n : ℚ) :: out.1, out.2) := by
  obtain ⟨b, st', hs, h1, h2, _⟩ := setDutyPercent_step d st (n : ℚ)
    (by exact_mod_cast hn0) (by exact_mod_cast hn1) hP
  refine ⟨st', h1, ?_, ?_⟩
  · unfold getNumericPeriodValue
    rw [h2]
    cases st.periodFile.canRead <;> rfl
  · have hf : st.failFlag flags.outOfRangeErr = false := ho
    rw [percentLoop, hf, hs, percent_next n (by rw [abs_lt]; constructor <;> omega)]
    rfl

theorem percentLoop_exit (d : BlackDef) (fuel : ℕ) (st : BlackPWM) (q : ℚ)
    (ho : st.pwmErrors.outOfRange = true) :
    percentLoop d (fuel + 1) st q = some ([], st) := by
  have hf : st.failFlag flags.outOfRangeErr = true := ho
  rw [percentLoop, hf]
  rfl

theorem percentLoop_last (d : BlackDef) (fuel : ℕ) (st : BlackPWM) (n : ℤ)
    (hn : 100 < n) (hn2 : n < 1000) (ho : st.pwmErrors.outOfRange = false) :
    ∃ st', st'.pwmErrors.outOfRange = true ∧
      percentLoop d (fuel + 2) st (n : ℚ) = some ([(n : ℚ)], st') := by
  have hout : (F32.finite (n : ℚ)).Outside := Or.inr (by exact_mod_cast hn)
  have hs := setDutyPercent_outside d st (F32.finite (n : ℚ)) hout
  have hf : st.failFlag flags.outOfRangeErr = false := ho
  refine ⟨((st.setOutOfRange true).setDutyFileError true).setPeriodFileError true, rfl, ?_⟩
  rw [percentLoop, hf, hs, percent_next n (by rw [abs_lt]; constructor <;> omega)]
  simp only [Bool.false_eq_true, if_false, Option.some_bind]
  rw [percentLoop_exit d fuel _ _ rfl]
  rfl

/-- C2, a percentage outside `[0, 100]` that is not rejected.  A NaN is not
within `[0, 100]`, but both comparisons of the test
`percantage > 100.0 or percantage < 0.0` are false of it: with a duty file that
cannot be opened `setDutyPercent(NaN)` returns false having cleared
`outOfRange` and left `periodFileError` false, where the claim has all three
flags set. -/
theorem C2_nan_not_rejected :
    ¬ F32.nan.InRange ∧
    ∃ st', setDutyPercent sampleDef lockedDutyState F32.nan = some (false, st') ∧
      st'.pwmErrors.outOfRange = false ∧ st'.pwmErrors.dutyFileError = true ∧
      st'.pwmErrors.periodFileError = false ∧
      ¬ (st'.pwmErrors.outOfRange = true ∧ st'.pwmErrors.dutyFileError = true ∧
          st'.pwmErrors.periodFileError = true) := by
  refine ⟨fun h => h, ?_⟩
  rw [setDutyPercent_nan]
  exact ⟨_, rfl, rfl, rfl, rfl, by decide⟩

/-- C2 (amended): for every percentage that compares below `0` or above `100`,
which is every percentage outside `[0, 100]` other than a NaN, `setDutyPercent`
returns false, sets the flags `outOfRange`, `dutyFileError` and `periodFileError`,
and leaves the four files exactly as they were, whatever the state and whether
or not the files can be opened.  The loop of the demo program, which starts
with 5 and adds 25 per round, calls `setDutyPercent` with 5, 30, 55, 80 and 105
and stops after the call with 105. -/
theorem C2_setDutyPercent_outOfRange :
    (∀ (d : BlackDef) (st : BlackPWM) (p : F32), p.Outside →
      ∃ st', setDutyPercent d st p = some (false, st') ∧
        st'.pwmErrors.outOfRange = true ∧ st'.pwmErrors.dutyFileError = true ∧
        st'.pwmErrors.periodFileError = true ∧
        st'.periodFile = st.periodFile ∧ st'.dutyFile = st.dutyFile ∧
        st'.runFile = st.runFile ∧ st'.polarityFile = st.polarityFile)
    ∧ (∀ (d : BlackDef) (st : BlackPWM), st.pwmErrors.outOfRange = false →
        |(getNumericPeriodValue d st).1| < 2 ^ 53 →
        ∃ st', percentLoop d 6 st 5 = some ([5, 30, 55, 80, 105], st') ∧
          st'.pwmErrors.outOfRange = true)
    ∧ (∀ p : F32, p ≠ F32.nan → (p.Outside ↔ ¬ p.InRange)) := by
  refine ⟨?_, ?_, ?_⟩
  · intro d st p hp
    exact ⟨_, setDutyPercent_outside d st p hp, rfl, rfl, rfl, rfl, rfl, rfl, rfl⟩
  · intro d st ho hP
    obtain ⟨s1, ho1, hP1, e1⟩ := percentLoop_step d 5 st 5 (by norm_num) (by norm_num) ho hP
    obtain ⟨s2, ho2, hP2, e2⟩ := percentLoop_step d 4 s1 30 (by norm_num) (by norm_num) ho1
      (by rw [hP1]; exact hP)
    obtain ⟨s3, ho3, hP3, e3⟩ := percentLoop_step d 3 s2 55 (by norm_num) (by norm_num) ho2
      (by rw [hP2, hP1]; exact hP)
    obtain ⟨s4, ho4, hP4, e4⟩ := percentLoop_step d 2 s3 80 (by norm_num) (by norm_num) ho3
      (by rw [hP3, hP2, hP1]; exact hP)
    obtain ⟨s5, ho5, e5⟩ := percentLoop_last d 0 s4 105 (by norm_num) (by norm_num) ho4
    refine ⟨s5, ?_, ho5⟩
    norm_num at e1 e2 e3 e4 e5
    rw [e1, e2, e3, e4, e5]
    rfl
  · intro p hp
    cases p with
    | finite q =>
      show (q < 0 ∨ 100 < q) ↔ ¬ (0 ≤ q ∧ q ≤ 100)
      constructor
      · rintro (h | h) ⟨h0, h1⟩ <;> linarith
      · intro h
        by_contra hc
        push_neg at hc
        exact h ⟨hc.1, hc.2⟩
    | posInf => exact ⟨fun _ h => h, fun _ => trivial⟩
    | negInf => exact ⟨fun _ h => h, fun _ => trivial⟩
    | nan => exact absurd rfl hp

/-- C3 (counterexample): with the period file holding 1000000000 and the percentage 20, the
duty written is 799999997, not `round(1000000000 * (1 - 20/100)) = 800000000`.  The quotient
`percantage/100` is a `float` division, and the `float` nearest to 0.2 is
0.20000000298023224, so the factor is 0.7999999970197678 and the product is
799999997.0197678. -/
theorem C3_rounding_counterexample :
    (sampleState "1000000000" "0").periodFile.HoldsInt 1000000000
    ∧ cround ((1000000000 : ℚ) * (1 - 20 / 100)) = 800000000
    ∧ ∃ st', setDutyPercent sampleDef (sampleState "1000000000" "0") (F32.finite 20)
          = some (true, st')
        ∧ st'.dutyFile.content = "799999997" := by
  have hh : (sampleState "1000000000" "0").periodFile.HoldsInt 1000000000 :=
    ⟨rfl, by decide⟩
  refine ⟨hh, cround_eq_of_near _ _ (by norm_num [abs_lt]), ?_⟩
  rw [setDutyPercent_inside sampleDef _ 20 (by norm_num) (by norm_num) rfl,
    getNumericPeriodValue_holds sampleDef _ 1000000000 hh, dutyFromPercent_1e9_20]
  exact ⟨_, rfl, by decide⟩

/-- C3 (amended): for every finite percentage `p` with `0 ≤ p ≤ 100` and every state in
which the period file holds an integer `P` with `|P| < 2^53` and the duty file can be
opened, `setDutyPercent(p)` clears `outOfRange`, returns true and leaves the duty file
holding an integer `v` with `|v - P * (1 - p/100)| ≤ 1/2 + |P| / 2^23`; the period file is
unchanged; `p = 0` writes `P`, `p = 100` writes `0` and `p = 50` writes `round(P/2)`. -/
theorem C3_setDutyPercent_inRange (d : BlackDef) (st : BlackPWM) (p : ℚ) (P : ℤ)
    (h0 : 0 ≤ p) (h1 : p ≤ 100) (hP : st.periodFile.HoldsInt P) (hPb : |P| < 2 ^ 53)
    (hw : st.dutyFile.canWrite = true) :
    ∃ (v : ℤ) (st' : BlackPWM),
      setDutyPercent d st (F32.finite p) = some (true, st') ∧
      st'.pwmErrors.outOfRange = false ∧ st'.pwmErrors.dutyFileError = false ∧
      st'.dutyFile.content = toString v ∧ st'.periodFile = st.periodFile ∧
      |(v : ℚ) - (P : ℚ) * (1 - p / 100)| ≤ 1 / 2 + |(P : ℚ)| / 2 ^ 23 ∧
      (p = 0 → v = P) ∧ (p = 100 → v = 0) ∧ (p = 50 → v = cround ((P : ℚ) / 2)) := by
  obtain ⟨v, hv, hb⟩ := dutyFromPercent_bound P p hPb h0 h1
  rw [setDutyPercent_inside d st p h0 h1 hw, getNumericPeriodValue_holds d st P hP, hv]
  refine ⟨v, _, rfl, rfl, rfl, rfl, rfl, hb, ?_, ?_, ?_⟩
  · rintro rfl
    rw [dutyFromPercent_zero P hPb] at hv
    exact (Option.some.inj hv).symm
  · rintro rfl
    rw [dutyFromPercent_hundred P] at hv
    exact (Option.some.inj hv).symm
  · rintro rfl
    rw [dutyFromPercent_fifty P hPb] at hv
    exact (Option.some.inj hv).symm

/-- C3 (witness): period 900000 with 50 percent gives duty 450000, and period 500000 with
20 percent gives duty 400000. -/
theorem C3_witness :
    (∃ st', setDutyPercent sampleDef (sampleState "900000" "0") (F32.finite 50)
        = some (true, st') ∧ st'.dutyFile.content = "450000")
    ∧ (∃ st', setDutyPercent sampleDef (sampleState "500000" "0") (F32.finite 20)
        = some (true, st') ∧ st'.dutyFile.content = "400000") := by
  constructor
  · obtain ⟨v, st', hs, _, _, hc, _, _, _, _, h50⟩ :=
      C3_setDutyPercent_inRange sampleDef (sampleState "900000" "0") 50 900000
        (by norm_num) (by norm_num) ⟨rfl, by decide⟩ (by norm_num) rfl
    have hv : v = 450000 := by
      rw [h50 rfl]
      exact cround_eq_of_near _ _ (by norm_num [abs_lt])
    subst hv
    exact ⟨st', hs, by rw [hc]; decide⟩
  · obtain ⟨v, st', hs, _, _, hc, _, hb, _, _, _⟩ :=
      C3_setDutyPercent_inRange sampleDef (sampleState "500000" "0") 20 500000
        (by norm_num) (by norm_num) ⟨rfl, by decide⟩ (by norm_num) rfl
    have hv : v = 400000 := by
      have h2 : |(v : ℚ) - 400000| < 1 := by
        refine lt_of_le_of_lt (le_trans (le_of_eq ?_) hb) (by norm_num [abs_of_nonneg])
        congr 1
        norm_num
      rw [abs_lt] at h2
      have h3 : ((v - 400000 : ℤ) : ℚ) < 1 := by push_cast; linarith [h2.2]
      have h4 : (-1 : ℚ) < ((v - 400000 : ℤ) : ℚ) := by push_cast; linarith [h2.1]
      have h5 : v - 400000 < 1 := by exact_mod_cast h3
      have h6 : -1 < v - 400000 := by exact_mod_cast h4
      omega
    subst hv
    exact ⟨st', hs, by rw [hc]; decide⟩

/-! ### The time setters -/

theorem dblFinite_of_exact (x : ℚ) (h : dbl x = x) (hb : |x| < (2 : ℚ) ^ (1024 : ℕ)) :
    dblFinite x = some x := by
  unfold dblFinite
  rw [h, if_pos hb]

theorem dblFinite_nonneg (x v : ℚ) (hx : 0 ≤ x) (h : dblFinite x = some v) : 0 ≤ v := by
  unfold dblFinite at h
  split_ifs at h
  rw [← Option.some.inj h]
  exact dbl_nonneg hx

theorem trunc_nonneg (v : ℚ) (h : 0 ≤ v) : 0 ≤ trunc v := by
  unfold trunc
  rw [if_pos h]
  exact Int.floor_nonneg.2 h

theorem pow10_natCast (j : ℕ) (hj : 10 ^ j < 2 ^ 53) :
    pow10 (j : ℤ) = some ((10 : ℚ) ^ j) := by
  unfold pow10
  rw [zpow_natCast]
  have e : ((10 : ℚ) ^ j) = (((10 ^ j : ℕ) : ℕ) : ℚ) := by push_cast; rfl
  have hx : dbl ((10 : ℚ) ^ j) = (10 : ℚ) ^ j := by
    rw [e]; exact dbl_natCast _ hj
  apply dblFinite_of_exact _ hx
  rw [e, abs_of_nonneg (by positivity)]
  have : ((10 ^ j : ℕ) : ℚ) < 2 ^ 53 := by exact_mod_cast hj
  refine lt_trans this ?_
  norm_num

theorem scaled_nonneg (value : ℕ) (tType : timeType) (v : ℚ)
    (h : scaled value tType = some v) : 0 ≤ v := by
  unfold scaled at h
  cases hp : pow10 (tType + 9) with
  | none => rw [hp] at h; cases h
  | some f =>
    rw [hp, Option.some_bind] at h
    have hf : 0 ≤ f := dblFinite_nonneg _ f (by positivity) hp
    exact dblFinite_nonneg _ v (mul_nonneg (dbl_nonneg (by positivity)) hf) h

/-- With a non-negative exponent and a product below `2^53` the scaling is exact. -/
theorem scaled_exact (value j : ℕ) (hj : 10 ^ j < 2 ^ 53) (h : value * 10 ^ j < 2 ^ 53) :
    scaled value ((j : ℤ) - 9) = some (((value * 10 ^ j : ℕ) : ℕ) : ℚ) := by
  unfold scaled
  have hv : value < 2 ^ 53 := by
    have : 1 ≤ 10 ^ j := Nat.one_le_pow _ _ (by norm_num)
    nlinarith
  rw [show (j : ℤ) - 9 + 9 = (j : ℤ) by ring, pow10_natCast j hj, Option.some_bind,
    dbl_natCast value hv]
  have e : (value : ℚ) * (10 : ℚ) ^ j = (((value * 10 ^ j : ℕ) : ℕ) : ℚ) := by push_cast; rfl
  rw [e]
  apply dblFinite_of_exact _ (dbl_natCast _ h)
  rw [abs_of_nonneg (by positivity)]
  have : (((value * 10 ^ j : ℕ) : ℕ) : ℚ) < 2 ^ 53 := by exact_mod_cast h
  refine lt_trans this ?_
  norm_num

theorem writeThis_exact (value j : ℕ) (hj : 10 ^ j < 2 ^ 53) (h : value * 10 ^ j < 2 ^ 53) :
    (scaled value ((j : ℤ) - 9)).bind castUInt64 = some (value * 10 ^ j) := by
  rw [scaled_exact value j hj h, Option.some_bind]
  exact castUInt64_natCast _ (lt_trans h (by norm_num))

theorem pow10_neg_three : pow10 (-3) = some (1152921504606847 / 1152921504606846976) := by
  have h := roundFmt_eq_of_near 53 (-1022) ((10 : ℚ) ^ (-3 : ℤ)) (-10) 4611686018427388
    (by norm_num) (by norm_num) (by norm_num) (by norm_num) (by norm_num [abs_lt])
  have hd : dbl ((10 : ℚ) ^ (-3 : ℤ)) = 1152921504606847 / 1152921504606846976 := by
    rw [dbl, h]; norm_num
  unfold pow10 dblFinite
  rw [hd, if_pos (by norm_num [abs_lt])]

theorem trunc_eq_of_mem (v : ℚ) (n : ℕ) (h0 : (n : ℚ) ≤ v) (h1 : v < n + 1) :
    trunc v = n := by
  have hv : (0 : ℚ) ≤ v := le_trans (by positivity) h0
  unfold trunc
  rw [if_pos hv, Int.floor_eq_iff]
  constructor
  · exact_mod_cast h0
  · exact_mod_cast h1

/-- A multiple of 1000 picoseconds below `2^53` is converted to its exact number of
nanoseconds. -/
theorem writeThis_pico (n : ℕ) (h : 1000 * n < 2 ^ 53) :
    (scaled (1000 * n) picosecond).bind castUInt64 = some n := by
  have hn : n < 2 ^ 52 := by omega
  have hnq : (n : ℚ) < 2 ^ 52 := by exact_mod_cast hn
  have hn0 : (0 : ℚ) ≤ (n : ℚ) := by positivity
  unfold scaled
  rw [show picosecond + 9 = (-3 : ℤ) by rfl, pow10_neg_three, Option.some_bind,
    dbl_natCast _ h]
  set x : ℚ := ((1000 * n : ℕ) : ℚ) * (1152921504606847 / 1152921504606846976) with hx
  have hx0 : (n : ℚ) ≤ x := by
    rw [hx]; push_cast
    have : (n : ℚ) * 1 ≤ 1000 * (n : ℚ) * (1152921504606847 / 1152921504606846976) := by
      nlinarith
    linarith
  have hx1 : x ≤ (n : ℚ) + 1 / 2 := by
    rw [hx]; push_cast
    nlinarith
  have hlow : (n : ℚ) ≤ dbl x := by
    have := dbl_mono hn0 hx0
    rwa [dbl_natCast n (lt_trans hn (by norm_num))] at this
  have hhalf : dbl ((n : ℚ) + 1 / 2) = (n : ℚ) + 1 / 2 := by
    have := roundFmt_exact 53 (-1022) (2 * n + 1) (-1)
      (by rw [abs_of_nonneg (by positivity)]; omega) (by norm_num)
    have e : (((2 * n + 1 : ℤ)) : ℚ) * (2 : ℚ) ^ (-1 : ℤ) = (n : ℚ) + 1 / 2 := by
      push_cast; norm_num; ring
    rw [e] at this
    exact this
  have hhigh : dbl x ≤ (n : ℚ) + 1 / 2 := by
    have := dbl_mono (le_trans hn0 hx0) hx1
    rwa [hhalf] at this
  have hfin : dblFinite x = some (dbl x) := by
    unfold dblFinite
    rw [if_pos]
    rw [abs_of_nonneg (le_trans hn0 hlow)]
    have : (n : ℚ) + 1 / 2 < (2 : ℚ) ^ (1024 : ℕ) := by
      have : (2 : ℚ) ^ 52 + 1 / 2 < (2 : ℚ) ^ (1024 : ℕ) := by norm_num
      linarith
    linarith
  rw [hfin, Option.some_bind]
  have ht : trunc (dbl x) = n := trunc_eq_of_mem _ n hlow (by linarith)
  unfold castUInt64
  rw [ht, if_pos ⟨by positivity, by exact_mod_cast lt_trans hn (by norm_num)⟩]
  simp

theorem dbl_uint64_max : dbl (18446744073709551615 : ℚ) = 18446744073709551616 := by
  have h := roundFmt_eq_of_near 53 (-1022) (18446744073709551615 : ℚ) 63 9007199254740992
    (by norm_num) (by norm_num) (by norm_num) (by norm_num) (by norm_num [abs_lt])
  rw [dbl, h]; norm_num

theorem writeThis_uint64_max :
    (scaled 18446744073709551615 nanosecond).bind castUInt64 = none := by
  have hp : pow10 (nanosecond + 9) = some 1 := by
    have := pow10_natCast 0 (by norm_num)
    simpa using this
  have h64 : dbl ((18446744073709551616 : ℚ) * 1) = 18446744073709551616 := by
    have := roundFmt_exact 53 (-1022) 1 64 (by norm_num) (by norm_num)
    rw [dbl, mul_one]
    have e : (((1 : ℤ)) : ℚ) * (2 : ℚ) ^ (64 : ℤ) = 18446744073709551616 := by norm_num
    rw [e] at this
    exact this
  unfold scaled
  rw [hp, Option.some_bind]
  have hc : ((18446744073709551615 : ℕ) : ℚ) = 18446744073709551615 := by norm_num
  rw [hc, dbl_uint64_max]
  unfold dblFinite
  rw [h64, if_pos (by norm_num [abs_lt]), Option.some_bind]
  unfold castUInt64
  have ht : trunc (18446744073709551616 : ℚ) = 18446744073709551616 := by
    have := trunc_intCast 18446744073709551616
    exact_mod_cast this
  rw [ht, if_neg (by norm_num)]

theorem setPeriodTime_outOfRange (st : BlackPWM) (period : ℕ) (tType : timeType) (w : ℕ)
    (hconv : (scaled period tType).bind castUInt64 = some w) (hgt : 1000000000 < w) :
    setPeriodTime st period tType = some (false, st.setOutOfRange true) := by
  unfold setPeriodTime
  rw [hconv, Option.map_some', if_pos hgt]

theorem setPeriodTime_written (st : BlackPWM) (period : ℕ) (tType : timeType) (w : ℕ)
    (hconv : (scaled period tType).bind castUInt64 = some w) (hle : w ≤ 1000000000)
    (hw : st.periodFile.canWrite = true) :
    setPeriodTime st period tType
      = some (true,
          { (st.setOutOfRange false).setPeriodFileError false with
            periodFile := st.periodFile.write (toString w) }) := by
  unfold setPeriodTime
  have hw2 : (st.setOutOfRange false).periodFile.canWrite = true := hw
  rw [hconv, Option.map_some', if_neg (by omega), if_pos hw2]

theorem setPeriodTime_unwritable (st : BlackPWM) (period : ℕ) (tType : timeType) (w : ℕ)
    (hconv : (scaled period tType).bind castUInt64 = some w) (hle : w ≤ 1000000000)
    (hw : st.periodFile.canWrite = false) :
    setPeriodTime st period tType
      = some (false, (st.setOutOfRange false).setPeriodFileError true) := by
  unfold setPeriodTime
  have hw2 : ¬ ((st.setOutOfRange false).periodFile.canWrite = true) := by
    show ¬ (st.periodFile.canWrite = true)
    rw [hw]; simp
  rw [hconv, Option.map_some', if_neg (by omega), if_neg hw2]

/-- C4 (counterexample): `setPeriodTime(18446744073709551615, nanosecond)`.  The argument is
converted to the `double` `2^64`, the product with `pow(10, 0)` is `2^64`, and the
conversion of `2^64` to `uint64_t` is undefined: the call has no defined result, so it
need not set `outOfRange` nor return false. -/
theorem C4_conversion_undefined :
    setPeriodTime (sampleState "500000" "0") 18446744073709551615 nanosecond = none := by
  unfold setPeriodTime
  rw [writeThis_uint64_max]
  rfl

theorem castUInt64_of_lt (v : ℚ) (h0 : 0 ≤ v) (hlt : v < 2 ^ 64) :
    castUInt64 v = some ⌊v⌋.toNat ∧ ((⌊v⌋.toNat : ℕ) : ℚ) ≤ v ∧ v < ((⌊v⌋.toNat : ℕ) : ℚ) + 1 := by
  have hf0 : 0 ≤ ⌊v⌋ := Int.floor_nonneg.2 h0
  have ht : trunc v = ⌊v⌋ := by unfold trunc; rw [if_pos h0]
  have hf64 : ⌊v⌋ < 2 ^ 64 := by
    have : ((⌊v⌋ : ℤ) : ℚ) < ((2 ^ 64 : ℤ) : ℚ) := by
      push_cast
      exact lt_of_le_of_lt (Int.floor_le v) hlt
    exact_mod_cast this
  have hcast : ((⌊v⌋.toNat : ℕ) : ℚ) = ((⌊v⌋ : ℤ) : ℚ) := by
    have : ((⌊v⌋.toNat : ℕ) : ℤ) = ⌊v⌋ := Int.toNat_of_nonneg hf0
    exact_mod_cast this
  refine ⟨?_, ?_, ?_⟩
  · unfold castUInt64
    rw [ht, if_pos ⟨hf0, hf64⟩]
  · rw [hcast]; exact Int.floor_le v
  · rw [hcast]; exact Int.lt_floor_add_one v

/-- C4 (amended): for every value and unit whose scaled `double`
`v = value * pow(10, unit + 9)` is finite and below `2^64`, the conversion to `uint64_t`
is defined and yields the integer nanosecond value `w = floor(v)`; if `w` exceeds
1,000,000,000, `setPeriodTime` sets `outOfRange`, returns false and leaves every file and
every other flag unchanged; otherwise (also for `w = 1,000,000,000` and `w = 0`) it clears
`outOfRange` and, when the period file can be opened, writes the decimal text of `w` as
the whole content of the period file, clears `periodFileError` and returns true; when the
file cannot be opened it sets `periodFileError` and returns false. -/
theorem C4_setPeriodTime (st : BlackPWM) (period : ℕ) (tType : timeType) (v : ℚ)
    (hv : scaled period tType = some v) (hlt : v < 2 ^ 64) :
    ∃ w : ℕ, (w : ℚ) ≤ v ∧ v < (w : ℚ) + 1 ∧
      (1000000000 < w →
        ∃ st', setPeriodTime st period tType = some (false, st') ∧
          st'.pwmErrors.outOfRange = true ∧ st'.periodFile = st.periodFile ∧
          st' = st.setOutOfRange true)
      ∧ (w ≤ 1000000000 → st.periodFile.canWrite = true →
        ∃ st', setPeriodTime st period tType = some (true, st') ∧
          st'.pwmErrors.outOfRange = false ∧ st'.pwmErrors.periodFileError = false ∧
          st'.periodFile.content = toString w ∧ st'.dutyFile = st.dutyFile)
      ∧ (w ≤ 1000000000 → st.periodFile.canWrite = false →
        ∃ st', setPeriodTime st period tType = some (false, st') ∧
          st'.pwmErrors.outOfRange = false ∧ st'.pwmErrors.periodFileError = true ∧
          st'.periodFile = st.periodFile) := by
  obtain ⟨hc, hw0, hw1⟩ := castUInt64_of_lt v (scaled_nonneg period tType v hv) hlt
  have hconv : (scaled period tType).bind castUInt64 = some ⌊v⌋.toNat := by
    rw [hv, Option.some_bind, hc]
  refine ⟨⌊v⌋.toNat, hw0, hw1, ?_, ?_, ?_⟩
  · intro hgt
    exact ⟨_, setPeriodTime_outOfRange st period tType _ hconv hgt, rfl, rfl, rfl⟩
  · intro hle hw
    exact ⟨_, setPeriodTime_written st period tType _ hconv hle hw, rfl, rfl, rfl, rfl⟩
  · intro hle hw
    exact ⟨_, setPeriodTime_unwritable st period tType _ hconv hle hw, rfl, rfl, rfl⟩

/-- C4 (witness): the boundary value of exactly 1,000,000,000 ns is accepted and written. -/
theorem C4_witness :
    ∃ st', setPeriodTime (sampleState "500000" "0") 1000000000 nanosecond = some (true, st') ∧
      st'.pwmErrors.outOfRange = false ∧ st'.periodFile.content = "1000000000" := by
  have hv : scaled 1000000000 nanosecond = some 1000000000 := by
    have := scaled_exact 1000000000 0 (by norm_num) (by norm_num)
    simpa [nanosecond] using this
  obtain ⟨w, hw0, hw1, _, hin, _⟩ :=
    C4_setPeriodTime (sampleState "500000" "0") 1000000000 nanosecond 1000000000 hv
      (by norm_num)
  have hw : w = 1000000000 := by
    have h1 : (w : ℚ) < 1000000000 + 1 := by linarith
    have h2 : (1000000000 : ℚ) < (w : ℚ) + 1 := hw1
    have h3 : w < 1000000000 + 1 := by exact_mod_cast h1
    have h4 : 1000000000 < w + 1 := by exact_mod_cast h2
    omega
  subst hw
  obtain ⟨st', hs, ho, _, hc, _⟩ := hin (le_refl _) rfl
  exact ⟨st', hs, ho, by rw [hc]; decide⟩

/-- C5: the conversion factor is `10^(unit + 9)`.  With the period file openable and the
result in range, `setPeriodTime(1000 * n, picosecond)` and `setPeriodTime(n, nanosecond)`
have the same outcome and leave `n` in the period file, `setPeriodTime(n, microsecond)`
leaves `1000 * n`, `setPeriodTime(n, milisecond)` leaves `1000000 * n`, and in general a
unit of value `j - 9` with `j ≥ 0` leaves `value * 10^j`. -/
theorem C5_unit_conversion (st : BlackPWM) (n : ℕ) (hw : st.periodFile.canWrite = true) :
    (n ≤ 1000000000 →
      ∃ st', setPeriodTime st (1000 * n) picosecond = some (true, st') ∧
        setPeriodTime st n nanosecond = some (true, st') ∧
        st'.periodFile.content = toString n)
    ∧ (1000 * n ≤ 1000000000 →
      ∃ st', setPeriodTime st n microsecond = some (true, st') ∧
        st'.periodFile.content = toString (1000 * n))
    ∧ (1000000 * n ≤ 1000000000 →
      ∃ st', setPeriodTime st n milisecond = some (true, st') ∧
        st'.periodFile.content = toString (1000000 * n))
    ∧ (∀ j : ℕ, 10 ^ j < 2 ^ 53 → n * 10 ^ j ≤ 1000000000 →
      ∃ st', setPeriodTime st n ((j : ℤ) - 9) = some (true, st') ∧
        st'.periodFile.content = toString (n * 10 ^ j)) := by
  have gen : ∀ j : ℕ, 10 ^ j < 2 ^ 53 → n * 10 ^ j ≤ 1000000000 →
      ∃ st', setPeriodTime st n ((j : ℤ) - 9) = some (true, st') ∧
        st'.periodFile.content = toString (n * 10 ^ j) := by
    intro j hj hle
    have hconv := writeThis_exact n j hj (lt_of_le_of_lt hle (by norm_num))
    exact ⟨_, setPeriodTime_written st n _ _ hconv hle hw, rfl⟩
  refine ⟨?_, ?_, ?_, gen⟩
  · intro hn
    have h1 := writeThis_pico n (by omega)
    have h2 : (scaled n nanosecond).bind castUInt64 = some n := by
      have := writeThis_exact n 0 (by norm_num) (by omega)
      simpa [nanosecond] using this
    exact ⟨_, setPeriodTime_written st _ _ n h1 hn hw,
      setPeriodTime_written st _ _ n h2 hn hw, rfl⟩
  · intro hn
    obtain ⟨st', h1, h2⟩ := gen 3 (by norm_num) (by omega)
    refine ⟨st', ?_, ?_⟩
    · simpa [microsecond] using h1
    · rw [h2, mul_comm]; norm_num
  · intro hn
    obtain ⟨st', h1, h2⟩ := gen 6 (by norm_num) (by omega)
    refine ⟨st', ?_, ?_⟩
    · simpa [milisecond] using h1
    · rw [h2, mul_comm]; norm_num

/-- C5 (witness): 300000000 ps gives 300000, 500000 ns gives 500000, 700 us gives 700000 and
1 ms gives 1000000. -/
theorem C5_witness :
    (∃ st', setPeriodTime (sampleState "0" "0") 300000000 picosecond = some (true, st') ∧
      st'.periodFile.content = "300000")
    ∧ (∃ st', setPeriodTime (sampleState "0" "0") 500000 nanosecond = some (true, st') ∧
      st'.periodFile.content = "500000")
    ∧ (∃ st', setPeriodTime (sampleState "0" "0") 700 microsecond = some (true, st') ∧
      st'.periodFile.content = "700000")
    ∧ (∃ st', setPeriodTime (sampleState "0" "0") 1 milisecond = some (true, st') ∧
      st'.periodFile.content = "1000000") := by
  refine ⟨?_, ?_, ?_, ?_⟩
  · obtain ⟨st', h1, _, h3⟩ :=
      (C5_unit_conversion (sampleState "0" "0") 300000 rfl).1 (by norm_num)
    exact ⟨st', h1, by rw [h3]; decide⟩
  · obtain ⟨st', _, h2, h3⟩ :=
      (C5_unit_conversion (sampleState "0" "0") 500000 rfl).1 (by norm_num)
    exact ⟨st', h2, by rw [h3]; decide⟩
  · obtain ⟨st', h1, h3⟩ :=
      (C5_unit_conversion (sampleState "0" "0") 700 rfl).2.1 (by norm_num)
    exact ⟨st', h1, by rw [h3]; decide⟩
  · obtain ⟨st', h1, h3⟩ :=
      (C5_unit_conversion (sampleState "0" "0") 1 rfl).2.2.1 (by norm_num)
    exact ⟨st', h1, by rw [h3]; decide⟩

theorem holdsInt_written (f : File) (w : ℕ) (hr : f.canRead = true) (hw : w < 2 ^ 63) :
    (f.write (toString w)).HoldsInt (w : ℤ) :=
  ⟨hr, extractInt64?_toString_nat w hw⟩

/-- C6: round trip.  When the conversion yields `n ≤ 1,000,000,000` nanoseconds and the
period file can be opened for writing and for reading, `setPeriodTime` succeeds, a
following `getNumericPeriodValue` returns exactly `n`, a following `getPeriodValue` returns
the decimal text of `n`, and both leave `periodFileError` false. -/
theorem C6_period_roundTrip (d : BlackDef) (st : BlackPWM) (period : ℕ) (tType : timeType)
    (n : ℕ) (hconv : (scaled period tType).bind castUInt64 = some n) (hn : n ≤ 1000000000)
    (hw : st.periodFile.canWrite = true) (hr : st.periodFile.canRead = true) :
    ∃ st', setPeriodTime st period tType = some (true, st') ∧
      (getNumericPeriodValue d st').1 = (n : ℤ) ∧
      (getNumericPeriodValue d st').2.pwmErrors.periodFileError = false ∧
      (getPeriodValue d st').1 = toString n ∧
      (getPeriodValue d st').2.pwmErrors.periodFileError = false ∧
      st'.pwmErrors.periodFileError = false := by
  refine ⟨_, setPeriodTime_written st period tType n hconv hn hw, ?_, ?_, ?_, ?_, rfl⟩
  · rw [getNumericPeriodValue_holds d _ n (holdsInt_written st.periodFile n hr (by omega))]
  · rw [getNumericPeriodValue_holds d _ n (holdsInt_written st.periodFile n hr (by omega))]
    rfl
  · unfold getPeriodValue
    have : (st.periodFile.write (toString n)).canRead = true := hr
    simp only [this, if_true]
    exact extractString_toString_nat n
  · unfold getPeriodValue
    have : (st.periodFile.write (toString n)).canRead = true := hr
    simp only [this, if_true]
    rfl

/-- C6 (witness): after `setPeriodTime(214000)` the numeric read returns 214000 and the text
read returns "214000". -/
theorem C6_witness :
    ∃ st', setPeriodTime (sampleState "0" "0") 214000 nanosecond = some (true, st') ∧
      (getNumericPeriodValue sampleDef st').1 = 214000 ∧
      (getPeriodValue sampleDef st').1 = "214000" := by
  have hconv : (scaled 214000 nanosecond).bind castUInt64 = some 214000 := by
    have := writeThis_exact 214000 0 (by norm_num) (by norm_num)
    simpa [nanosecond] using this
  obtain ⟨st', h1, h2, _, h4, _, _⟩ :=
    C6_period_roundTrip sampleDef (sampleState "0" "0") 214000 nanosecond 214000 hconv
      (by norm_num) rfl rfl
  exact ⟨st', h1, by rw [h2]; rfl, by rw [h4]; decide⟩

/-! ### `setLoadRatioTime` -/

theorem castInt64_range (v : ℚ) (L : ℤ) (h : castInt64 v = some L) :
    -2 ^ 63 ≤ L ∧ L < 2 ^ 63 := by
  unfold castInt64 at h
  split_ifs at h with hc
  rw [← Option.some.inj h]
  exact hc

theorem loadConv_range (load : ℕ) (tType : timeType) (L : ℤ)
    (h : (scaled load tType).bind castInt64 = some L) : -2 ^ 63 ≤ L ∧ L < 2 ^ 63 := by
  cases hs : scaled load tType with
  | none => rw [hs] at h; cases h
  | some v =>
    rw [hs, Option.some_bind] at h
    exact castInt64_range v L h

theorem writeThisInt_exact (value j : ℕ) (hj : 10 ^ j < 2 ^ 53)
    (h : value * 10 ^ j < 2 ^ 53) :
    (scaled value ((j : ℤ) - 9)).bind castInt64 = some ((value * 10 ^ j : ℕ) : ℤ) := by
  rw [scaled_exact value j hj h, Option.some_bind]
  have := castInt64_intCast ((value * 10 ^ j : ℕ) : ℤ)
    (le_trans (by norm_num) (Int.natCast_nonneg _))
    (by have : ((value * 10 ^ j : ℕ) : ℤ) < 2 ^ 53 := by exact_mod_cast h
        exact lt_trans this (by norm_num))
  exact_mod_cast this

theorem setLoadRatioTime_eq (d : BlackDef) (st : BlackPWM) (load : ℕ) (tType : timeType)
    (P L : ℤ) (hP : st.periodFile.HoldsInt P)
    (hL : (scaled load tType).bind castInt64 = some L) :
    setLoadRatioTime d st load tType
      = some (if ((P - L) % 2 ^ 64).toNat > 1000000000 then
            (false, (st.setPeriodFileError false).setOutOfRange true)
          else writeDuty (st.setPeriodFileError false) ((P - L) % 2 ^ 64).toNat) := by
  unfold setLoadRatioTime
  rw [hL, Option.map_some', getNumericPeriodValue_holds d st P hP]

/-- C7 (counterexample): with the period file holding `-9223372036854775808` and the load
`9223372036854774784` ns (which exceeds the period and fits in a signed 64-bit integer),
the difference wraps modulo `2^64` to 1024, which is in range: `setLoadRatioTime` returns
true, leaves `outOfRange` false and overwrites the duty file with 1024. -/
theorem C7_wrap_counterexample :
    (sampleState "-9223372036854775808" "0").periodFile.HoldsInt (-9223372036854775808)
    ∧ (scaled 9223372036854774784 nanosecond).bind castInt64 = some 9223372036854774784
    ∧ (-9223372036854775808 : ℤ) < 9223372036854774784
    ∧ ∃ st', setLoadRatioTime sampleDef (sampleState "-9223372036854775808" "0")
          9223372036854774784 nanosecond = some (true, st')
        ∧ st'.dutyFile.content = "1024" ∧ st'.pwmErrors.outOfRange = false := by
  have hh : (sampleState "-9223372036854775808" "0").periodFile.HoldsInt
      (-9223372036854775808) := ⟨rfl, by decide⟩
  have hL : (scaled 9223372036854774784 nanosecond).bind castInt64
      = some 9223372036854774784 := by
    have hp : pow10 (nanosecond + 9) = some 1 := by
      have := pow10_natCast 0 (by norm_num)
      simpa using this
    have hx : dbl (9223372036854774784 : ℚ) = 9223372036854774784 := by
      have := roundFmt_exact 53 (-1022) 9007199254740991 10 (by norm_num) (by norm_num)
      have e : (((9007199254740991 : ℤ)) : ℚ) * (2 : ℚ) ^ (10 : ℤ) = 9223372036854774784 := by
        norm_num
      rw [e] at this
      exact this
    unfold scaled
    rw [hp, Option.some_bind]
    have hc : ((9223372036854774784 : ℕ) : ℚ) = 9223372036854774784 := by norm_num
    rw [hc, hx, mul_one, dblFinite_of_exact _ hx (by norm_num [abs_lt]), Option.some_bind]
    have := castInt64_intCast 9223372036854774784 (by norm_num) (by norm_num)
    exact_mod_cast this
  refine ⟨hh, hL, by norm_num, ?_⟩
  rw [setLoadRatioTime_eq sampleDef _ _ _ _ _ hh hL]
  exact ⟨_, rfl, by decide, rfl⟩

/-- C7 (amended): for every state in which the period file holds an integer `P` and every
load whose nanosecond equivalent `L` (a signed 64-bit integer) exceeds `P`, provided
`P ≥ 0` or, more generally, `L - P < 2^64 - 1,000,000,000`: `setLoadRatioTime` sets
`outOfRange`, returns false and leaves the duty file (and the period file) exactly as it
was, because `P - L` wraps modulo `2^64` to a value above 1,000,000,000. -/
theorem C7_setLoadRatioTime_exceeds (d : BlackDef) (st : BlackPWM) (load : ℕ)
    (tType : timeType) (P L : ℤ) (hP : st.periodFile.HoldsInt P)
    (hL : (scaled load tType).bind castInt64 = some L) (hgt : P < L)
    (hwrap : 0 ≤ P ∨ L - P < 2 ^ 64 - 1000000000) :
    ∃ st', setLoadRatioTime d st load tType = some (false, st') ∧
      st'.pwmErrors.outOfRange = true ∧ st'.dutyFile = st.dutyFile ∧
      st'.periodFile = st.periodFile ∧
      1000000000 < (P - L) % 2 ^ 64 := by
  have hr := loadConv_range load tType L hL
  have hlt : L - P < 2 ^ 64 - 1000000000 := by
    rcases hwrap with h | h
    · omega
    · exact h
  have hmod : (P - L) % 2 ^ 64 = P - L + 2 ^ 64 := by omega
  have hbig : ((P - L) % 2 ^ 64).toNat > 1000000000 := by
    rw [hmod]; omega
  rw [setLoadRatioTime_eq d st load tType P L hP hL, if_pos hbig]
  exact ⟨_, rfl, rfl, rfl, rfl, by rw [hmod]; omega⟩

/-- C7 (witness): with period 500000 a load of 600000 ns is refused and the duty file keeps
its content. -/
theorem C7_witness :
    ∃ st', setLoadRatioTime sampleDef (sampleState "500000" "250000") 600000 nanosecond
        = some (false, st') ∧
      st'.pwmErrors.outOfRange = true ∧ st'.dutyFile.content = "250000" := by
  have hL : (scaled 600000 nanosecond).bind castInt64 = some 600000 := by
    have := writeThisInt_exact 600000 0 (by norm_num) (by norm_num)
    simpa [nanosecond] using this
  obtain ⟨st', h1, h2, h3, _, _⟩ :=
    C7_setLoadRatioTime_exceeds sampleDef (sampleState "500000" "250000") 600000 nanosecond
      500000 600000 ⟨rfl, by decide⟩ hL (by norm_num) (Or.inl (by norm_num))
  exact ⟨st', h1, h2, by rw [h3]; rfl⟩

theorem toString_toNat_of_nonneg (v : ℤ) (h : 0 ≤ v) : toString v.toNat = toString v :=
  (toString_int_of_nonneg v h).symm

/-- C8: for every state in which the period file holds `P` and the duty file can be opened,
and every load whose nanosecond equivalent `L` satisfies `0 ≤ L ≤ P ≤ 1,000,000,000`,
`setLoadRatioTime` returns true and leaves the duty file holding `P - L`; the period file
is unchanged. -/
theorem C8_setLoadRatioTime_inRange (d : BlackDef) (st : BlackPWM) (load : ℕ)
    (tType : timeType) (P L : ℤ) (hP : st.periodFile.HoldsInt P)
    (hL : (scaled load tType).bind castInt64 = some L) (hL0 : 0 ≤ L) (hLP : L ≤ P)
    (hP9 : P ≤ 1000000000) (hw : st.dutyFile.canWrite = true) :
    ∃ st', setLoadRatioTime d st load tType = some (true, st') ∧
      st'.dutyFile.content = toString (P - L) ∧
      st'.periodFile = st.periodFile ∧ st'.pwmErrors.dutyFileError = false := by
  have hmod : (P - L) % 2 ^ 64 = P - L := by omega
  have hsmall : ¬ (((P - L) % 2 ^ 64).toNat > 1000000000) := by
    rw [hmod]; omega
  have hw2 : (st.setPeriodFileError false).dutyFile.canWrite = true := hw
  rw [setLoadRatioTime_eq d st load tType P L hP hL, if_neg hsmall, writeDuty, if_pos hw2,
    hmod]
  exact ⟨_, rfl, toString_toNat_of_nonneg _ (by omega), rfl, rfl⟩

/-- C8 (witness): period 500000 with load 125000 gives duty 375000, and period 300000 with
load 15000 gives duty 285000. -/
theorem C8_witness :
    (∃ st', setLoadRatioTime sampleDef (sampleState "500000" "0") 125000 nanosecond
        = some (true, st') ∧ st'.dutyFile.content = "375000")
    ∧ (∃ st', setLoadRatioTime sampleDef (sampleState "300000" "0") 15000 nanosecond
        = some (true, st') ∧ st'.dutyFile.content = "285000") := by
  have hL1 : (scaled 125000 nanosecond).bind castInt64 = some 125000 := by
    have := writeThisInt_exact 125000 0 (by norm_num) (by norm_num)
    simpa [nanosecond] using this
  have hL2 : (scaled 15000 nanosecond).bind castInt64 = some 15000 := by
    have := writeThisInt_exact 15000 0 (by norm_num) (by norm_num)
    simpa [nanosecond] using this
  constructor
  · obtain ⟨st', h1, h2, _⟩ :=
      C8_setLoadRatioTime_inRange sampleDef (sampleState "500000" "0") 125000 nanosecond
        500000 125000 ⟨rfl, by decide⟩ hL1 (by norm_num) (by norm_num) (by norm_num) rfl
    exact ⟨st', h1, by rw [h2]; decide⟩
  · obtain ⟨st', h1, h2, _⟩ :=
      C8_setLoadRatioTime_inRange sampleDef (sampleState "300000" "0") 15000 nanosecond
        300000 15000 ⟨rfl, by decide⟩ hL2 (by norm_num) (by norm_num) (by norm_num) rfl
    exact ⟨st', h1, by rw [h2]; decide⟩

/-! ### Duty and period -/

theorem holdsInt_unique (f : File) (a b : ℤ) (ha : f.HoldsInt a) (hb : f.HoldsInt b) :
    a = b := by
  have := ha.2.symm.trans hb.2
  exact Option.some.inj this

theorem holdsInt_written_int (f : File) (v : ℤ) (hr : f.canRead = true) (h0 : 0 ≤ v)
    (hv : v < 2 ^ 63) : (f.write (toString v)).HoldsInt v := by
  obtain ⟨n, rfl⟩ := Int.eq_ofNat_of_zero_le h0
  have : toString ((n : ℕ) : ℤ) = toString n := rfl
  rw [this]
  exact holdsInt_written f n hr (by exact_mod_cast hv)

theorem loadConv_nonneg (load : ℕ) (tType : timeType) (L : ℤ)
    (h : (scaled load tType).bind castInt64 = some L) : 0 ≤ L := by
  cases hs : scaled load tType with
  | none => rw [hs] at h; cases h
  | some v =>
    rw [hs, Option.some_bind] at h
    unfold castInt64 at h
    split_ifs at h
    rw [← Option.some.inj h]
    exact trunc_nonneg v (scaled_nonneg load tType v hs)

theorem setLoadRatioTime_keeps (d : BlackDef) (st : BlackPWM) (h : DutyWithinPeriod st)
    (load : ℕ) (tType : timeType) (r : Bool × BlackPWM)
    (hr : setLoadRatioTime d st load tType = some r) : DutyWithinPeriod r.2 := by
  obtain ⟨P, D, hP, hD, hD0, hDP, hP9⟩ := h
  cases hL : (scaled load tType).bind castInt64 with
  | none =>
    unfold setLoadRatioTime at hr
    rw [hL] at hr
    cases hr
  | some L =>
    have hL0 := loadConv_nonneg load tType L hL
    have hLr := loadConv_range load tType L hL
    rw [setLoadRatioTime_eq d st load tType P L hP hL] at hr
    have hr2 := Option.some.inj hr
    by_cases hbig : ((P - L) % 2 ^ 64).toNat > 1000000000
    · rw [if_pos hbig] at hr2
      rw [← hr2]
      exact ⟨P, D, hP, hD, hD0, hDP, hP9⟩
    · rw [if_neg hbig] at hr2
      have hLP : L ≤ P := by
        by_contra hcon
        push_neg at hcon
        have hmod : (P - L) % 2 ^ 64 = P - L + 2 ^ 64 := by omega
        rw [hmod] at hbig
        omega
      have hmod : (P - L) % 2 ^ 64 = P - L := by omega
      rw [hmod, writeDuty] at hr2
      by_cases hw : (st.setPeriodFileError false).dutyFile.canWrite = true
      · rw [if_pos hw] at hr2
        rw [← hr2]
        refine ⟨P, P - L, hP, ?_, by omega, by omega, hP9⟩
        have e : toString (P - L).toNat = toString (P - L) :=
          (toString_int_of_nonneg _ (by omega)).symm
        show (st.dutyFile.write (toString (P - L).toNat)).HoldsInt (P - L)
        rw [e]
        exact holdsInt_written_int st.dutyFile (P - L) hD.1 (by omega) (by omega)
      · rw [if_neg hw] at hr2
        rw [← hr2]
        exact ⟨P, D, hP, hD, hD0, hDP, hP9⟩

theorem setDutyPercent_keeps (d : BlackDef) (st : BlackPWM) (h : DutyWithinPeriod st)
    (p : F32) (r : Bool × BlackPWM) (hr : setDutyPercent d st p = some r) :
    DutyWithinPeriod r.2 := by
  obtain ⟨P, D, hP, hD, hD0, hDP, hP9⟩ := h
  have hout : ∀ q : F32, q.Outside → setDutyPercent d st q = some r → DutyWithinPeriod r.2 := by
    intro q hq hs
    rw [setDutyPercent_outside d st q hq] at hs
    rw [← Option.some.inj hs]
    exact ⟨P, D, hP, hD, hD0, hDP, hP9⟩
  cases p with
  | posInf => exact hout F32.posInf trivial hr
  | negInf => exact hout F32.negInf trivial hr
  | nan =>
    unfold setDutyPercent at hr
    simp only [F32.gt, F32.lt, Bool.or_self, Bool.false_eq_true, if_false] at hr
    split_ifs at hr with hw
    cases hr
    exact ⟨P, D, hP, hD, hD0, hDP, hP9⟩
  | finite q =>
    by_cases hq : q < 0 ∨ 100 < q
    · exact hout (F32.finite q) hq hr
    · push_neg at hq
      cases hw : st.dutyFile.canWrite with
      | false =>
        rw [setDutyPercent_unwritable d st q hq.1 hq.2 hw] at hr
        rw [← Option.some.inj hr]
        exact ⟨P, D, hP, hD, hD0, hDP, hP9⟩
      | true =>
        obtain ⟨v, hv, hv0, hvP⟩ := dutyFromPercent_range P q (by omega) (by omega) hq.1 hq.2
        rw [setDutyPercent_inside d st q hq.1 hq.2 hw,
          getNumericPeriodValue_holds d st P hP, hv] at hr
        rw [← Option.some.inj hr]
        refine ⟨P, v, hP, ?_, hv0, hvP, hP9⟩
        exact holdsInt_written_int st.dutyFile v hD.1 hv0 (by omega)

theorem setDutyPercent_defined (d : BlackDef) (st : BlackPWM) (h : DutyWithinPeriod st)
    (p : F32) (hp : p ≠ F32.nan) : ∃ r, setDutyPercent d st p = some r := by
  obtain ⟨P, D, hP, hD, hD0, hDP, hP9⟩ := h
  cases p with
  | posInf => exact ⟨_, setDutyPercent_outside d st _ trivial⟩
  | negInf => exact ⟨_, setDutyPercent_outside d st _ trivial⟩
  | nan => exact absurd rfl hp
  | finite q =>
    by_cases hq : q < 0 ∨ 100 < q
    · exact ⟨_, setDutyPercent_outside d st _ hq⟩
    · push_neg at hq
      cases hw : st.dutyFile.canWrite with
      | false => exact ⟨_, setDutyPercent_unwritable d st q hq.1 hq.2 hw⟩
      | true =>
        obtain ⟨v, hv, _, _⟩ := dutyFromPercent_range P q (by omega) (by omega) hq.1 hq.2
        rw [setDutyPercent_inside d st q hq.1 hq.2 hw,
          getNumericPeriodValue_holds d st P hP, hv]
        exact ⟨_, rfl⟩

theorem setPeriodTime_range (st : BlackPWM) (h : DutyWithinPeriod st)
    (period : ℕ) (tType : timeType) (r : Bool × BlackPWM)
    (hr : setPeriodTime st period tType = some r) :
    ValuesInRange r.2 ∧ r.2.dutyFile = st.dutyFile := by
  obtain ⟨P, D, hP, hD, hD0, hDP, hP9⟩ := h
  have hsame : ValuesInRange st := ⟨P, D, hP, hD, hD0, by omega, by omega, hP9⟩
  cases hc : (scaled period tType).bind castUInt64 with
  | none =>
    unfold setPeriodTime at hr
    rw [hc] at hr
    cases hr
  | some w =>
    by_cases hgt : 1000000000 < w
    · rw [setPeriodTime_outOfRange st period tType w hc hgt] at hr
      rw [← Option.some.inj hr]
      exact ⟨hsame, rfl⟩
    · cases hw : st.periodFile.canWrite with
      | false =>
        rw [setPeriodTime_unwritable st period tType w hc (by omega) hw] at hr
        rw [← Option.some.inj hr]
        exact ⟨hsame, rfl⟩
      | true =>
        rw [setPeriodTime_written st period tType w hc (by omega) hw] at hr
        rw [← Option.some.inj hr]
        refine ⟨⟨w, D, ?_, hD, hD0, by omega, by positivity, by omega⟩, rfl⟩
        exact holdsInt_written st.periodFile w hP.1 (by omega)

theorem spaceWriteThis_eq (space : ℕ) (tType : timeType) (w : ℕ)
    (h : spaceWriteThis space tType = some w) :
    (scaled space tType).bind castInt64 = some (w : ℤ) := by
  unfold spaceWriteThis at h
  cases hL : (scaled space tType).bind castInt64 with
  | none => rw [hL] at h; cases h
  | some L =>
    have hL0 := loadConv_nonneg space tType L hL
    have hLr := loadConv_range space tType L hL
    rw [hL, Option.map_some'] at h
    have hw := Option.some.inj h
    have hmod : L % 2 ^ 64 = L := by omega
    rw [hmod] at hw
    rw [← hw]
    congr 1
    omega

theorem setSpaceRatioTime_range (st : BlackPWM) (h : DutyWithinPeriod st)
    (space : ℕ) (tType : timeType) (r : Bool × BlackPWM)
    (hr : setSpaceRatioTime st space tType = some r) :
    ValuesInRange r.2 ∧ r.2.periodFile = st.periodFile := by
  obtain ⟨P, D, hP, hD, hD0, hDP, hP9⟩ := h
  have hsame : ValuesInRange st := ⟨P, D, hP, hD, hD0, by omega, by omega, hP9⟩
  unfold setSpaceRatioTime at hr
  cases hc : spaceWriteThis space tType with
  | none => rw [hc] at hr; cases hr
  | some w =>
    rw [hc, Option.map_some'] at hr
    have hr2 := Option.some.inj hr
    by_cases hgt : w > 1000000000
    · rw [if_pos hgt] at hr2
      rw [← hr2]
      exact ⟨hsame, rfl⟩
    · rw [if_neg hgt, writeDuty] at hr2
      by_cases hw : st.dutyFile.canWrite = true
      · rw [if_pos hw] at hr2
        rw [← hr2]
        refine ⟨⟨P, w, hP, ?_, by positivity, by omega, by omega, hP9⟩, rfl⟩
        exact holdsInt_written st.dutyFile w hD.1 (by omega)
      · rw [if_neg hw] at hr2
        rw [← hr2]
        exact ⟨hsame, rfl⟩

theorem not_dutyWithinPeriod (st : BlackPWM) (P D : ℤ) (hP : st.periodFile.HoldsInt P)
    (hD : st.dutyFile.HoldsInt D) (h : P < D) : ¬ DutyWithinPeriod st := by
  rintro ⟨P', D', hP', hD', _, hDP, _⟩
  rw [holdsInt_unique _ _ _ hP' hP, holdsInt_unique _ _ _ hD' hD] at hDP
  omega

theorem spaceWriteThis_exact (value j : ℕ) (hj : 10 ^ j < 2 ^ 53)
    (h : value * 10 ^ j < 2 ^ 53) :
    spaceWriteThis value ((j : ℤ) - 9) = some (value * 10 ^ j) := by
  unfold spaceWriteThis
  rw [writeThisInt_exact value j hj h, Option.map_some']
  congr 1
  have h2 : ((value * 10 ^ j : ℕ) : ℤ) < 2 ^ 53 := by exact_mod_cast h
  have h3 : (0 : ℤ) ≤ ((value * 10 ^ j : ℕ) : ℤ) := Int.natCast_nonneg _
  have hmod : ((value * 10 ^ j : ℕ) : ℤ) % 2 ^ 64 = ((value * 10 ^ j : ℕ) : ℤ) := by omega
  rw [hmod]
  exact Int.toNat_natCast _

/-- C9 (counterexample): the setters do not compare the new value with the other file.
From period 100 and duty 0, `setSpaceRatioTime(200)` succeeds and leaves duty 200 above
period 100; from period 100 and duty 100, `setPeriodTime(50)` succeeds and leaves period
50 below duty 100. -/
theorem C9_duty_exceeds_period :
    (DutyWithinPeriod (sampleState "100" "0")
      ∧ ∃ st', setSpaceRatioTime (sampleState "100" "0") 200 nanosecond = some (true, st') ∧
          st'.periodFile.HoldsInt 100 ∧ st'.dutyFile.HoldsInt 200 ∧ ¬ DutyWithinPeriod st')
    ∧ (DutyWithinPeriod (sampleState "100" "100")
      ∧ ∃ st', setPeriodTime (sampleState "100" "100") 50 nanosecond = some (true, st') ∧
          st'.periodFile.HoldsInt 50 ∧ st'.dutyFile.HoldsInt 100 ∧ ¬ DutyWithinPeriod st') := by
  constructor
  · refine ⟨⟨100, 0, ⟨rfl, by decide⟩, ⟨rfl, by decide⟩, by norm_num, by norm_num,
      by norm_num⟩, ?_⟩
    have hc : spaceWriteThis 200 nanosecond = some 200 := by
      have := spaceWriteThis_exact 200 0 (by norm_num) (by norm_num)
      simpa [nanosecond] using this
    have hP : (sampleState "100" "0").periodFile.HoldsInt 100 := ⟨rfl, by decide⟩
    have hD : ((sampleState "100" "0").dutyFile.write (toString 200)).HoldsInt 200 :=
      ⟨rfl, by decide⟩
    refine ⟨{ (sampleState "100" "0").setDutyFileError false with
        dutyFile := (sampleState "100" "0").dutyFile.write (toString 200) }, ?_, hP, hD, ?_⟩
    · unfold setSpaceRatioTime
      rw [hc]
      rfl
    · exact not_dutyWithinPeriod _ 100 200 hP hD (by norm_num)
  · refine ⟨⟨100, 100, ⟨rfl, by decide⟩, ⟨rfl, by decide⟩, by norm_num, by norm_num,
      by norm_num⟩, ?_⟩
    have hc : (scaled 50 nanosecond).bind castUInt64 = some 50 := by
      have := writeThis_exact 50 0 (by norm_num) (by norm_num)
      simpa [nanosecond] using this
    have hD : (sampleState "100" "100").dutyFile.HoldsInt 100 := ⟨rfl, by decide⟩
    have hP : ((sampleState "100" "100").periodFile.write (toString 50)).HoldsInt 50 :=
      ⟨rfl, by decide⟩
    refine ⟨_, setPeriodTime_written _ 50 nanosecond 50 hc (by norm_num) rfl, hP, hD, ?_⟩
    exact not_dutyWithinPeriod _ 50 100 hP hD (by norm_num)

/-- C9 (amended): starting from any state whose period and duty files hold integers with
`0 ≤ duty ≤ period ≤ 10^9`: after a call of `setLoadRatioTime` or of `setDutyPercent`
(with any arguments for which the call is defined, which for `setDutyPercent` is every
percentage other than a NaN) the files still satisfy `0 ≤ duty ≤ period ≤ 10^9`; after a
call of `setPeriodTime` or of `setSpaceRatioTime` each of the two values is still within
`[0, 10^9]`, the call having written at most its own file (`setPeriodTime` the period,
`setSpaceRatioTime` the duty) without comparing the new value with the other file. -/
theorem C9_files_after_setters (d : BlackDef) (st : BlackPWM) (h : DutyWithinPeriod st) :
    (∀ load tType r, setLoadRatioTime d st load tType = some r → DutyWithinPeriod r.2)
    ∧ (∀ p r, setDutyPercent d st p = some r → DutyWithinPeriod r.2)
    ∧ (∀ p, p ≠ F32.nan → ∃ r, setDutyPercent d st p = some r)
    ∧ (∀ period tType r, setPeriodTime st period tType = some r →
        ValuesInRange r.2 ∧ r.2.dutyFile = st.dutyFile)
    ∧ (∀ space tType r, setSpaceRatioTime st space tType = some r →
        ValuesInRange r.2 ∧ r.2.periodFile = st.periodFile) :=
  ⟨fun load tType r hr => setLoadRatioTime_keeps d st h load tType r hr,
    fun p r hr => setDutyPercent_keeps d st h p r hr,
    fun p hp => setDutyPercent_defined d st h p hp,
    fun period tType r hr => setPeriodTime_range st h period tType r hr,
    fun space tType r hr => setSpaceRatioTime_range st h space tType r hr⟩

/-- C9 (witness): from period 500000 and duty 250000, `setLoadRatioTime(125000)` succeeds
and the files still satisfy `0 ≤ duty ≤ period ≤ 10^9`. -/
theorem C9_witness :
    DutyWithinPeriod (sampleState "500000" "250000")
    ∧ ∃ st', setLoadRatioTime sampleDef (sampleState "500000" "250000") 125000 nanosecond
          = some (true, st') ∧ DutyWithinPeriod st' := by
  have hinv : DutyWithinPeriod (sampleState "500000" "250000") :=
    ⟨500000, 250000, ⟨rfl, by decide⟩, ⟨rfl, by decide⟩, by norm_num, by norm_num,
      by norm_num⟩
  have hL : (scaled 125000 nanosecond).bind castInt64 = some 125000 := by
    have := writeThisInt_exact 125000 0 (by norm_num) (by norm_num)
    simpa [nanosecond] using this
  have hs := setLoadRatioTime_eq sampleDef (sampleState "500000" "250000") 125000 nanosecond
    500000 125000 ⟨rfl, by decide⟩ hL
  rw [if_neg (by decide)] at hs
  refine ⟨hinv, _, hs, ?_⟩
  exact (C9_files_after_setters sampleDef (sampleState "500000" "250000") hinv).1
    125000 nanosecond _ hs

theorem scaled_2_63 :
    scaled 9223372036854775808 nanosecond = some 9223372036854775808 := by
  have hp : pow10 (nanosecond + 9) = some 1 := by
    have := pow10_natCast 0 (by norm_num)
    simpa using this
  have h63 : dbl (9223372036854775808 : ℚ) = 9223372036854775808 := by
    have := roundFmt_exact 53 (-1022) 1 63 (by norm_num) (by norm_num)
    have e : (((1 : ℤ)) : ℚ) * (2 : ℚ) ^ (63 : ℤ) = 9223372036854775808 := by norm_num
    rw [e] at this
    exact this
  unfold scaled
  rw [hp, Option.some_bind]
  have hc : ((9223372036854775808 : ℕ) : ℚ) = 9223372036854775808 := by norm_num
  rw [hc, h63, mul_one]
  apply dblFinite_of_exact _ h63
  rw [abs_of_nonneg (by norm_num)]
  norm_num

/-- C10, a value on which the two setters do not convert alike: for
9223372036854775808 ns (`2^63`) `setPeriodTime` converts through `uint64_t`,
finds the value out of range, sets `outOfRange` and returns false, while
`setSpaceRatioTime` converts through `int64_t`, which cannot hold the value:
the conversion is undefined and the call has no result. -/
theorem C10_conversions_differ :
    setPeriodTime (sampleState "500000" "0") 9223372036854775808 nanosecond
      = some (false, (sampleState "500000" "0").setOutOfRange true) ∧
    setSpaceRatioTime (sampleState "500000" "0") 9223372036854775808 nanosecond = none := by
  have hu : castUInt64 (9223372036854775808 : ℚ) = some 9223372036854775808 := by
    have := castUInt64_natCast 9223372036854775808 (by norm_num)
    simpa using this
  have hi : castInt64 (9223372036854775808 : ℚ) = none := by
    have ht : trunc (9223372036854775808 : ℚ) = 9223372036854775808 := by
      have := trunc_intCast 9223372036854775808
      simpa using this
    unfold castInt64
    rw [ht, if_neg (by norm_num)]
  constructor
  · apply setPeriodTime_outOfRange _ _ _ 9223372036854775808
    · rw [scaled_2_63, Option.some_bind, hu]
    · norm_num
  · unfold setSpaceRatioTime spaceWriteThis
    rw [scaled_2_63, Option.some_bind, hi]
    rfl

/-- C10 (amended): for every value whose scaled `double` is below `2^63`,
`setSpaceRatioTime` converts as `setPeriodTime` does (both conversions are
defined there and give the same value; from `2^63` on the conversion of
`setSpaceRatioTime`, which goes through `int64_t`, is undefined) and applies
the same test against 1,000,000,000, but writes the value to the duty file.  On
an out-of-range value it sets `outOfRange` and changes nothing else; on an
in-range value it leaves `outOfRange` as it was, so after an out-of-range call
a following successful in-range call returns true while `fail(outOfRangeErr)`
is still true.  `setSpaceRatioTime(67, microsecond)` writes 67000. -/
theorem C10_setSpaceRatioTime :
    (∀ space tType w, spaceWriteThis space tType = some w →
      (scaled space tType).bind castUInt64 = some w)
    ∧ (∀ space tType v, scaled space tType = some v → v < 2 ^ 63 →
      ∃ w, spaceWriteThis space tType = some w ∧
        (scaled space tType).bind castUInt64 = some w)
    ∧ (∀ space tType v, scaled space tType = some v → 2 ^ 63 ≤ v →
      spaceWriteThis space tType = none)
    ∧ (∀ (st : BlackPWM) space tType w, spaceWriteThis space tType = some w →
        1000000000 < w →
        setSpaceRatioTime st space tType = some (false, st.setOutOfRange true) ∧
        setPeriodTime st space tType = some (false, st.setOutOfRange true))
    ∧ (∀ (st : BlackPWM) space tType w, spaceWriteThis space tType = some w →
        w ≤ 1000000000 → st.dutyFile.canWrite = true →
        ∃ st', setSpaceRatioTime st space tType = some (true, st') ∧
          st'.dutyFile.content = toString w ∧
          st'.pwmErrors.outOfRange = st.pwmErrors.outOfRange ∧
          st'.pwmErrors.dutyFileError = false ∧ st'.periodFile = st.periodFile)
    ∧ (∀ (st : BlackPWM) space tType w, spaceWriteThis space tType = some w →
        w ≤ 1000000000 → st.dutyFile.canWrite = false →
        setSpaceRatioTime st space tType = some (false, st.setDutyFileError true))
    ∧ (∀ (st : BlackPWM) s₁ t₁ w₁ s₂ t₂ w₂, spaceWriteThis s₁ t₁ = some w₁ →
        1000000000 < w₁ → spaceWriteThis s₂ t₂ = some w₂ → w₂ ≤ 1000000000 →
        st.dutyFile.canWrite = true →
        ∃ st₁ st₂, setSpaceRatioTime st s₁ t₁ = some (false, st₁) ∧
          setSpaceRatioTime st₁ s₂ t₂ = some (true, st₂) ∧
          st₂.failFlag flags.outOfRangeErr = true ∧ st₂.dutyFile.content = toString w₂)
    ∧ (∀ st : BlackPWM, st.dutyFile.canWrite = true →
        ∃ st', setSpaceRatioTime st 67 microsecond = some (true, st') ∧
          st'.dutyFile.content = "67000") := by
  have hout : ∀ (st : BlackPWM) space tType w, spaceWriteThis space tType = some w →
      1000000000 < w →
      setSpaceRatioTime st space tType = some (false, st.setOutOfRange true) := by
    intro st space tType w hc hgt
    unfold setSpaceRatioTime
    rw [hc, Option.map_some', if_pos hgt]
  have hin : ∀ (st : BlackPWM) space tType w, spaceWriteThis space tType = some w →
      w ≤ 1000000000 → st.dutyFile.canWrite = true →
      setSpaceRatioTime st space tType
        = some (true, { st.setDutyFileError false with
            dutyFile := st.dutyFile.write (toString w) }) := by
    intro st space tType w hc hle hw
    unfold setSpaceRatioTime
    rw [hc, Option.map_some', if_neg (by omega), writeDuty, if_pos hw]
  have hdef : ∀ space tType v, scaled space tType = some v → v < 2 ^ 63 →
      ∃ w, spaceWriteThis space tType = some w := by
    intro space tType v hv hlt
    have h0 := trunc_nonneg v (scaled_nonneg space tType v hv)
    have ht : trunc v < 2 ^ 63 := by
      have h1 : trunc v = ⌊v⌋ := by
        unfold trunc; rw [if_pos (scaled_nonneg space tType v hv)]
      have : ((⌊v⌋ : ℤ) : ℚ) < ((2 ^ 63 : ℤ) : ℚ) := by
        push_cast
        exact lt_of_le_of_lt (Int.floor_le v) hlt
      rw [h1]
      exact_mod_cast this
    refine ⟨(trunc v % 2 ^ 64).toNat, ?_⟩
    unfold spaceWriteThis castInt64
    rw [hv, Option.some_bind, if_pos ⟨by omega, ht⟩]
    rfl
  have hsame : ∀ space tType w, spaceWriteThis space tType = some w →
      (scaled space tType).bind castUInt64 = some w := by
    intro space tType w hc
    have hI := spaceWriteThis_eq space tType w hc
    cases hs : scaled space tType with
    | none => rw [hs] at hI; cases hI
    | some v =>
      rw [hs, Option.some_bind] at hI
      rw [Option.some_bind]
      unfold castInt64 at hI
      split_ifs at hI with hr
      have ht : trunc v = (w : ℤ) := Option.some.inj hI
      unfold castUInt64
      rw [ht, if_pos ⟨Int.natCast_nonneg _, by omega⟩]
      simp
  refine ⟨hsame, ?_, ?_, ?_, ?_, ?_, ?_, ?_⟩
  · intro space tType v hv hlt
    obtain ⟨w, hw⟩ := hdef space tType v hv hlt
    exact ⟨w, hw, hsame space tType w hw⟩
  · intro space tType v hv hge
    have h1 : trunc v = ⌊v⌋ := by
      unfold trunc; rw [if_pos (scaled_nonneg space tType v hv)]
    have hfl : (2 : ℤ) ^ 63 ≤ ⌊v⌋ := by
      apply Int.le_floor.2
      push_cast
      exact hge
    unfold spaceWriteThis castInt64
    rw [hv, Option.some_bind, h1, if_neg (by omega)]
    rfl
  · intro st space tType w hc hgt
    exact ⟨hout st space tType w hc hgt,
      setPeriodTime_outOfRange st space tType w (hsame space tType w hc) hgt⟩
  · intro st space tType w hc hle hw
    exact ⟨_, hin st space tType w hc hle hw, rfl, rfl, rfl, rfl⟩
  · intro st space tType w hc hle hw
    unfold setSpaceRatioTime
    rw [hc, Option.map_some', if_neg (by omega), writeDuty, if_neg (by rw [hw]; simp)]
  · intro st s₁ t₁ w₁ s₂ t₂ w₂ h1 hgt h2 hle hw
    exact ⟨_, _, hout st s₁ t₁ w₁ h1 hgt, hin _ s₂ t₂ w₂ h2 hle hw, rfl, rfl⟩
  · intro st hw
    have hc : spaceWriteThis 67 microsecond = some 67000 := by
      have := spaceWriteThis_exact 67 3 (by norm_num) (by norm_num)
      simpa [microsecond] using this
    have ht : toString (67000 : ℕ) = "67000" := by decide
    exact ⟨_, hin st 67 microsecond 67000 hc (by norm_num) hw, ht⟩

/-! ### Run state and the failure queries -/

theorem getRunValue_readable (d : BlackDef) (st : BlackPWM)
    (hr : st.runFile.canRead = true) :
    getRunValue d st = (extractString st.runFile.content.data, st.setRunFileError false) := by
  simp [getRunValue, hr]

theorem toggleRunState_of_zero (d : BlackDef) (st : BlackPWM)
    (hr : st.runFile.canRead = true) (hw : st.runFile.canWrite = true)
    (h : st.runFile.content = "0") :
    toggleRunState d st =
      { st.setRunFileError false with runFile := { st.runFile with content := "1" } } := by
  have hv : extractString "0".data = "0" := by decide
  have ht : toString (1 : ℤ) = "1" := by decide
  have hne : ¬ ("0" = "1") := by decide
  rw [toggleRunState, getRunValue_readable d st hr, h, hv, if_neg hne]
  simp only [setRunState, BlackPWM.setRunFileError, hw, File.write, runValue.toInt, ht, if_true]

theorem toggleRunState_of_one (d : BlackDef) (st : BlackPWM)
    (hr : st.runFile.canRead = true) (hw : st.runFile.canWrite = true)
    (h : st.runFile.content = "1") :
    toggleRunState d st =
      { st.setRunFileError false with runFile := { st.runFile with content := "0" } } := by
  have hv : extractString "1".data = "1" := by decide
  have ht : toString (0 : ℤ) = "0" := by decide
  rw [toggleRunState, getRunValue_readable d st hr, h, hv, if_pos rfl]
  simp only [setRunState, BlackPWM.setRunFileError, hw, File.write, runValue.toInt, ht, if_true]

/-- C11: in every state whose run file is readable and writable and holds `0` or
`1`, `toggleRunState` turns `0` into `1` and `1` into `0`, two calls in a row
leave the run file as it was at the start, and the period, duty and polarity
files are the same after one call and after two. -/
theorem C11_toggleRunState (d : BlackDef) (st : BlackPWM)
    (hr : st.runFile.canRead = true) (hw : st.runFile.canWrite = true)
    (h : st.runFile.content = "0" ∨ st.runFile.content = "1") :
    (st.runFile.content = "0" → (toggleRunState d st).runFile.content = "1") ∧
    (st.runFile.content = "1" → (toggleRunState d st).runFile.content = "0") ∧
    (toggleRunState d (toggleRunState d st)).runFile = st.runFile ∧
    ((toggleRunState d st).periodFile = st.periodFile ∧
      (toggleRunState d st).dutyFile = st.dutyFile ∧
      (toggleRunState d st).polarityFile = st.polarityFile) ∧
    ((toggleRunState d (toggleRunState d st)).periodFile = st.periodFile ∧
      (toggleRunState d (toggleRunState d st)).dutyFile = st.dutyFile ∧
      (toggleRunState d (toggleRunState d st)).polarityFile = st.polarityFile) := by
  rcases h with h | h
  · have e1 := toggleRunState_of_zero d st hr hw h
    have e2 := toggleRunState_of_one d (toggleRunState d st) (by rw [e1]; exact hr)
      (by rw [e1]; exact hw) (by rw [e1])
    refine ⟨fun _ => by rw [e1], fun h1 => ?_, ?_, ?_, ?_⟩
    · rw [h] at h1; exact absurd h1 (by decide)
    · rw [e2, e1]
      cases hf : st.runFile
      rw [hf] at h
      simp only [BlackPWM.setRunFileError] at *
      simp_all
    · rw [e1]; exact ⟨rfl, rfl, rfl⟩
    · rw [e2, e1]; exact ⟨rfl, rfl, rfl⟩
  · have e1 := toggleRunState_of_one d st hr hw h
    have e2 := toggleRunState_of_zero d (toggleRunState d st) (by rw [e1]; exact hr)
      (by rw [e1]; exact hw) (by rw [e1])
    refine ⟨fun h1 => ?_, fun _ => by rw [e1], ?_, ?_, ?_⟩
    · rw [h] at h1; exact absurd h1 (by decide)
    · rw [e2, e1]
      cases hf : st.runFile
      rw [hf] at h
      simp only [BlackPWM.setRunFileError] at *
      simp_all
    · rw [e1]; exact ⟨rfl, rfl, rfl⟩
    · rw [e2, e1]; exact ⟨rfl, rfl, rfl⟩

/-- C11, worked example: from the sample state, whose run file holds `0`, one
call leaves `1` and a second call leaves `0` again. -/
theorem C11_witness :
    (sampleState "500000" "0").runFile.content = "0" ∧
    (toggleRunState sampleDef (sampleState "500000" "0")).runFile.content = "1" ∧
    (toggleRunState sampleDef (toggleRunState sampleDef (sampleState "500000" "0"))).runFile =
      (sampleState "500000" "0").runFile :=
  ⟨rfl,
    (C11_toggleRunState sampleDef (sampleState "500000" "0") rfl rfl (Or.inl rfl)).1 rfl,
    (C11_toggleRunState sampleDef (sampleState "500000" "0") rfl rfl (Or.inl rfl)).2.2.1⟩

/-- A run file whose text ends in a newline, as a kernel attribute prints it: the
value read is toggled and toggled back, while the text written carries no
newline. -/
theorem toggleRunState_trailing_newline :
    (toggleRunState sampleDef
      { sampleState "500000" "0" with
        runFile := { content := "1\n", canRead := true, canWrite := true } }).runFile.content
      = "0" ∧
    (toggleRunState sampleDef (toggleRunState sampleDef
      { sampleState "500000" "0" with
        runFile := { content := "1\n", canRead := true, canWrite := true } })).runFile.content
      = "1" := by
  decide

/-- The value `fail(flags f)` returns for an integer that is no enumerator. -/
theorem failValue_unnamed (st : BlackPWM) : st.failValue 8 = true := by
  simp [BlackPWM.failValue]

/-- C12: `fail()` is true exactly when one of the ten flags is true; it is the
disjunction of `fail(f)` over the ten enumerators of `flags`; and `fail(f)`
returns the flag that `f` names, both on the enumerators and on their integer
values in the chain of comparisons of the source. -/
theorem C12_fail (st : BlackPWM) :
    (st.fail = true ↔
      (st.pwmErrors.periodFileError = true ∨ st.pwmErrors.dutyFileError = true ∨
        st.pwmErrors.runFileError = true ∨ st.pwmErrors.polarityFileError = true ∨
        st.pwmErrors.outOfRange = true ∨ st.pwmErrors.pwmCoreErrors.dtError = true ∨
        st.pwmErrors.pwmCoreErrors.dtSsError = true ∨
        st.pwmErrors.pwmCoreErrors.pwmTestError = true ∨
        st.pwmErrors.pwmCoreErrors.coreErrors.capeMgrError = true ∨
        st.pwmErrors.pwmCoreErrors.coreErrors.ocpError = true)) ∧
    st.fail =
      (st.failFlag flags.periodFileErr || st.failFlag flags.dutyFileErr ||
        st.failFlag flags.runFileErr || st.failFlag flags.polarityFileErr ||
        st.failFlag flags.outOfRangeErr || st.failFlag flags.dtErr ||
        st.failFlag flags.dtSubSystemErr || st.failFlag flags.pwmTestErr ||
        st.failFlag flags.cpmgrErr || st.failFlag flags.ocpErr) ∧
    (st.fail = true ↔ ∃ f : flags, st.failFlag f = true) ∧
    (st.failFlag flags.periodFileErr = st.pwmErrors.periodFileError ∧
      st.failFlag flags.dutyFileErr = st.pwmErrors.dutyFileError ∧
      st.failFlag flags.runFileErr = st.pwmErrors.runFileError ∧
      st.failFlag flags.polarityFileErr = st.pwmErrors.polarityFileError ∧
      st.failFlag flags.outOfRangeErr = st.pwmErrors.outOfRange ∧
      st.failFlag flags.dtErr = st.pwmErrors.pwmCoreErrors.dtError ∧
      st.failFlag flags.dtSubSystemErr = st.pwmErrors.pwmCoreErrors.dtSsError ∧
      st.failFlag flags.pwmTestErr = st.pwmErrors.pwmCoreErrors.pwmTestError ∧
      st.failFlag flags.cpmgrErr = st.pwmErrors.pwmCoreErrors.coreErrors.capeMgrError ∧
      st.failFlag flags.ocpErr = st.pwmErrors.pwmCoreErrors.coreErrors.ocpError) ∧
    ∀ f : flags, st.failValue f.toInt = st.failFlag f := by
  refine ⟨?_, ?_, ?_, ⟨rfl, rfl, rfl, rfl, rfl, rfl, rfl, rfl, rfl, rfl⟩, ?_⟩
  · simp only [BlackPWM.fail, Bool.or_eq_true]; tauto
  · simp only [BlackPWM.fail, BlackPWM.failFlag]
    cases st.pwmErrors.outOfRange <;> cases st.pwmErrors.runFileError <;>
    cases st.pwmErrors.dutyFileError <;> cases st.pwmErrors.periodFileError <;>
    cases st.pwmErrors.polarityFileError <;> cases st.pwmErrors.pwmCoreErrors.dtError <;>
    cases st.pwmErrors.pwmCoreErrors.dtSsError <;>
    cases st.pwmErrors.pwmCoreErrors.pwmTestError <;>
    cases st.pwmErrors.pwmCoreErrors.coreErrors.ocpError <;>
    cases st.pwmErrors.pwmCoreErrors.coreErrors.capeMgrError <;> rfl
  · simp only [BlackPWM.fail, Bool.or_eq_true]
    constructor
    · intro h
      rcases h with ((((((((h | h) | h) | h) | h) | h) | h) | h) | h) | h
      · exact ⟨flags.outOfRangeErr, h⟩
      · exact ⟨flags.runFileErr, h⟩
      · exact ⟨flags.dutyFileErr, h⟩
      · exact ⟨flags.periodFileErr, h⟩
      · exact ⟨flags.polarityFileErr, h⟩
      · exact ⟨flags.dtErr, h⟩
      · exact ⟨flags.dtSubSystemErr, h⟩
      · exact ⟨flags.pwmTestErr, h⟩
      · exact ⟨flags.ocpErr, h⟩
      · exact ⟨flags.cpmgrErr, h⟩
    · rintro ⟨f, h⟩
      cases f <;> simp only [BlackPWM.failFlag] at h <;> simp [h]
  · intro f
    cases f <;> simp [BlackPWM.failValue, BlackPWM.failFlag, flags.toInt]

/-! ### Platform discovery -/

theorem searchDirectory_notFound (d : BlackDef) (fs : DirTree) (dir s : String)
    (h : fs dir = none ∨ ∃ l, fs dir = some l ∧ ∀ y ∈ l, ¬ Matches s y) :
    searchDirectory d fs dir s = d.SEARCH_DIR_NOT_FOUND := by
  rcases h with h | ⟨l, hl, hno⟩
  · simp only [searchDirectory, h]
  · simp only [searchDirectory, hl]
    exact scanEntries_noMatch _ _ _ hno

theorem searchDirectory_found (d : BlackDef) (fs : DirTree) (dir s : String)
    (h : searchDirectory d fs dir s ≠ d.SEARCH_DIR_NOT_FOUND) :
    ∃ l, fs dir = some l ∧ FirstMatch s l (searchDirectory d fs dir s) := by
  cases hl : fs dir with
  | none => exact absurd (searchDirectory_notFound d fs dir s (Or.inl hl)) h
  | some l =>
    rcases firstMatch_or_none s l with hno | ⟨x, hx⟩
    · exact absurd (searchDirectory_notFound d fs dir s (Or.inr ⟨l, hl, hno⟩)) h
    · refine ⟨l, rfl, ?_⟩
      have e : searchDirectory d fs dir s = x := by
        simp only [searchDirectory, hl]
        exact scanEntries_firstMatch _ _ _ _ hx
      rw [e]; exact hx

theorem matches_ne_empty (s x : String) (hs : s ≠ "") (h : Matches s x) : x ≠ "" := by
  intro hx
  have h2 := h.2
  rw [hx] at h2
  have : s.data = [] := List.eq_nil_of_infix_nil h2
  exact hs (String.ext this)

theorem firstMatch_matches (s : String) (l : List String) (x : String)
    (h : FirstMatch s l x) : x ∈ l ∧ Matches s x := by
  obtain ⟨pre, post, rfl, hx, _⟩ := h
  exact ⟨by simp, hx⟩

theorem append_ne_empty (a b : String) (ha : a ≠ "") : a ++ b ≠ "" := by
  intro h
  have h1 := congrArg String.length h
  rw [String.length_append] at h1
  have h2 : a.length ≠ 0 := by
    intro h0
    apply ha
    apply String.ext
    exact List.length_eq_zero.mp h0
  have h3 : "".length = 0 := rfl
  omega

theorem construct_capeMgr (d : BlackDef) (fs : DirTree) (e : errorCore) :
    (BlackCore.construct d fs e).capeMgrName =
        (if searchDirectory d fs "/sys/devices/" "bone_capemgr." = d.SEARCH_DIR_NOT_FOUND
          then "bone_capemgr." ++ d.DEFAULT_CAPE_MGR_NUMBER
          else searchDirectory d fs "/sys/devices/" "bone_capemgr.") ∧
    (BlackCore.construct d fs e).coreErrors.capeMgrError =
        decide (searchDirectory d fs "/sys/devices/" "bone_capemgr." = d.SEARCH_DIR_NOT_FOUND) := by
  simp only [BlackCore.construct, BlackCore.findCapeMgrName, BlackCore.findOcpName]
  split_ifs <;> simp [*]

theorem construct_ocp (d : BlackDef) (fs : DirTree) (e : errorCore) :
    (BlackCore.construct d fs e).ocpName =
        (if searchDirectory d fs "/sys/devices/" "ocp." = d.SEARCH_DIR_NOT_FOUND
          then "ocp." ++ d.DEFAULT_OCP_NUMBER
          else searchDirectory d fs "/sys/devices/" "ocp.") ∧
    (BlackCore.construct d fs e).coreErrors.ocpError =
        decide (searchDirectory d fs "/sys/devices/" "ocp." = d.SEARCH_DIR_NOT_FOUND) := by
  simp only [BlackCore.construct, BlackCore.findCapeMgrName, BlackCore.findOcpName]
  split_ifs <;> simp [*]

theorem construct_slots (d : BlackDef) (fs : DirTree) (e : errorCore) :
    (BlackCore.construct d fs e).slotsFilePath =
      "/sys/devices/" ++ (BlackCore.construct d fs e).capeMgrName ++ "/slots" := by
  simp only [BlackCore.construct, BlackCore.findCapeMgrName, BlackCore.findOcpName]

/-- What does hold of a discovered name: it is an entry of the listing of
`/sys/devices/` that does not begin with a dot and contains the search string. -/
theorem discovery_contains (d : BlackDef) (fs : DirTree) (e : errorCore) :
    ((BlackCore.construct d fs e).coreErrors.capeMgrError = false →
      ∃ l, fs "/sys/devices/" = some l ∧ (BlackCore.construct d fs e).capeMgrName ∈ l ∧
        Matches "bone_capemgr." (BlackCore.construct d fs e).capeMgrName) ∧
    ((BlackCore.construct d fs e).coreErrors.ocpError = false →
      ∃ l, fs "/sys/devices/" = some l ∧ (BlackCore.construct d fs e).ocpName ∈ l ∧
        Matches "ocp." (BlackCore.construct d fs e).ocpName) := by
  constructor
  · intro h
    rw [(construct_capeMgr d fs e).2] at h
    have hne : searchDirectory d fs "/sys/devices/" "bone_capemgr." ≠ d.SEARCH_DIR_NOT_FOUND := by
      simpa using h
    rw [(construct_capeMgr d fs e).1, if_neg hne]
    obtain ⟨l, hl, hf⟩ := searchDirectory_found d fs _ _ hne
    exact ⟨l, hl, firstMatch_matches _ _ _ hf⟩
  · intro h
    rw [(construct_ocp d fs e).2] at h
    have hne : searchDirectory d fs "/sys/devices/" "ocp." ≠ d.SEARCH_DIR_NOT_FOUND := by
      simpa using h
    rw [(construct_ocp d fs e).1, if_neg hne]
    obtain ⟨l, hl, hf⟩ := searchDirectory_found d fs _ _ hne
    exact ⟨l, hl, firstMatch_matches _ _ _ hf⟩

/-- C14, the code at a listing whose entries contain the search strings without
starting with them: both discoveries succeed (flags false) and store
`old_bone_capemgr.8` and `socp.1`, neither of which starts with the string
searched for. -/
theorem C14_discovery_by_substring :
    (BlackCore.construct sampleDef innerDirs noErrors.pwmCoreErrors.coreErrors).coreErrors.capeMgrError
        = false ∧
    (BlackCore.construct sampleDef innerDirs noErrors.pwmCoreErrors.coreErrors).capeMgrName
        = "old_bone_capemgr.8" ∧
    ¬ ("bone_capemgr.".data <+:
        (BlackCore.construct sampleDef innerDirs noErrors.pwmCoreErrors.coreErrors).capeMgrName.data) ∧
    (BlackCore.construct sampleDef innerDirs noErrors.pwmCoreErrors.coreErrors).coreErrors.ocpError
        = false ∧
    (BlackCore.construct sampleDef innerDirs noErrors.pwmCoreErrors.coreErrors).ocpName
        = "socp.1" ∧
    ¬ ("ocp.".data <+:
        (BlackCore.construct sampleDef innerDirs noErrors.pwmCoreErrors.coreErrors).ocpName.data) := by
  decide

/-- C15: after the constructor of `BlackCore`, for the capemgr and for the ocp
search alike: if the search of `/sys/devices/` returned the sentinel the flag is
true and the name is the fallback, otherwise the flag is false and the name is
the entry found; the slots path is `/sys/devices/` + capemgr name + `/slots`; and
the outcome of each discovery is fixed by its own search alone, whatever the
other search returns. -/
theorem C15_BlackCore_construct (d : BlackDef) (fs : DirTree) (e : errorCore) :
    ((searchDirectory d fs "/sys/devices/" "bone_capemgr." = d.SEARCH_DIR_NOT_FOUND →
        (BlackCore.construct d fs e).coreErrors.capeMgrError = true ∧
        (BlackCore.construct d fs e).capeMgrName = "bone_capemgr." ++ d.DEFAULT_CAPE_MGR_NUMBER) ∧
      (searchDirectory d fs "/sys/devices/" "bone_capemgr." ≠ d.SEARCH_DIR_NOT_FOUND →
        (BlackCore.construct d fs e).coreErrors.capeMgrError = false ∧
        (BlackCore.construct d fs e).capeMgrName =
          searchDirectory d fs "/sys/devices/" "bone_capemgr.")) ∧
    ((searchDirectory d fs "/sys/devices/" "ocp." = d.SEARCH_DIR_NOT_FOUND →
        (BlackCore.construct d fs e).coreErrors.ocpError = true ∧
        (BlackCore.construct d fs e).ocpName = "ocp." ++ d.DEFAULT_OCP_NUMBER) ∧
      (searchDirectory d fs "/sys/devices/" "ocp." ≠ d.SEARCH_DIR_NOT_FOUND →
        (BlackCore.construct d fs e).coreErrors.ocpError = false ∧
        (BlackCore.construct d fs e).ocpName = searchDirectory d fs "/sys/devices/" "ocp.")) ∧
    (BlackCore.construct d fs e).slotsFilePath =
      "/sys/devices/" ++ (BlackCore.construct d fs e).capeMgrName ++ "/slots" ∧
    (∀ (fs2 : DirTree) (e2 : errorCore),
      searchDirectory d fs2 "/sys/devices/" "bone_capemgr." =
          searchDirectory d fs "/sys/devices/" "bone_capemgr." →
        (BlackCore.construct d fs2 e2).coreErrors.capeMgrError =
            (BlackCore.construct d fs e).coreErrors.capeMgrError ∧
          (BlackCore.construct d fs2 e2).capeMgrName = (BlackCore.construct d fs e).capeMgrName) ∧
    (∀ (fs2 : DirTree) (e2 : errorCore),
      searchDirectory d fs2 "/sys/devices/" "ocp." = searchDirectory d fs "/sys/devices/" "ocp." →
        (BlackCore.construct d fs2 e2).coreErrors.ocpError =
            (BlackCore.construct d fs e).coreErrors.ocpError ∧
          (BlackCore.construct d fs2 e2).ocpName = (BlackCore.construct d fs e).ocpName) := by
  refine ⟨⟨fun h => ?_, fun h => ?_⟩, ⟨fun h => ?_, fun h => ?_⟩, construct_slots d fs e, ?_, ?_⟩
  · rw [(construct_capeMgr d fs e).1, (construct_capeMgr d fs e).2, if_pos h]
    exact ⟨decide_eq_true h, rfl⟩
  · rw [(construct_capeMgr d fs e).1, (construct_capeMgr d fs e).2, if_neg h]
    exact ⟨decide_eq_false h, rfl⟩
  · rw [(construct_ocp d fs e).1, (construct_ocp d fs e).2, if_pos h]
    exact ⟨decide_eq_true h, rfl⟩
  · rw [(construct_ocp d fs e).1, (construct_ocp d fs e).2, if_neg h]
    exact ⟨decide_eq_false h, rfl⟩
  · intro fs2 e2 h
    rw [(construct_capeMgr d fs e).1, (construct_capeMgr d fs e).2,
      (construct_capeMgr d fs2 e2).1, (construct_capeMgr d fs2 e2).2, h]
    exact ⟨rfl, rfl⟩
  · intro fs2 e2 h
    rw [(construct_ocp d fs e).1, (construct_ocp d fs e).2,
      (construct_ocp d fs2 e2).1, (construct_ocp d fs2 e2).2, h]
    exact ⟨rfl, rfl⟩

/-- The four combinations of the two discoveries, on sample listings. -/
theorem construct_examples :
    (BlackCore.construct sampleDef boardDirs noErrors.pwmCoreErrors.coreErrors =
      { coreErrors := { capeMgrError := false, ocpError := false }
        capeMgrName := "bone_capemgr.9", ocpName := "ocp.3"
        slotsFilePath := "/sys/devices/bone_capemgr.9/slots" }) ∧
    (BlackCore.construct sampleDef capeOnlyDirs noErrors.pwmCoreErrors.coreErrors =
      { coreErrors := { capeMgrError := false, ocpError := true }
        capeMgrName := "bone_capemgr.9", ocpName := "ocp.2"
        slotsFilePath := "/sys/devices/bone_capemgr.9/slots" }) ∧
    (BlackCore.construct sampleDef ocpOnlyDirs noErrors.pwmCoreErrors.coreErrors =
      { coreErrors := { capeMgrError := true, ocpError := false }
        capeMgrName := "bone_capemgr.8", ocpName := "ocp.3"
        slotsFilePath := "/sys/devices/bone_capemgr.8/slots" }) ∧
    (BlackCore.construct sampleDef noTree noErrors.pwmCoreErrors.coreErrors =
      { coreErrors := { capeMgrError := true, ocpError := true }
        capeMgrName := "bone_capemgr.8", ocpName := "ocp.2"
        slotsFilePath := "/sys/devices/bone_capemgr.8/slots" }) := by
  refine ⟨?_, ?_, ?_, ?_⟩ <;> rfl

/-- C16: for every listing of `/sys/devices/`, the case that it cannot be opened
included, the capemgr name and the ocp name are non-empty after the constructor
of `BlackCore`. -/
theorem C16_names_nonempty (d : BlackDef) (fs : DirTree) (e : errorCore) :
    (BlackCore.construct d fs e).capeMgrName ≠ "" ∧ (BlackCore.construct d fs e).ocpName ≠ "" := by
  constructor
  · rw [(construct_capeMgr d fs e).1]
    split_ifs with h
    · exact append_ne_empty _ _ (by decide)
    · obtain ⟨l, _, hf⟩ := searchDirectory_found d fs _ _ h
      exact matches_ne_empty _ _ (by decide) (firstMatch_matches _ _ _ hf).2
  · rw [(construct_ocp d fs e).1]
    split_ifs with h
    · exact append_ne_empty _ _ (by decide)
    · obtain ⟨l, _, hf⟩ := searchDirectory_found d fs _ _ h
      exact matches_ne_empty _ _ (by decide) (firstMatch_matches _ _ _ hf).2

/-! ### Loading the device tree -/

/-- C17: when the first `open` of the slots file fails, `loadDeviceTree` sets
`dtSsError` and `dtError`, returns false and inserts nothing: no file is changed
and no token is written, the pin token included; the rest of the object is as it
was. -/
theorem C17_loadDeviceTree_firstOpenFails (self : BlackCorePWM) (files : String → SlotsFile)
    (h : (files self.core.slotsFilePath).firstOpen = false) :
    (self.loadDeviceTree files).self.pwmCoreErrors.dtSsError = true ∧
    (self.loadDeviceTree files).self.pwmCoreErrors.dtError = true ∧
    (self.loadDeviceTree files).result = false ∧
    (self.loadDeviceTree files).files = files ∧
    (self.loadDeviceTree files).inserted = [] ∧
    (self.loadDeviceTree files).self =
      { self with
        pwmCoreErrors := { self.pwmCoreErrors with dtSsError := true, dtError := true } } := by
  simp [BlackCorePWM.loadDeviceTree, h]

/-- C17, worked example: pin `P8_19` and slots files that cannot be opened. -/
theorem C17_witness :
    (lockedSlots (sampleCorePWM pwmName.P8_19).core.slotsFilePath).firstOpen = false ∧
    ((sampleCorePWM pwmName.P8_19).loadDeviceTree lockedSlots).self.pwmCoreErrors.dtSsError = true ∧
    ((sampleCorePWM pwmName.P8_19).loadDeviceTree lockedSlots).self.pwmCoreErrors.dtError = true ∧
    ((sampleCorePWM pwmName.P8_19).loadDeviceTree lockedSlots).result = false ∧
    ((sampleCorePWM pwmName.P8_19).loadDeviceTree lockedSlots).inserted = [] :=
  ⟨rfl,
    (C17_loadDeviceTree_firstOpenFails (sampleCorePWM pwmName.P8_19) lockedSlots rfl).1,
    (C17_loadDeviceTree_firstOpenFails (sampleCorePWM pwmName.P8_19) lockedSlots rfl).2.1,
    (C17_loadDeviceTree_firstOpenFails (sampleCorePWM pwmName.P8_19) lockedSlots rfl).2.2.1,
    (C17_loadDeviceTree_firstOpenFails (sampleCorePWM pwmName.P8_19) lockedSlots rfl).2.2.2.2.1⟩

/-- C18: when both opens succeed `loadDeviceTree` inserts `am33xx_pwm` and then
`bone_pwm_` + `pwmNameMap[pin]` (which is then the content of the slots file),
clears `dtSsError` and `dtError` and returns true; when only the second open
fails it inserts the first token alone, sets `dtError`, leaves `dtSsError`
cleared and returns false; in every case the returned boolean is true exactly
when `dtError` is false afterwards; for `P8_19`, and so for its alias
`EHRPWM2A`, the second token is `bone_pwm_P8_19`. -/
theorem C18_loadDeviceTree (self : BlackCorePWM) (files : String → SlotsFile) :
    ((files self.core.slotsFilePath).firstOpen = true →
      (files self.core.slotsFilePath).secondOpen = true →
        (self.loadDeviceTree files).inserted =
            ["am33xx_pwm", "bone_pwm_" ++ pwmNameMap self.pwmPinName] ∧
        ((self.loadDeviceTree files).files self.core.slotsFilePath).content =
            "bone_pwm_" ++ pwmNameMap self.pwmPinName ∧
        (self.loadDeviceTree files).self.pwmCoreErrors.dtSsError = false ∧
        (self.loadDeviceTree files).self.pwmCoreErrors.dtError = false ∧
        (self.loadDeviceTree files).result = true) ∧
    ((files self.core.slotsFilePath).firstOpen = true →
      (files self.core.slotsFilePath).secondOpen = false →
        (self.loadDeviceTree files).inserted = ["am33xx_pwm"] ∧
        ((self.loadDeviceTree files).files self.core.slotsFilePath).content = "am33xx_pwm" ∧
        (self.loadDeviceTree files).self.pwmCoreErrors.dtError = true ∧
        (self.loadDeviceTree files).self.pwmCoreErrors.dtSsError = false ∧
        (self.loadDeviceTree files).result = false) ∧
    ((self.loadDeviceTree files).result = true ↔
      (self.loadDeviceTree files).self.pwmCoreErrors.dtError = false) ∧
    "bone_pwm_" ++ pwmNameMap pwmName.P8_19 = "bone_pwm_P8_19" ∧
    "bone_pwm_" ++ pwmNameMap pwmName.EHRPWM2A = "bone_pwm_P8_19" := by
  refine ⟨fun h1 h2 => ?_, fun h1 h2 => ?_, ?_, by decide, by decide⟩
  · simp [BlackCorePWM.loadDeviceTree, h1, h2]
  · simp [BlackCorePWM.loadDeviceTree, h1, h2]
  · cases h1 : (files self.core.slotsFilePath).firstOpen <;>
      cases h2 : (files self.core.slotsFilePath).secondOpen <;>
      simp [BlackCorePWM.loadDeviceTree, h1, h2]

/-- The three outcomes of `loadDeviceTree` for pin `P8_19` on sample files. -/
theorem loadDeviceTree_examples :
    (((sampleCorePWM pwmName.P8_19).loadDeviceTree (openSlots "")).result = true ∧
      ((sampleCorePWM pwmName.P8_19).loadDeviceTree (openSlots "")).inserted =
        ["am33xx_pwm", "bone_pwm_P8_19"] ∧
      (((sampleCorePWM pwmName.P8_19).loadDeviceTree (openSlots "")).files
        "/sys/devices/bone_capemgr.9/slots").content = "bone_pwm_P8_19") ∧
    (((sampleCorePWM pwmName.P8_19).loadDeviceTree (halfOpenSlots "")).result = false ∧
      ((sampleCorePWM pwmName.P8_19).loadDeviceTree (halfOpenSlots "")).inserted =
        ["am33xx_pwm"] ∧
      ((sampleCorePWM pwmName.P8_19).loadDeviceTree
        (halfOpenSlots "")).self.pwmCoreErrors.dtError = true ∧
      ((sampleCorePWM pwmName.P8_19).loadDeviceTree
        (halfOpenSlots "")).self.pwmCoreErrors.dtSsError = false) ∧
    (((sampleCorePWM pwmName.P8_19).loadDeviceTree lockedSlots).result = false ∧
      ((sampleCorePWM pwmName.P8_19).loadDeviceTree lockedSlots).inserted = []) := by
  decide

/-! ### The test directory and the control paths -/

theorem findPwmTestName_eq (d : BlackDef) (fs : DirTree) (self : BlackCorePWM)
    (pwm : pwmName) :
    (self.findPwmTestName d fs pwm) =
      (if searchDirectory d fs ("/sys/devices/" ++ self.core.ocpName ++ "/")
            ("pwm_test_" ++ pwmNameMap pwm ++ ".") = d.SEARCH_DIR_NOT_FOUND then
        (d.PWM_TEST_NAME_NOT_FOUND,
          { self with pwmCoreErrors := { self.pwmCoreErrors with pwmTestError := true } })
      else
        (searchDirectory d fs ("/sys/devices/" ++ self.core.ocpName ++ "/")
            ("pwm_test_" ++ pwmNameMap pwm ++ "."),
          { self with pwmCoreErrors := { self.pwmCoreErrors with pwmTestError := false } })) := by
  cases pwm
  · have e : "pwm_test_" ++ pwmNameMap pwmName.P8_13 ++ "." = "pwm_test_P8_13." := by decide
    rw [e]; rfl
  · have e : "pwm_test_" ++ pwmNameMap pwmName.P8_19 ++ "." = "pwm_test_P8_19." := by decide
    rw [e]; rfl
  · have e : "pwm_test_" ++ pwmNameMap pwmName.P9_14 ++ "." = "pwm_test_P9_14." := by decide
    rw [e]; rfl
  · have e : "pwm_test_" ++ pwmNameMap pwmName.P9_16 ++ "." = "pwm_test_P9_16." := by decide
    rw [e]; rfl
  · have e : "pwm_test_" ++ pwmNameMap pwmName.P9_21 ++ "." = "pwm_test_P9_21." := by decide
    rw [e]; rfl
  · have e : "pwm_test_" ++ pwmNameMap pwmName.P9_22 ++ "." = "pwm_test_P9_22." := by decide
    rw [e]; rfl
  · have e : "pwm_test_" ++ pwmNameMap pwmName.P9_42 ++ "." = "pwm_test_P9_42." := by decide
    rw [e]; rfl

theorem loadDeviceTree_core (self : BlackCorePWM) (files : String → SlotsFile) :
    (self.loadDeviceTree files).self.core = self.core ∧
    (self.loadDeviceTree files).self.pwmPinName = self.pwmPinName ∧
    (self.loadDeviceTree files).self.pwmCoreErrors.coreErrors = self.pwmCoreErrors.coreErrors ∧
    (self.loadDeviceTree files).self.pwmCoreErrors.dtSsError =
      !(files self.core.slotsFilePath).firstOpen ∧
    (self.loadDeviceTree files).self.pwmCoreErrors.dtError =
      !((files self.core.slotsFilePath).firstOpen && (files self.core.slotsFilePath).secondOpen) := by
  cases h1 : (files self.core.slotsFilePath).firstOpen <;>
    cases h2 : (files self.core.slotsFilePath).secondOpen <;>
    simp [BlackCorePWM.loadDeviceTree, h1, h2]

theorem findPwmTestName_core (d : BlackDef) (fs : DirTree) (self : BlackCorePWM)
    (pwm : pwmName) :
    (self.findPwmTestName d fs pwm).2.core = self.core ∧
    (self.findPwmTestName d fs pwm).2.pwmPinName = self.pwmPinName ∧
    (self.findPwmTestName d fs pwm).2.pwmCoreErrors.coreErrors = self.pwmCoreErrors.coreErrors ∧
    (self.findPwmTestName d fs pwm).2.pwmCoreErrors.dtSsError = self.pwmCoreErrors.dtSsError ∧
    (self.findPwmTestName d fs pwm).2.pwmCoreErrors.dtError = self.pwmCoreErrors.dtError ∧
    (self.findPwmTestName d fs pwm).2.pwmCoreErrors.pwmTestError =
      decide (searchDirectory d fs ("/sys/devices/" ++ self.core.ocpName ++ "/")
        ("pwm_test_" ++ pwmNameMap pwm ++ ".") = d.SEARCH_DIR_NOT_FOUND) := by
  rw [findPwmTestName_eq]
  split_ifs with h <;> simp [h]

/-- The object the constructor of `BlackCorePWM` leaves, field by field. -/
theorem corePWM_construct (d : BlackDef) (fs : DirTree) (files : String → SlotsFile)
    (init : errorCorePWM) (pwm : pwmName) :
    (BlackCorePWM.construct d fs files init pwm).1.core = BlackCore.construct d fs init.coreErrors ∧
    (BlackCorePWM.construct d fs files init pwm).1.pwmPinName = pwm ∧
    (BlackCorePWM.construct d fs files init pwm).1.pwmCoreErrors.dtSsError =
      !(files (BlackCore.construct d fs init.coreErrors).slotsFilePath).firstOpen ∧
    (BlackCorePWM.construct d fs files init pwm).1.pwmCoreErrors.dtError =
      !((files (BlackCore.construct d fs init.coreErrors).slotsFilePath).firstOpen &&
        (files (BlackCore.construct d fs init.coreErrors).slotsFilePath).secondOpen) ∧
    (BlackCorePWM.construct d fs files init pwm).1.pwmCoreErrors.pwmTestError =
      decide (searchDirectory d fs
        ("/sys/devices/" ++ (BlackCore.construct d fs init.coreErrors).ocpName ++ "/")
        ("pwm_test_" ++ pwmNameMap pwm ++ ".") = d.SEARCH_DIR_NOT_FOUND) ∧
    (BlackCorePWM.construct d fs files init pwm).1.pwmCoreErrors.coreErrors =
      (BlackCore.construct d fs init.coreErrors).coreErrors ∧
    (BlackCorePWM.construct d fs files init pwm).1.pwmTestPath =
      "/sys/devices/" ++ (BlackCore.construct d fs init.coreErrors).ocpName ++ "/" ++
        ((BlackCorePWM.construct d fs files init pwm).1.findPwmTestName d fs pwm).1 := by
  have hl := loadDeviceTree_core
    { core := BlackCore.construct d fs init.coreErrors
      pwmCoreErrors := { init with coreErrors := (BlackCore.construct d fs init.coreErrors).coreErrors }
      pwmTestPath := ""
      pwmPinName := pwm } files
  have hf := findPwmTestName_core d fs
    (BlackCorePWM.loadDeviceTree
      { core := BlackCore.construct d fs init.coreErrors
        pwmCoreErrors :=
          { init with coreErrors := (BlackCore.construct d fs init.coreErrors).coreErrors }
        pwmTestPath := ""
        pwmPinName := pwm } files).self pwm
  simp only [] at hl
  obtain ⟨l1, l2, l3, l4, l5⟩ := hl
  rw [l1, l2, l3, l4, l5] at hf
  obtain ⟨f1, f2, f3, f4, f5, f6⟩ := hf
  simp only [BlackCorePWM.construct]
  rw [l2]
  refine ⟨f1, f2, f4, f5, f6, f3, ?_⟩
  rw [f1]
  rw [findPwmTestName_eq, findPwmTestName_eq]
  simp only [f1, l1]
  split_ifs <;> rfl


theorem path_suffix_ne (p a b : String) (h : a.length ≠ b.length) : p ++ a ≠ p ++ b := by
  intro e
  have e2 := congrArg String.length e
  rw [String.length_append, String.length_append] at e2
  omega

/-- The object the constructor of `BlackPWM` leaves on the sample board for pin
`P8_19`: no flag set, and the four paths under the test directory found. -/
theorem pwmObject_construct_example :
    (PwmObject.construct sampleDef boardDirs (openSlots "") noErrors pwmName.P8_19).1.pwmErrors
      = noErrors ∧
    (PwmObject.construct sampleDef boardDirs (openSlots "") noErrors pwmName.P8_19).1.periodPath
      = "/sys/devices/ocp.3/pwm_test_P8_19.15/period" ∧
    (PwmObject.construct sampleDef boardDirs (openSlots "") noErrors pwmName.P8_19).1.dutyPath
      = "/sys/devices/ocp.3/pwm_test_P8_19.15/duty" ∧
    (PwmObject.construct sampleDef boardDirs (openSlots "") noErrors pwmName.P8_19).1.runPath
      = "/sys/devices/ocp.3/pwm_test_P8_19.15/run" ∧
    (PwmObject.construct sampleDef boardDirs (openSlots "") noErrors pwmName.P8_19).1.polarityPath
      = "/sys/devices/ocp.3/pwm_test_P8_19.15/polarity" ∧
    ((PwmObject.construct sampleDef boardDirs (openSlots "") noErrors pwmName.P8_19).2
      "/sys/devices/bone_capemgr.9/slots").content = "bone_pwm_P8_19" := by
  refine ⟨?_, ?_, ?_, ?_, ?_, ?_⟩ <;> rfl

/-- C13: for every pin, the constructor of `BlackPWM` run where the slots file
cannot be opened and the ocp directory is missing or has no entry for the pin's
test directory yields an object (the constructor is a total function) on which
`fail(dtErr)`, `fail(pwmTestErr)`, `fail(dtSubSystemErr)` and `fail()` are all
true. -/
theorem C13_construct_noDeviceTree (d : BlackDef) (fs : DirTree) (files : String → SlotsFile)
    (init : errorPWM) (pwm : pwmName) (control : String → File)
    (hslots : (files (BlackCore.construct d fs
      init.pwmCoreErrors.coreErrors).slotsFilePath).firstOpen = false)
    (hocp :
      fs ("/sys/devices/" ++
          (BlackCore.construct d fs init.pwmCoreErrors.coreErrors).ocpName ++ "/") = none ∨
      ∃ l, fs ("/sys/devices/" ++
          (BlackCore.construct d fs init.pwmCoreErrors.coreErrors).ocpName ++ "/") = some l ∧
        ∀ y ∈ l, ¬ Matches ("pwm_test_" ++ pwmNameMap pwm ++ ".") y) :
    ((PwmObject.construct d fs files init pwm).1.state control).failFlag flags.dtErr = true ∧
    ((PwmObject.construct d fs files init pwm).1.state control).failFlag flags.pwmTestErr = true ∧
    ((PwmObject.construct d fs files init pwm).1.state control).failFlag flags.dtSubSystemErr
      = true ∧
    ((PwmObject.construct d fs files init pwm).1.state control).fail = true := by
  obtain ⟨_, _, h3, h4, h5, _, _⟩ := corePWM_construct d fs files init.pwmCoreErrors pwm
  have hs := searchDirectory_notFound d fs _ _ hocp
  rw [hslots] at h3 h4
  rw [hs] at h5
  simp only [Bool.not_false, Bool.false_and, decide_True] at h3 h4 h5
  simp only [PwmObject.construct, PwmObject.state, BlackPWM.failFlag, BlackPWM.fail, h3, h4, h5]
  simp

/-- C13, worked example: pin `P8_19`, no directory can be opened and no slots
file can be opened. -/
theorem C13_witness :
    ((PwmObject.construct sampleDef noTree lockedSlots noErrors pwmName.P8_19).1.state
        absentControl).failFlag flags.dtErr = true ∧
    ((PwmObject.construct sampleDef noTree lockedSlots noErrors pwmName.P8_19).1.state
        absentControl).failFlag flags.pwmTestErr = true ∧
    ((PwmObject.construct sampleDef noTree lockedSlots noErrors pwmName.P8_19).1.state
        absentControl).failFlag flags.dtSubSystemErr = true ∧
    ((PwmObject.construct sampleDef noTree lockedSlots noErrors pwmName.P8_19).1.state
        absentControl).fail = true :=
  C13_construct_noDeviceTree sampleDef noTree lockedSlots noErrors pwmName.P8_19 absentControl
    rfl (Or.inl rfl)

/-- C19: `findPwmTestName` sets `pwmTestError` and returns
`PWM_TEST_NAME_NOT_FOUND` when the search of the ocp directory returns the
sentinel, and otherwise clears the flag and returns the name found; the four
paths of a constructed `BlackPWM` are `/sys/devices/` + ocp name + `/` + that
segment followed by `/period`, `/duty`, `/run` and `/polarity`, and no two of
them are equal. -/
theorem C19_control_paths (d : BlackDef) (fs : DirTree) (files : String → SlotsFile)
    (init : errorPWM) (pwm : pwmName) (self : BlackCorePWM) :
    ((searchDirectory d fs ("/sys/devices/" ++ self.core.ocpName ++ "/")
          ("pwm_test_" ++ pwmNameMap pwm ++ ".") = d.SEARCH_DIR_NOT_FOUND →
        (self.findPwmTestName d fs pwm).2.pwmCoreErrors.pwmTestError = true ∧
        (self.findPwmTestName d fs pwm).1 = d.PWM_TEST_NAME_NOT_FOUND) ∧
      (searchDirectory d fs ("/sys/devices/" ++ self.core.ocpName ++ "/")
          ("pwm_test_" ++ pwmNameMap pwm ++ ".") ≠ d.SEARCH_DIR_NOT_FOUND →
        (self.findPwmTestName d fs pwm).2.pwmCoreErrors.pwmTestError = false ∧
        (self.findPwmTestName d fs pwm).1 =
          searchDirectory d fs ("/sys/devices/" ++ self.core.ocpName ++ "/")
            ("pwm_test_" ++ pwmNameMap pwm ++ "."))) ∧
    ((PwmObject.construct d fs files init pwm).1.base.core.ocpName =
        (BlackCore.construct d fs init.pwmCoreErrors.coreErrors).ocpName ∧
      (PwmObject.construct d fs files init pwm).1.periodPath =
        "/sys/devices/" ++ (PwmObject.construct d fs files init pwm).1.base.core.ocpName ++ "/" ++
          ((PwmObject.construct d fs files init pwm).1.base.findPwmTestName d fs pwm).1 ++
          "/period" ∧
      (PwmObject.construct d fs files init pwm).1.dutyPath =
        "/sys/devices/" ++ (PwmObject.construct d fs files init pwm).1.base.core.ocpName ++ "/" ++
          ((PwmObject.construct d fs files init pwm).1.base.findPwmTestName d fs pwm).1 ++
          "/duty" ∧
      (PwmObject.construct d fs files init pwm).1.runPath =
        "/sys/devices/" ++ (PwmObject.construct d fs files init pwm).1.base.core.ocpName ++ "/" ++
          ((PwmObject.construct d fs files init pwm).1.base.findPwmTestName d fs pwm).1 ++
          "/run" ∧
      (PwmObject.construct d fs files init pwm).1.polarityPath =
        "/sys/devices/" ++ (PwmObject.construct d fs files init pwm).1.base.core.ocpName ++ "/" ++
          ((PwmObject.construct d fs files init pwm).1.base.findPwmTestName d fs pwm).1 ++
          "/polarity") ∧
    ((PwmObject.construct d fs files init pwm).1.periodPath ≠
        (PwmObject.construct d fs files init pwm).1.dutyPath ∧
      (PwmObject.construct d fs files init pwm).1.periodPath ≠
        (PwmObject.construct d fs files init pwm).1.runPath ∧
      (PwmObject.construct d fs files init pwm).1.periodPath ≠
        (PwmObject.construct d fs files init pwm).1.polarityPath ∧
      (PwmObject.construct d fs files init pwm).1.dutyPath ≠
        (PwmObject.construct d fs files init pwm).1.runPath ∧
      (PwmObject.construct d fs files init pwm).1.dutyPath ≠
        (PwmObject.construct d fs files init pwm).1.polarityPath ∧
      (PwmObject.construct d fs files init pwm).1.runPath ≠
        (PwmObject.construct d fs files init pwm).1.polarityPath) := by
  refine ⟨⟨fun h => ?_, fun h => ?_⟩, ?_, ?_⟩
  · rw [findPwmTestName_eq, if_pos h]; exact ⟨rfl, rfl⟩
  · rw [findPwmTestName_eq, if_neg h]; exact ⟨rfl, rfl⟩
  · obtain ⟨h1, _, _, _, _, _, h7⟩ := corePWM_construct d fs files init.pwmCoreErrors pwm
    have hb : (PwmObject.construct d fs files init pwm).1.base =
        (BlackCorePWM.construct d fs files init.pwmCoreErrors pwm).1 := rfl
    refine ⟨by rw [hb, h1], ?_, ?_, ?_, ?_⟩
    · show (BlackCorePWM.construct d fs files init.pwmCoreErrors pwm).1.pwmTestPath ++ "/period" = _
      rw [hb, h7, h1]
    · show (BlackCorePWM.construct d fs files init.pwmCoreErrors pwm).1.pwmTestPath ++ "/duty" = _
      rw [hb, h7, h1]
    · show (BlackCorePWM.construct d fs files init.pwmCoreErrors pwm).1.pwmTestPath ++ "/run" = _
      rw [hb, h7, h1]
    · show (BlackCorePWM.construct d fs files init.pwmCoreErrors pwm).1.pwmTestPath ++ "/polarity"
        = _
      rw [hb, h7, h1]
  · refine ⟨?_, ?_, ?_, ?_, ?_, ?_⟩ <;>
      exact path_suffix_ne _ _ _ (by decide)

/-- C20: for every pin `findPwmTestName` is the search of the directory
`/sys/devices/` + ocp name + `/`, with no further sub-path, for the string
`pwm_test_` + `pwmNameMap[pin]` + `.`; the pin named is the one whose token
`bone_pwm_` + `pwmNameMap[pin]` a successful `loadDeviceTree` of the same object
inserts; and each alias is the pin it is declared equal to. -/
theorem C20_search_names_pin (d : BlackDef) (fs : DirTree) (self : BlackCorePWM)
    (pwm : pwmName) (files : String → SlotsFile) :
    self.findPwmTestName d fs pwm =
      (if searchDirectory d fs ("/sys/devices/" ++ self.core.ocpName ++ "/")
            ("pwm_test_" ++ pwmNameMap pwm ++ ".") = d.SEARCH_DIR_NOT_FOUND then
        (d.PWM_TEST_NAME_NOT_FOUND,
          { self with pwmCoreErrors := { self.pwmCoreErrors with pwmTestError := true } })
      else
        (searchDirectory d fs ("/sys/devices/" ++ self.core.ocpName ++ "/")
            ("pwm_test_" ++ pwmNameMap pwm ++ "."),
          { self with pwmCoreErrors := { self.pwmCoreErrors with pwmTestError := false } })) ∧
    ((self.loadDeviceTree files).result = true →
      (self.loadDeviceTree files).inserted =
        ["am33xx_pwm", "bone_pwm_" ++ pwmNameMap self.pwmPinName]) ∧
    (∀ init : errorCorePWM,
      (BlackCorePWM.construct d fs files init pwm).1.pwmPinName = pwm ∧
      (BlackCorePWM.construct d fs files init pwm).1.pwmCoreErrors.pwmTestError =
        decide (searchDirectory d fs
          ("/sys/devices/" ++ (BlackCore.construct d fs init.coreErrors).ocpName ++ "/")
          ("pwm_test_" ++ pwmNameMap pwm ++ ".") = d.SEARCH_DIR_NOT_FOUND)) ∧
    (pwmName.EHRPWM2B = pwmName.P8_13 ∧ pwmName.EHRPWM2A = pwmName.P8_19 ∧
      pwmName.EHRPWM1A = pwmName.P9_14 ∧ pwmName.EHRPWM1B = pwmName.P9_16 ∧
      pwmName.EHRPWM0B = pwmName.P9_21 ∧ pwmName.EHRPWM0A = pwmName.P9_22 ∧
      pwmName.ECAP0 = pwmName.P9_42) := by
  refine ⟨findPwmTestName_eq d fs self pwm, ?_, ?_, ⟨rfl, rfl, rfl, rfl, rfl, rfl, rfl⟩⟩
  · cases h1 : (files self.core.slotsFilePath).firstOpen <;>
      cases h2 : (files self.core.slotsFilePath).secondOpen <;>
      simp [BlackCorePWM.loadDeviceTree, h1, h2]
  · intro init
    obtain ⟨_, h2, _, _, h5, _, _⟩ := corePWM_construct d fs files init pwm
    exact ⟨h2, h5⟩

/-! ### The read accessors and the two-valued setters -/

theorem flagsKept_setPeriodFileError (st : BlackPWM) (b : Bool) :
    FlagsKeptExcept flags.periodFileErr st (st.setPeriodFileError b) := by
  intro g hg
  cases g <;> first | rfl | exact absurd rfl hg

theorem flagsKept_setDutyFileError (st : BlackPWM) (b : Bool) :
    FlagsKeptExcept flags.dutyFileErr st (st.setDutyFileError b) := by
  intro g hg
  cases g <;> first | rfl | exact absurd rfl hg

theorem flagsKept_setRunFileError (st : BlackPWM) (b : Bool) :
    FlagsKeptExcept flags.runFileErr st (st.setRunFileError b) := by
  intro g hg
  cases g <;> first | rfl | exact absurd rfl hg

theorem flagsKept_setPolarityFileError (st : BlackPWM) (b : Bool) :
    FlagsKeptExcept flags.polarityFileErr st (st.setPolarityFileError b) := by
  intro g hg
  cases g <;> first | rfl | exact absurd rfl hg

theorem takeWhile_append_newline (p : Char → Bool) (l : List Char)
    (hl : ∀ c ∈ l, p c = true) (hn : p '\n' = false) :
    (l ++ ['\n']).takeWhile p = l := by
  induction l with
  | nil => simp [List.takeWhile, hn]
  | cons c cs ih =>
    rw [List.cons_append, List.takeWhile_cons, hl c (List.mem_cons_self c cs)]
    simp only [if_true]
    rw [ih (fun x hx => hl x (List.mem_cons_of_mem c hx))]

theorem dropWhile_isSpace_digits_append (ds r : List Char) (hne : ds ≠ [])
    (hd : ∀ c ∈ ds, c.isDigit = true) : (ds ++ r).dropWhile isSpace = ds ++ r := by
  obtain ⟨c, cs, rfl⟩ := List.exists_cons_of_ne_nil hne
  rw [List.cons_append, List.dropWhile_cons,
    isSpace_of_isDigit c (hd c (List.mem_cons_self c cs))]
  rfl

/-- The text read from a decimal numeral followed by a newline is the numeral. -/
theorem extractString_numeral_newline (n : ℕ) :
    extractString ((toString n).data ++ ['\n']) = toString n := by
  obtain ⟨h1, h2, _⟩ := toString_nat_spec n
  unfold extractString
  rw [dropWhile_isSpace_digits_append _ _ h1 h2,
    takeWhile_append_newline _ _ (fun c hc => by rw [isSpace_of_isDigit c (h2 c hc)]; rfl)
      (by decide)]

/-- The integer read from a decimal numeral followed by a newline is its value. -/
theorem extractInt64?_numeral_newline (n : ℕ) (h : n < 2 ^ 63) :
    extractInt64? ((toString n).data ++ ['\n']) = some (n : ℤ) := by
  obtain ⟨h1, h2, h3⟩ := toString_nat_spec n
  have hdrop := dropWhile_isSpace_digits_append (toString n).data ['\n'] h1 h2
  have htake : ((toString n).data ++ ['\n']).takeWhile Char.isDigit = (toString n).data :=
    takeWhile_append_newline _ _ h2 (by decide)
  obtain ⟨c, cs, hcs⟩ := List.exists_cons_of_ne_nil h1
  have hc := not_sign_of_isDigit c (h2 c (by rw [hcs]; exact List.mem_cons_self c cs))
  have hm : ¬ (((toString n).data ++ ['\n']).head? = some '-') := by
    rw [hcs]; simp [hc.1]
  have hp : ¬ (((toString n).data ++ ['\n']).head? = some '-' ∨
      ((toString n).data ++ ['\n']).head? = some '+') := by
    rw [hcs]; simp [hc.1, hc.2]
  unfold extractInt64?
  simp only [hdrop]
  rw [if_neg hp, htake, if_neg h1, if_neg hm, h3]
  unfold clampInt64
  congr 1
  have : (n : ℤ) < 2 ^ 63 := by exact_mod_cast h
  have hn : (0 : ℤ) ≤ n := by positivity
  rw [min_eq_left (by omega), max_eq_right (by omega)]

/-- The text read from a file whose text is a decimal numeral, with or without
a newline after it. -/
theorem text_of_numeral (content : String) (n : ℕ)
    (h : content = toString n ∨ content = toString n ++ "\n") :
    extractString content.data = toString n := by
  rcases h with h | h
  · rw [h]; exact extractString_toString_nat n
  · rw [h, String.data_append]; exact extractString_numeral_newline n

/-- The integer read from such a file. -/
theorem int_of_numeral (old : ℤ) (content : String) (n : ℕ) (hn : n < 2 ^ 63)
    (h : content = toString n ∨ content = toString n ++ "\n") :
    extractInt64 old content.data = n := by
  rcases h with h | h
  · rw [h]; exact extractInt64_of_some _ _ _ (extractInt64?_toString_nat n hn)
  · rw [h, String.data_append]
    exact extractInt64_of_some _ _ _ (extractInt64?_numeral_newline n hn)

/-- C21, an openable file on which a numeric accessor returns the sentinel: the
period and duty files of the state can be opened and are empty, so they hold
no integer; `getNumericPeriodValue` and `getNumericDutyValue` return
`FILE_COULD_NOT_OPEN_INT`, the value `readValue` is initialised with, and
clear the flag. -/
theorem C21_empty_file_reads_sentinel :
    (sampleState "" "").periodFile.canRead = true ∧
    (¬ ∃ v, (sampleState "" "").periodFile.HoldsInt v) ∧
    (getNumericPeriodValue sampleDef (sampleState "" "")).1
      = sampleDef.FILE_COULD_NOT_OPEN_INT ∧
    (getNumericPeriodValue sampleDef (sampleState "" "")).2.pwmErrors.periodFileError = false ∧
    (sampleState "" "").dutyFile.canRead = true ∧
    (getNumericDutyValue sampleDef (sampleState "" "")).1
      = sampleDef.FILE_COULD_NOT_OPEN_INT ∧
    (getNumericDutyValue sampleDef (sampleState "" "")).2.pwmErrors.dutyFileError = false := by
  refine ⟨rfl, ?_, by decide, by decide, rfl, by decide, by decide⟩
  rintro ⟨v, _, h⟩
  have e : extractInt64? (sampleState "" "").periodFile.content.data = none := by decide
  rw [e] at h
  cases h

/-- C21 (amended): each of the six read accessors returns its sentinel and sets
the flag of its own file when the file cannot be opened.  When the file can be
opened the accessor clears that flag; a text accessor returns the text up to
the next whitespace, which for a file showing a decimal numeral (with or
without a newline after it) is that numeral; a numeric accessor returns the
integer the file holds, which for such a file is the number shown, and returns
`FILE_COULD_NOT_OPEN_INT` for a file that holds nothing but whitespace.  In
every case the four files and the nine other flags are as before. -/
theorem C21_read_accessors (d : BlackDef) (st : BlackPWM) :
    ((st.periodFile.canRead = false →
        getPeriodValue d st = (d.FILE_COULD_NOT_OPEN_STRING, st.setPeriodFileError true) ∧
        (getPeriodValue d st).2.pwmErrors.periodFileError = true) ∧
      (st.periodFile.canRead = true →
        getPeriodValue d st =
          (extractString st.periodFile.content.data, st.setPeriodFileError false) ∧
        (getPeriodValue d st).2.pwmErrors.periodFileError = false) ∧
      (∀ n : ℕ, st.periodFile.canRead = true →
        (st.periodFile.content = toString n ∨ st.periodFile.content = toString n ++ "\n") →
        (getPeriodValue d st).1 = toString n) ∧
      FilesKept st (getPeriodValue d st).2 ∧
      FlagsKeptExcept flags.periodFileErr st (getPeriodValue d st).2) ∧
    ((st.dutyFile.canRead = false →
        getDutyValue d st = (d.FILE_COULD_NOT_OPEN_STRING, st.setDutyFileError true) ∧
        (getDutyValue d st).2.pwmErrors.dutyFileError = true) ∧
      (st.dutyFile.canRead = true →
        getDutyValue d st =
          (extractString st.dutyFile.content.data, st.setDutyFileError false) ∧
        (getDutyValue d st).2.pwmErrors.dutyFileError = false) ∧
      (∀ n : ℕ, st.dutyFile.canRead = true →
        (st.dutyFile.content = toString n ∨ st.dutyFile.content = toString n ++ "\n") →
        (getDutyValue d st).1 = toString n) ∧
      FilesKept st (getDutyValue d st).2 ∧
      FlagsKeptExcept flags.dutyFileErr st (getDutyValue d st).2) ∧
    ((st.runFile.canRead = false →
        getRunValue d st = (d.FILE_COULD_NOT_OPEN_STRING, st.setRunFileError true) ∧
        (getRunValue d st).2.pwmErrors.runFileError = true) ∧
      (st.runFile.canRead = true →
        getRunValue d st =
          (extractString st.runFile.content.data, st.setRunFileError false) ∧
        (getRunValue d st).2.pwmErrors.runFileError = false) ∧
      (∀ n : ℕ, st.runFile.canRead = true →
        (st.runFile.content = toString n ∨ st.runFile.content = toString n ++ "\n") →
        (getRunValue d st).1 = toString n) ∧
      FilesKept st (getRunValue d st).2 ∧
      FlagsKeptExcept flags.runFileErr st (getRunValue d st).2) ∧
    ((st.polarityFile.canRead = false →
        getPolarityValue d st =
          (d.FILE_COULD_NOT_OPEN_STRING, st.setPolarityFileError true) ∧
        (getPolarityValue d st).2.pwmErrors.polarityFileError = true) ∧
      (st.polarityFile.canRead = true →
        getPolarityValue d st =
          (extractString st.polarityFile.content.data, st.setPolarityFileError false) ∧
        (getPolarityValue d st).2.pwmErrors.polarityFileError = false) ∧
      (∀ n : ℕ, st.polarityFile.canRead = true →
        (st.polarityFile.content = toString n ∨
          st.polarityFile.content = toString n ++ "\n") →
        (getPolarityValue d st).1 = toString n) ∧
      FilesKept st (getPolarityValue d st).2 ∧
      FlagsKeptExcept flags.polarityFileErr st (getPolarityValue d st).2) ∧
    ((st.periodFile.canRead = false →
        getNumericPeriodValue d st = (d.FILE_COULD_NOT_OPEN_INT, st.setPeriodFileError true) ∧
        (getNumericPeriodValue d st).2.pwmErrors.periodFileError = true) ∧
      (st.periodFile.canRead = true →
        (getNumericPeriodValue d st).2 = st.setPeriodFileError false ∧
        (getNumericPeriodValue d st).2.pwmErrors.periodFileError = false) ∧
      (∀ v : ℤ, st.periodFile.HoldsInt v →
        getNumericPeriodValue d st = (v, st.setPeriodFileError false)) ∧
      (∀ n : ℕ, st.periodFile.canRead = true → n < 2 ^ 63 →
        (st.periodFile.content = toString n ∨ st.periodFile.content = toString n ++ "\n") →
        (getNumericPeriodValue d st).1 = n) ∧
      (st.periodFile.canRead = true →
        (∀ c ∈ st.periodFile.content.data, isSpace c = true) →
        (getNumericPeriodValue d st).1 = d.FILE_COULD_NOT_OPEN_INT) ∧
      FilesKept st (getNumericPeriodValue d st).2 ∧
      FlagsKeptExcept flags.periodFileErr st (getNumericPeriodValue d st).2) ∧
    ((st.dutyFile.canRead = false →
        getNumericDutyValue d st = (d.FILE_COULD_NOT_OPEN_INT, st.setDutyFileError true) ∧
        (getNumericDutyValue d st).2.pwmErrors.dutyFileError = true) ∧
      (st.dutyFile.canRead = true →
        (getNumericDutyValue d st).2 = st.setDutyFileError false ∧
        (getNumericDutyValue d st).2.pwmErrors.dutyFileError = false) ∧
      (∀ v : ℤ, st.dutyFile.HoldsInt v →
        getNumericDutyValue d st = (v, st.setDutyFileError false)) ∧
      (∀ n : ℕ, st.dutyFile.canRead = true → n < 2 ^ 63 →
        (st.dutyFile.content = toString n ∨ st.dutyFile.content = toString n ++ "\n") →
        (getNumericDutyValue d st).1 = n) ∧
      (st.dutyFile.canRead = true →
        (∀ c ∈ st.dutyFile.content.data, isSpace c = true) →
        (getNumericDutyValue d st).1 = d.FILE_COULD_NOT_OPEN_INT) ∧
      FilesKept st (getNumericDutyValue d st).2 ∧
      FlagsKeptExcept flags.dutyFileErr st (getNumericDutyValue d st).2) := by
  refine ⟨⟨?_, ?_, ?_, ?_, ?_⟩, ⟨?_, ?_, ?_, ?_, ?_⟩, ⟨?_, ?_, ?_, ?_, ?_⟩,
    ⟨?_, ?_, ?_, ?_, ?_⟩, ⟨?_, ?_, ?_, ?_, ?_, ?_, ?_⟩, ⟨?_, ?_, ?_, ?_, ?_, ?_, ?_⟩⟩
  · intro h; simp [getPeriodValue, h, BlackPWM.setPeriodFileError]
  · intro h; simp [getPeriodValue, h, BlackPWM.setPeriodFileError]
  · intro n h hc
    simp only [getPeriodValue, h, if_true]
    exact text_of_numeral _ n hc
  · unfold getPeriodValue; split_ifs <;> exact ⟨rfl, rfl, rfl, rfl⟩
  · unfold getPeriodValue; split_ifs <;> exact flagsKept_setPeriodFileError st _
  · intro h; simp [getDutyValue, h, BlackPWM.setDutyFileError]
  · intro h; simp [getDutyValue, h, BlackPWM.setDutyFileError]
  · intro n h hc
    simp only [getDutyValue, h, if_true]
    exact text_of_numeral _ n hc
  · unfold getDutyValue; split_ifs <;> exact ⟨rfl, rfl, rfl, rfl⟩
  · unfold getDutyValue; split_ifs <;> exact flagsKept_setDutyFileError st _
  · intro h; simp [getRunValue, h, BlackPWM.setRunFileError]
  · intro h; simp [getRunValue, h, BlackPWM.setRunFileError]
  · intro n h hc
    simp only [getRunValue, h, if_true]
    exact text_of_numeral _ n hc
  · unfold getRunValue; split_ifs <;> exact ⟨rfl, rfl, rfl, rfl⟩
  · unfold getRunValue; split_ifs <;> exact flagsKept_setRunFileError st _
  · intro h; simp [getPolarityValue, h, BlackPWM.setPolarityFileError]
  · intro h; simp [getPolarityValue, h, BlackPWM.setPolarityFileError]
  · intro n h hc
    simp only [getPolarityValue, h, if_true]
    exact text_of_numeral _ n hc
  · unfold getPolarityValue; split_ifs <;> exact ⟨rfl, rfl, rfl, rfl⟩
  · unfold getPolarityValue; split_ifs <;> exact flagsKept_setPolarityFileError st _
  · intro h; simp [getNumericPeriodValue, h, BlackPWM.setPeriodFileError]
  · intro h; simp [getNumericPeriodValue, h, BlackPWM.setPeriodFileError]
  · intro v hv
    simp [getNumericPeriodValue, hv.1, extractInt64_of_some _ _ v hv.2]
  · intro n h hn hc
    simp only [getNumericPeriodValue, h, if_true]
    exact int_of_numeral _ _ n hn hc
  · intro h hb
    simp only [getNumericPeriodValue, h, if_true]
    exact extractInt64_of_blank _ _ hb
  · unfold getNumericPeriodValue; split_ifs <;> exact ⟨rfl, rfl, rfl, rfl⟩
  · unfold getNumericPeriodValue; split_ifs <;> exact flagsKept_setPeriodFileError st _
  · intro h; simp [getNumericDutyValue, h, BlackPWM.setDutyFileError]
  · intro h; simp [getNumericDutyValue, h, BlackPWM.setDutyFileError]
  · intro v hv
    simp [getNumericDutyValue, hv.1, extractInt64_of_some _ _ v hv.2]
  · intro n h hn hc
    simp only [getNumericDutyValue, h, if_true]
    exact int_of_numeral _ _ n hn hc
  · intro h hb
    simp only [getNumericDutyValue, h, if_true]
    exact extractInt64_of_blank _ _ hb
  · unfold getNumericDutyValue; split_ifs <;> exact ⟨rfl, rfl, rfl, rfl⟩
  · unfold getNumericDutyValue; split_ifs <;> exact flagsKept_setDutyFileError st _

/-- The accessors on sample states: a period file holding `500000` followed by a
newline reads as the text `500000` and as the integer 500000; a period file
that cannot be opened reads as the sentinels. -/
theorem read_accessors_examples :
    (getPeriodValue sampleDef (sampleState "500000\n" "0")).1 = "500000" ∧
    (getNumericPeriodValue sampleDef (sampleState "500000\n" "0")).1 = 500000 ∧
    (getPeriodValue sampleDef (noPeriodState "0")).1 = "File Could Not Open" ∧
    (getNumericPeriodValue sampleDef (noPeriodState "0")).1 = -1 ∧
    (getPeriodValue sampleDef (noPeriodState "0")).2.pwmErrors.periodFileError = true := by
  decide

theorem toString_zero_one : toString (0 : ℤ) = "0" ∧ toString (1 : ℤ) = "1" := by decide

theorem extractString_zero_one :
    extractString "0".data = "0" ∧ extractString "1".data = "1" := by decide

/-- The text `setPolarity` writes. -/
theorem polarity_text (polarity : polarityType) :
    toString polarity.toInt = (match polarity with | .straight => "0" | .reverse => "1") := by
  cases polarity
  · exact toString_zero_one.1
  · exact toString_zero_one.2

/-- The text `setRunState` writes. -/
theorem run_text (state : runValue) :
    toString state.toInt = (match state with | .stop => "0" | .run => "1") := by
  cases state
  · exact toString_zero_one.1
  · exact toString_zero_one.2

theorem setPolarity_writable (st : BlackPWM) (polarity : polarityType)
    (hw : st.polarityFile.canWrite = true) :
    setPolarity st polarity =
      (true, { st.setPolarityFileError false with
        polarityFile := { st.polarityFile with content := toString polarity.toInt } }) := by
  simp [setPolarity, hw, File.write]

theorem setPolarity_unwritable (st : BlackPWM) (polarity : polarityType)
    (hw : st.polarityFile.canWrite = false) :
    setPolarity st polarity = (false, st.setPolarityFileError true) := by
  simp [setPolarity, hw]

theorem setRunState_writable (st : BlackPWM) (state : runValue)
    (hw : st.runFile.canWrite = true) :
    setRunState st state =
      (true, { st.setRunFileError false with
        runFile := { st.runFile with content := toString state.toInt } }) := by
  simp [setRunState, hw, File.write]

theorem setRunState_unwritable (st : BlackPWM) (state : runValue)
    (hw : st.runFile.canWrite = false) :
    setRunState st state = (false, st.setRunFileError true) := by
  simp [setRunState, hw]

/-- C22: `setPolarity` and `setRunState`.  When the file can be opened the call
returns true, clears the flag of that file and leaves the file holding exactly
`0` (straight, stop) or `1` (reverse, run), which a following read of a readable
file returns; when it cannot be opened the call returns false, sets the flag
and keeps all four files.  The three other files and the nine other flags are
kept in both cases. -/
theorem C22_setPolarity_setRunState (d : BlackDef) (st : BlackPWM) :
    (∀ polarity : polarityType,
      (st.polarityFile.canWrite = true →
        (setPolarity st polarity).1 = true ∧
        (setPolarity st polarity).2.pwmErrors.polarityFileError = false ∧
        (setPolarity st polarity).2.polarityFile.content =
          (match polarity with | .straight => "0" | .reverse => "1") ∧
        (st.polarityFile.canRead = true →
          (getPolarityValue d (setPolarity st polarity).2).1 =
            (match polarity with | .straight => "0" | .reverse => "1"))) ∧
      (st.polarityFile.canWrite = false →
        (setPolarity st polarity).1 = false ∧
        (setPolarity st polarity).2.pwmErrors.polarityFileError = true ∧
        FilesKept st (setPolarity st polarity).2) ∧
      (setPolarity st polarity).2.periodFile = st.periodFile ∧
      (setPolarity st polarity).2.dutyFile = st.dutyFile ∧
      (setPolarity st polarity).2.runFile = st.runFile ∧
      FlagsKeptExcept flags.polarityFileErr st (setPolarity st polarity).2) ∧
    (∀ state : runValue,
      (st.runFile.canWrite = true →
        (setRunState st state).1 = true ∧
        (setRunState st state).2.pwmErrors.runFileError = false ∧
        (setRunState st state).2.runFile.content =
          (match state with | .stop => "0" | .run => "1") ∧
        (st.runFile.canRead = true →
          (getRunValue d (setRunState st state).2).1 =
            (match state with | .stop => "0" | .run => "1"))) ∧
      (st.runFile.canWrite = false →
        (setRunState st state).1 = false ∧
        (setRunState st state).2.pwmErrors.runFileError = true ∧
        FilesKept st (setRunState st state).2) ∧
      (setRunState st state).2.periodFile = st.periodFile ∧
      (setRunState st state).2.dutyFile = st.dutyFile ∧
      (setRunState st state).2.polarityFile = st.polarityFile ∧
      FlagsKeptExcept flags.runFileErr st (setRunState st state).2) := by
  constructor
  · intro polarity
    refine ⟨fun hw => ?_, fun hw => ?_, ?_, ?_, ?_, ?_⟩
    · rw [setPolarity_writable st polarity hw]
      refine ⟨rfl, rfl, polarity_text polarity, fun hr => ?_⟩
      have hr2 : ({ st.setPolarityFileError false with
          polarityFile := { st.polarityFile with content := toString polarity.toInt } }
          : BlackPWM).polarityFile.canRead = true := hr
      rw [getPolarityValue, if_pos hr2]
      cases polarity
      · exact extractString_zero_one.1
      · exact extractString_zero_one.2
    · rw [setPolarity_unwritable st polarity hw]
      exact ⟨rfl, rfl, rfl, rfl, rfl, rfl⟩
    · unfold setPolarity; split_ifs <;> rfl
    · unfold setPolarity; split_ifs <;> rfl
    · unfold setPolarity; split_ifs <;> rfl
    · unfold setPolarity
      split_ifs
      · intro g hg
        cases g <;> first | rfl | exact absurd rfl hg
      · exact flagsKept_setPolarityFileError st _
  · intro state
    refine ⟨fun hw => ?_, fun hw => ?_, ?_, ?_, ?_, ?_⟩
    · rw [setRunState_writable st state hw]
      refine ⟨rfl, rfl, run_text state, fun hr => ?_⟩
      have hr2 : ({ st.setRunFileError false with
          runFile := { st.runFile with content := toString state.toInt } }
          : BlackPWM).runFile.canRead = true := hr
      rw [getRunValue, if_pos hr2]
      cases state
      · exact extractString_zero_one.1
      · exact extractString_zero_one.2
    · rw [setRunState_unwritable st state hw]
      exact ⟨rfl, rfl, rfl, rfl, rfl, rfl⟩
    · unfold setRunState; split_ifs <;> rfl
    · unfold setRunState; split_ifs <;> rfl
    · unfold setRunState; split_ifs <;> rfl
    · unfold setRunState
      split_ifs
      · intro g hg
        cases g <;> first | rfl | exact absurd rfl hg
      · exact flagsKept_setRunFileError st _

/-- The documented examples of `setPolarity` and `setRunState`: straight then
reverse reads `0` then `1`, run then stop reads `1` then `0`. -/
theorem setters_examples :
    (getPolarityValue sampleDef
      (setPolarity (switchState "0" "1") polarityType.straight).2).1 = "0" ∧
    (getPolarityValue sampleDef
      (setPolarity (setPolarity (switchState "0" "1") polarityType.straight).2
        polarityType.reverse).2).1 = "1" ∧
    (getRunValue sampleDef (setRunState (switchState "0" "1") runValue.run).2).1 = "1" ∧
    (getRunValue sampleDef
      (setRunState (setRunState (switchState "0" "1") runValue.run).2 runValue.stop).2).1
      = "0" := by
  decide

/-! ### The two toggles -/

theorem getPolarityValue_readable (d : BlackDef) (st : BlackPWM)
    (hr : st.polarityFile.canRead = true) :
    getPolarityValue d st =
      (extractString st.polarityFile.content.data, st.setPolarityFileError false) := by
  simp [getPolarityValue, hr]

theorem tooglePolarity_of_zero (d : BlackDef) (st : BlackPWM)
    (hw : st.polarityFile.canWrite = true) (h : (getPolarityValue d st).1 = "0") :
    tooglePolarity d st =
      { (getPolarityValue d st).2.setPolarityFileError false with
        polarityFile := { st.polarityFile with content := "1" } } := by
  have ht : toString (1 : ℤ) = "1" := by decide
  have hw2 : (getPolarityValue d st).2.polarityFile.canWrite = true := by
    unfold getPolarityValue; split_ifs <;> exact hw
  have hf : (getPolarityValue d st).2.polarityFile = st.polarityFile := by
    unfold getPolarityValue; split_ifs <;> rfl
  rw [tooglePolarity, if_pos h, setPolarity, if_pos hw2, File.write, hf]
  simp only [polarityType.toInt, ht]

theorem tooglePolarity_of_other (d : BlackDef) (st : BlackPWM)
    (hw : st.polarityFile.canWrite = true) (h : (getPolarityValue d st).1 ≠ "0") :
    tooglePolarity d st =
      { (getPolarityValue d st).2.setPolarityFileError false with
        polarityFile := { st.polarityFile with content := "0" } } := by
  have ht : toString (0 : ℤ) = "0" := by decide
  have hw2 : (getPolarityValue d st).2.polarityFile.canWrite = true := by
    unfold getPolarityValue; split_ifs <;> exact hw
  have hf : (getPolarityValue d st).2.polarityFile = st.polarityFile := by
    unfold getPolarityValue; split_ifs <;> rfl
  rw [tooglePolarity, if_neg h, setPolarity, if_pos hw2, File.write, hf]
  simp only [polarityType.toInt, ht]

theorem toggleRunState_of_other (d : BlackDef) (st : BlackPWM)
    (hw : st.runFile.canWrite = true) (h : (getRunValue d st).1 ≠ "1") :
    toggleRunState d st =
      { (getRunValue d st).2.setRunFileError false with
        runFile := { st.runFile with content := "1" } } := by
  have ht : toString (1 : ℤ) = "1" := by decide
  have hw2 : (getRunValue d st).2.runFile.canWrite = true := by
    unfold getRunValue; split_ifs <;> exact hw
  have hf : (getRunValue d st).2.runFile = st.runFile := by
    unfold getRunValue; split_ifs <;> rfl
  rw [toggleRunState, if_neg h, setRunState, if_pos hw2, File.write, hf]
  simp only [runValue.toInt, ht]

theorem toggleRunState_of_read_one (d : BlackDef) (st : BlackPWM)
    (hw : st.runFile.canWrite = true) (h : (getRunValue d st).1 = "1") :
    toggleRunState d st =
      { (getRunValue d st).2.setRunFileError false with
        runFile := { st.runFile with content := "0" } } := by
  have ht : toString (0 : ℤ) = "0" := by decide
  have hw2 : (getRunValue d st).2.runFile.canWrite = true := by
    unfold getRunValue; split_ifs <;> exact hw
  have hf : (getRunValue d st).2.runFile = st.runFile := by
    unfold getRunValue; split_ifs <;> rfl
  rw [toggleRunState, if_pos h, setRunState, if_pos hw2, File.write, hf]
  simp only [runValue.toInt, ht]

/-- The value read from a polarity file that can be read and has the text `t`. -/
theorem getPolarityValue_text (d : BlackDef) (st : BlackPWM) (t : String)
    (hr : st.polarityFile.canRead = true) (h : st.polarityFile.content = t) :
    (getPolarityValue d st).1 = extractString t.data := by
  rw [getPolarityValue_readable d st hr, h]

/-- C26: in every state whose polarity file is readable and writable and holds
`0` or `1`, `tooglePolarity` writes the opposite digit, so `isPolarityReverse` is
negated by the call, and two calls in a row leave the polarity file as it was at
the start; the period, duty and run files are kept. -/
theorem C26_tooglePolarity (d : BlackDef) (st : BlackPWM)
    (hr : st.polarityFile.canRead = true) (hw : st.polarityFile.canWrite = true)
    (h : st.polarityFile.content = "0" ∨ st.polarityFile.content = "1") :
    (st.polarityFile.content = "0" → (tooglePolarity d st).polarityFile.content = "1") ∧
    (st.polarityFile.content = "1" → (tooglePolarity d st).polarityFile.content = "0") ∧
    (isPolarityReverse d (tooglePolarity d st)).1 = !(isPolarityReverse d st).1 ∧
    (tooglePolarity d (tooglePolarity d st)).polarityFile = st.polarityFile ∧
    ((tooglePolarity d st).periodFile = st.periodFile ∧
      (tooglePolarity d st).dutyFile = st.dutyFile ∧
      (tooglePolarity d st).runFile = st.runFile) := by
  have h01 := extractString_zero_one
  have hframe : ∀ s : BlackPWM, (getPolarityValue d s).2.periodFile = s.periodFile ∧
      (getPolarityValue d s).2.dutyFile = s.dutyFile ∧
      (getPolarityValue d s).2.runFile = s.runFile := by
    intro s; unfold getPolarityValue; split_ifs <;> exact ⟨rfl, rfl, rfl⟩
  rcases h with h | h
  · have hv : (getPolarityValue d st).1 = "0" := by
      rw [getPolarityValue_text d st "0" hr h]; exact h01.1
    have e1 := tooglePolarity_of_zero d st hw hv
    have hv1 : (getPolarityValue d (tooglePolarity d st)).1 = "1" := by
      rw [getPolarityValue_text d _ "1" (by rw [e1]; exact hr) (by rw [e1])]; exact h01.2
    have e2 := tooglePolarity_of_other d (tooglePolarity d st) (by rw [e1]; exact hw)
      (by rw [hv1]; decide)
    refine ⟨fun _ => by rw [e1], fun h1 => ?_, ?_, ?_, ?_⟩
    · rw [h] at h1; exact absurd h1 (by decide)
    · simp only [isPolarityReverse, hv, hv1]; decide
    · rw [e2, e1]
      cases hf : st.polarityFile
      rw [hf] at h
      simp_all
    · rw [e1]; exact hframe st
  · have hv : (getPolarityValue d st).1 = "1" := by
      rw [getPolarityValue_text d st "1" hr h]; exact h01.2
    have e1 := tooglePolarity_of_other d st hw (by rw [hv]; decide)
    have hv1 : (getPolarityValue d (tooglePolarity d st)).1 = "0" := by
      rw [getPolarityValue_text d _ "0" (by rw [e1]; exact hr) (by rw [e1])]; exact h01.1
    have e2 := tooglePolarity_of_zero d (tooglePolarity d st) (by rw [e1]; exact hw) hv1
    refine ⟨fun h1 => ?_, fun _ => by rw [e1], ?_, ?_, ?_⟩
    · rw [h] at h1; exact absurd h1 (by decide)
    · simp only [isPolarityReverse, hv, hv1]; decide
    · rw [e2, e1]
      cases hf : st.polarityFile
      rw [hf] at h
      simp_all
    · rw [e1]; exact hframe st

/-- C26, worked example: the documented one, from straight (`0`) one call leaves
`1`; a second call leaves `0` again. -/
theorem C26_witness :
    (tooglePolarity sampleDef (switchState "0" "0")).polarityFile.content = "1" ∧
    (isPolarityReverse sampleDef (switchState "0" "0")).1 = false ∧
    (isPolarityReverse sampleDef (tooglePolarity sampleDef (switchState "0" "0"))).1 = true ∧
    (tooglePolarity sampleDef (tooglePolarity sampleDef (switchState "0" "0"))).polarityFile =
      (switchState "0" "0").polarityFile :=
  ⟨(C26_tooglePolarity sampleDef (switchState "0" "0") rfl rfl (Or.inl rfl)).1 rfl,
    by decide, by decide,
    (C26_tooglePolarity sampleDef (switchState "0" "0") rfl rfl (Or.inl rfl)).2.2.2.1⟩

/-- C30: the toggles differ on a value that is neither `0` nor `1`.  Whenever
the run value read is not `1` (the sentinel read from a file that cannot be
opened included, the sentinel being a text other than `1`) `toggleRunState`
calls `setRunState(run)`, which writes `1`; whenever the polarity value read is
not `0` `tooglePolarity` calls `setPolarity(straight)`, which writes `0`.  With
the text `2` the first yields `1` and the second `0`, and after two calls the
run file holds `0` and the polarity file `1`, not the text at the start. -/
theorem C30_toggle_asymmetry (d : BlackDef) (st : BlackPWM) :
    ((getRunValue d st).1 ≠ "1" →
      toggleRunState d st = (setRunState (getRunValue d st).2 runValue.run).2 ∧
      (st.runFile.canWrite = true → (toggleRunState d st).runFile.content = "1") ∧
      (st.runFile.canWrite = true → st.runFile.canRead = true →
        (toggleRunState d (toggleRunState d st)).runFile.content = "0")) ∧
    ((getPolarityValue d st).1 ≠ "0" →
      tooglePolarity d st = (setPolarity (getPolarityValue d st).2 polarityType.straight).2 ∧
      (st.polarityFile.canWrite = true → (tooglePolarity d st).polarityFile.content = "0") ∧
      (st.polarityFile.canWrite = true → st.polarityFile.canRead = true →
        (tooglePolarity d (tooglePolarity d st)).polarityFile.content = "1")) ∧
    (st.runFile.canRead = false → d.FILE_COULD_NOT_OPEN_STRING ≠ "1" →
      (getRunValue d st).1 ≠ "1") ∧
    (st.polarityFile.canRead = false → d.FILE_COULD_NOT_OPEN_STRING ≠ "0" →
      (getPolarityValue d st).1 ≠ "0") ∧
    ((toggleRunState sampleDef (switchState "2" "2")).runFile.content = "1" ∧
      (tooglePolarity sampleDef (switchState "2" "2")).polarityFile.content = "0" ∧
      (toggleRunState sampleDef (toggleRunState sampleDef
        (switchState "2" "2"))).runFile.content = "0" ∧
      (tooglePolarity sampleDef (tooglePolarity sampleDef
        (switchState "2" "2"))).polarityFile.content = "1") := by
  have h01 := extractString_zero_one
  refine ⟨fun h => ⟨?_, fun hw => ?_, fun hw hr => ?_⟩,
    fun h => ⟨?_, fun hw => ?_, fun hw hr => ?_⟩, fun hr hs => ?_, fun hr hs => ?_, by decide⟩
  · rw [toggleRunState, if_neg h]
  · rw [toggleRunState_of_other d st hw h]
  · have e1 := toggleRunState_of_other d st hw h
    have hv1 : (getRunValue d (toggleRunState d st)).1 = "1" := by
      rw [getRunValue_readable d _ (by rw [e1]; exact hr), e1]; exact h01.2
    rw [toggleRunState_of_read_one d (toggleRunState d st) (by rw [e1]; exact hw) hv1]
  · rw [tooglePolarity, if_neg h]
  · rw [tooglePolarity_of_other d st hw h]
  · have e1 := tooglePolarity_of_other d st hw h
    have hv1 : (getPolarityValue d (tooglePolarity d st)).1 = "0" := by
      rw [getPolarityValue_text d _ "0" (by rw [e1]; exact hr) (by rw [e1])]; exact h01.1
    rw [tooglePolarity_of_zero d (tooglePolarity d st) (by rw [e1]; exact hw) hv1]
  · simp only [getRunValue, hr]; exact hs
  · simp only [getPolarityValue, hr]; exact hs

/-- The toggles on files that cannot be read but can be written: the sentinel
read is neither digit, so the run file receives `1` and the polarity file `0`. -/
theorem toggle_unreadable_examples :
    (toggleRunState sampleDef
      { switchState "0" "1" with
        runFile := { content := "0", canRead := false, canWrite := true } }).runFile.content
      = "1" ∧
    (tooglePolarity sampleDef
      { switchState "0" "1" with
        polarityFile :=
          { content := "1", canRead := false, canWrite := true } }).polarityFile.content
      = "0" := by
  decide

/-! ### `setDutyPercent`: zero percent, the frame, and an unreadable period -/

/-- At zero percent the duty written is the period read. -/
theorem setDutyPercent_zero (d : BlackDef) (st : BlackPWM) (P : ℤ)
    (hP : st.periodFile.HoldsInt P) (hPb : |P| < 2 ^ 53)
    (hw : st.dutyFile.canWrite = true) :
    setDutyPercent d st (F32.finite 0) =
      some (true,
        { ((st.setOutOfRange false).setPeriodFileError (!st.periodFile.canRead)).setDutyFileError
            false with
          dutyFile := st.dutyFile.write (toString P) }) := by
  rw [setDutyPercent_inside d st 0 (le_refl 0) (by norm_num) hw,
    getNumericPeriodValue_holds d st P hP, dutyFromPercent_zero P hPb]
  rfl

/-- C23, the code at the demo's call on a period of 500000 ns:
`setDutyPercent(0.0)` returns true and leaves the duty file holding 500000, the
period, and not zero; the `setPeriodTime(100000)` that follows in the demo then
writes a period below that duty. -/
theorem C23_zero_percent_writes_period :
    ∃ st', setDutyPercent sampleDef (sampleState "500000" "0") (F32.finite 0) = some (true, st') ∧
      st'.dutyFile.content = "500000" ∧ st'.dutyFile.HoldsInt 500000 ∧
      ¬ st'.dutyFile.HoldsInt 0 ∧
      ∃ st'', setPeriodTime st' 100000 nanosecond = some (true, st'') ∧
        st''.periodFile.HoldsInt 100000 ∧ st''.dutyFile.HoldsInt 500000 := by
  have hP : (sampleState "500000" "0").periodFile.HoldsInt 500000 := ⟨rfl, by decide⟩
  have ht : toString (500000 : ℤ) = "500000" := by decide
  rw [setDutyPercent_zero sampleDef _ 500000 hP (by norm_num) rfl]
  refine ⟨_, rfl, ?_, ?_, ?_, ?_⟩
  · show ((sampleState "500000" "0").dutyFile.write (toString (500000 : ℤ))).content = _
    rw [ht]; rfl
  · exact ⟨rfl, by decide⟩
  · intro h
    have := holdsInt_unique _ _ _ h (⟨rfl, by decide⟩ : File.HoldsInt _ 500000)
    exact absurd this (by norm_num)
  · have hc : (scaled 100000 nanosecond).bind castUInt64 = some 100000 := by
      have := writeThis_exact 100000 0 (by norm_num) (by norm_num)
      simpa [nanosecond] using this
    refine ⟨_, setPeriodTime_written _ 100000 nanosecond 100000 hc (by norm_num) rfl, ?_, ?_⟩
    · exact ⟨rfl, by decide⟩
    · exact ⟨rfl, by decide⟩

/-- C24: `setDutyPercent` keeps the period, run and polarity files.  For every
percentage, the infinities and a NaN included, and every state, whatever the
call returns, the three files are after it what they were before; and the call
does return for every percentage other than a NaN when the period read is below
`2^53` in magnitude, and for every percentage when the duty file cannot be
opened. -/
theorem C24_setDutyPercent_frame (d : BlackDef) (st : BlackPWM) (p : F32) :
    (∀ r, setDutyPercent d st p = some r →
      r.2.periodFile = st.periodFile ∧ r.2.runFile = st.runFile ∧
        r.2.polarityFile = st.polarityFile) ∧
    (p ≠ F32.nan → |(getNumericPeriodValue d st).1| < 2 ^ 53 →
      ∃ r, setDutyPercent d st p = some r) ∧
    (st.dutyFile.canWrite = false → ∃ r, setDutyPercent d st p = some r) := by
  have hg : (getNumericPeriodValue d (st.setOutOfRange false)).2.periodFile = st.periodFile ∧
      (getNumericPeriodValue d (st.setOutOfRange false)).2.runFile = st.runFile ∧
      (getNumericPeriodValue d (st.setOutOfRange false)).2.polarityFile = st.polarityFile := by
    unfold getNumericPeriodValue; split_ifs <;> exact ⟨rfl, rfl, rfl⟩
  refine ⟨?_, ?_, ?_⟩
  · intro r hr
    unfold setDutyPercent at hr
    split_ifs at hr with h1 h2
    · cases hr; exact ⟨rfl, rfl, rfl⟩
    · cases p with
      | finite q =>
        simp only [Option.map_eq_some'] at hr
        obtain ⟨v, _, rfl⟩ := hr
        exact hg
      | posInf => cases hr
      | negInf => cases hr
      | nan => cases hr
    · cases hr; exact ⟨rfl, rfl, rfl⟩
  · intro hp hP
    cases p with
    | posInf => exact ⟨_, setDutyPercent_outside d st _ trivial⟩
    | negInf => exact ⟨_, setDutyPercent_outside d st _ trivial⟩
    | nan => exact absurd rfl hp
    | finite q =>
      by_cases hq : q < 0 ∨ 100 < q
      · exact ⟨_, setDutyPercent_outside d st _ hq⟩
      · push_neg at hq
        obtain ⟨b, st', h, _⟩ := setDutyPercent_step d st q hq.1 hq.2 hP
        exact ⟨_, h⟩
  · intro hw
    cases p with
    | posInf => exact ⟨_, setDutyPercent_outside d st _ trivial⟩
    | negInf => exact ⟨_, setDutyPercent_outside d st _ trivial⟩
    | nan =>
      rw [setDutyPercent_nan, hw]
      exact ⟨_, rfl⟩
    | finite q =>
      by_cases hq : q < 0 ∨ 100 < q
      · exact ⟨_, setDutyPercent_outside d st _ hq⟩
      · push_neg at hq
        exact ⟨_, setDutyPercent_unwritable d st q hq.1 hq.2 hw⟩

/-- The frame on a sample state: 20 percent of a period of 500000 changes the
duty file alone. -/
theorem setDutyPercent_frame_example :
    ∃ st', setDutyPercent sampleDef (switchState "1" "0") (F32.finite 20) = some (true, st') ∧
      st'.dutyFile.content = "400000" ∧
      st'.periodFile = (switchState "1" "0").periodFile ∧
      st'.runFile = (switchState "1" "0").runFile ∧
      st'.polarityFile = (switchState "1" "0").polarityFile := by
  have hP : (switchState "1" "0").periodFile.HoldsInt 500000 := ⟨rfl, by decide⟩
  have ht : toString (400000 : ℤ) = "400000" := by decide
  rw [setDutyPercent_inside sampleDef _ 20 (by norm_num) (by norm_num) rfl,
    getNumericPeriodValue_holds sampleDef _ 500000 hP, dutyFromPercent_500000_20]
  refine ⟨_, rfl, ?_, rfl, rfl, rfl⟩
  show ((switchState "1" "0").dutyFile.write (toString (400000 : ℤ))).content = _
  rw [ht]; rfl

theorem cround_mono_nonneg {x y : ℚ} (hx : 0 ≤ x) (hxy : x ≤ y) : cround x ≤ cround y := by
  unfold cround
  rw [if_pos hx, if_pos (le_trans hx hxy)]
  exact Int.floor_mono (by linarith)

theorem dutyFromPercent_eq (P : ℤ) (p : ℚ) (hP0 : 0 ≤ P) (hP : P < 2 ^ 53)
    (h0 : 0 ≤ p) (h1 : p ≤ 100) :
    dutyFromPercent P p = some (cround (dbl ((P : ℚ) * dbl (1 - flt (p / 100))))) ∧
      0 ≤ cround (dbl ((P : ℚ) * dbl (1 - flt (p / 100)))) ∧
      cround (dbl ((P : ℚ) * dbl (1 - flt (p / 100)))) ≤ P := by
  obtain ⟨ha0, ha1, _⟩ := flt_percent p h0 h1
  obtain ⟨hb0, hb1, _⟩ := dbl_one_sub (flt (p / 100)) ha0 ha1
  have habs : |P| < 2 ^ 53 := by rw [abs_of_nonneg hP0]; exact hP
  have hPd : dbl (P : ℚ) = P := dbl_intCast P habs
  have hPq : (0 : ℚ) ≤ (P : ℚ) := by exact_mod_cast hP0
  have hc0 : 0 ≤ dbl ((P : ℚ) * dbl (1 - flt (p / 100))) := dbl_nonneg (mul_nonneg hPq hb0)
  have hc1 : dbl ((P : ℚ) * dbl (1 - flt (p / 100))) ≤ P := by
    have := dbl_mono (mul_nonneg hPq hb0) (mul_le_of_le_one_right hPq hb1)
    rwa [hPd] at this
  obtain ⟨hv0, hv1⟩ := cround_mem_of_nonneg _ P hc0 hc1
  refine ⟨?_, hv0, hv1⟩
  unfold dutyFromPercent
  rw [hPd]
  exact castInt64_intCast _ (by omega) (by omega)

/-- The duty computed does not grow with the percentage. -/
theorem dutyFromPercent_anti (P : ℤ) (p q : ℚ) (hP0 : 0 ≤ P) (hP : P < 2 ^ 53)
    (h0 : 0 ≤ p) (hpq : p ≤ q) (h1 : q ≤ 100) :
    ∃ v w : ℤ, dutyFromPercent P p = some v ∧ dutyFromPercent P q = some w ∧
      0 ≤ w ∧ w ≤ v ∧ v ≤ P := by
  obtain ⟨ev, _, hvP⟩ := dutyFromPercent_eq P p hP0 hP h0 (le_trans hpq h1)
  obtain ⟨ew, hw0, _⟩ := dutyFromPercent_eq P q hP0 hP (le_trans h0 hpq) h1
  refine ⟨_, _, ev, ew, hw0, ?_, hvP⟩
  obtain ⟨ha0, ha1, _⟩ := flt_percent q (le_trans h0 hpq) h1
  have hdiv : p / 100 ≤ q / 100 := by
    apply div_le_div_of_nonneg_right hpq (by norm_num)
  have hfl : flt (p / 100) ≤ flt (q / 100) := flt_mono (by positivity) hdiv
  have hsub : dbl (1 - flt (q / 100)) ≤ dbl (1 - flt (p / 100)) :=
    dbl_mono (by linarith) (by linarith)
  have hb0 : 0 ≤ dbl (1 - flt (q / 100)) := dbl_nonneg (by linarith)
  have hPq : (0 : ℚ) ≤ (P : ℚ) := by exact_mod_cast hP0
  have hprod : (P : ℚ) * dbl (1 - flt (q / 100)) ≤ (P : ℚ) * dbl (1 - flt (p / 100)) :=
    mul_le_mul_of_nonneg_left hsub hPq
  have hd := dbl_mono (mul_nonneg hPq hb0) hprod
  exact cround_mono_nonneg (dbl_nonneg (mul_nonneg hPq hb0)) hd

theorem dbl_above_2_54 : dbl (18014398509481987 : ℚ) = 18014398509481988 := by
  have := roundFmt_eq_of_near 53 (-1022) (18014398509481987 : ℚ) 54 4503599627370497
    (by norm_num) (by norm_num) (by norm_num) (by norm_num) (by norm_num [abs_lt])
  rw [dbl, this]
  norm_num

theorem dutyFromPercent_above_2_54 :
    dutyFromPercent 18014398509481987 0 = some 18014398509481988 := by
  unfold dutyFromPercent
  rw [zero_div, flt_zero, sub_zero, dbl_one, mul_one]
  have e : ((18014398509481987 : ℤ) : ℚ) = (18014398509481987 : ℚ) := by norm_num
  rw [e, dbl_above_2_54]
  have := roundFmt_exact 53 (-1022) 4503599627370497 2 (by norm_num) (by norm_num)
  rw [dbl, show (18014398509481988 : ℚ) = ((4503599627370497 : ℤ) : ℚ) * (2 : ℚ) ^ (2 : ℤ) by
    norm_num, this]
  rw [show ((4503599627370497 : ℤ) : ℚ) * (2 : ℚ) ^ (2 : ℤ) = ((18014398509481988 : ℤ) : ℚ) by
    norm_num, cround_intCast]
  exact castInt64_intCast _ (by norm_num) (by norm_num)

/-- C28, a period read for which the claim fails: with the period file holding
18014398509481987 (`2^54 + 3`, a non-negative `int64_t` that no `double` holds)
`setDutyPercent(0.0)` writes 18014398509481988, which exceeds the period. -/
theorem C28_duty_above_period :
    (sampleState "18014398509481987" "0").periodFile.HoldsInt 18014398509481987 ∧
    ∃ st', setDutyPercent sampleDef (sampleState "18014398509481987" "0") (F32.finite 0)
        = some (true, st') ∧
      st'.dutyFile.content = "18014398509481988" ∧
      st'.dutyFile.HoldsInt 18014398509481988 ∧
      ¬ ((18014398509481988 : ℤ) ≤ 18014398509481987) := by
  have hh : (sampleState "18014398509481987" "0").periodFile.HoldsInt 18014398509481987 :=
    ⟨rfl, by decide⟩
  have ht : toString (18014398509481988 : ℤ) = "18014398509481988" := by decide
  refine ⟨hh, ?_⟩
  rw [setDutyPercent_inside sampleDef _ 0 (le_refl 0) (by norm_num) rfl,
    getNumericPeriodValue_holds sampleDef _ 18014398509481987 hh, dutyFromPercent_above_2_54]
  refine ⟨_, rfl, ?_, ?_, by norm_num⟩
  · show ((sampleState "18014398509481987" "0").dutyFile.write
      (toString (18014398509481988 : ℤ))).content = _
    rw [ht]; rfl
  · show ((sampleState "18014398509481987" "0").dutyFile.write
      (toString (18014398509481988 : ℤ))).HoldsInt _
    rw [ht]
    exact ⟨rfl, by decide⟩

/-- C28 (amended): for every period `P` read with `0 ≤ P < 2^53` (every period
up to `10^9` is one) and all percentages `p ≤ q` within `[0, 100]`, the duty
values `v` and `w` that `setDutyPercent(p)` and `setDutyPercent(q)` write
satisfy `0 ≤ w ≤ v ≤ P`: the duty written lies between zero and the period and
does not grow with the percentage. -/
theorem C28_duty_within_period (d : BlackDef) (st : BlackPWM) (P : ℤ) (p q : ℚ)
    (hP : st.periodFile.HoldsInt P) (hP0 : 0 ≤ P) (hPb : P < 2 ^ 53)
    (hw : st.dutyFile.canWrite = true) (h0 : 0 ≤ p) (hpq : p ≤ q) (h1 : q ≤ 100) :
    ∃ (v w : ℤ) (st1 st2 : BlackPWM),
      setDutyPercent d st (F32.finite p) = some (true, st1) ∧
      st1.dutyFile.content = toString v ∧
      setDutyPercent d st (F32.finite q) = some (true, st2) ∧
      st2.dutyFile.content = toString w ∧
      0 ≤ w ∧ w ≤ v ∧ v ≤ P := by
  obtain ⟨v, w, hv, hw', h0w, hwv, hvP⟩ := dutyFromPercent_anti P p q hP0 hPb h0 hpq h1
  rw [setDutyPercent_inside d st p h0 (le_trans hpq h1) hw,
    setDutyPercent_inside d st q (le_trans h0 hpq) h1 hw,
    getNumericPeriodValue_holds d st P hP, hv, hw']
  exact ⟨v, w, _, _, rfl, rfl, rfl, rfl, h0w, hwv, hvP⟩

/-- C28, worked example: a period of 500000 with 0 and 20 percent. -/
theorem C28_witness :
    ∃ (v w : ℤ) (st1 st2 : BlackPWM),
      setDutyPercent sampleDef (sampleState "500000" "0") (F32.finite 0) = some (true, st1) ∧
      st1.dutyFile.content = toString v ∧
      setDutyPercent sampleDef (sampleState "500000" "0") (F32.finite 20) = some (true, st2) ∧
      st2.dutyFile.content = toString w ∧
      0 ≤ w ∧ w ≤ v ∧ v ≤ 500000 :=
  C28_duty_within_period sampleDef (sampleState "500000" "0") 500000 0 20
    ⟨rfl, by decide⟩ (by norm_num) (by norm_num) rfl (le_refl 0) (by norm_num) (by norm_num)

/-! ### The ratio read back -/

/-- The value of `getNumericValue` when the period and duty files hold integers
that `double` represents, the period not being zero. -/
theorem getNumericValue_eq (d : BlackDef) (st : BlackPWM) (P D : ℤ)
    (hP : st.periodFile.HoldsInt P) (hD : st.dutyFile.HoldsInt D)
    (hP0 : P ≠ 0) (hPb : |P| < 2 ^ 53) (hDb : |D| < 2 ^ 53) :
    (getNumericValue d st).1 =
      F32.finite (flt (dbl (dbl (1 - dbl ((D : ℚ) / (P : ℚ))) * 100))) := by
  have hD2 : (st.setPeriodFileError false).dutyFile.HoldsInt D := hD
  have hne : ¬ ((P : ℚ) = 0) := by exact_mod_cast hP0
  simp only [getNumericValue, getNumericPeriodValue_holds d st P hP,
    getNumericDutyValue, hD2.1, if_true, extractInt64_of_some _ _ D hD2.2,
    dbl_intCast P hPb, dbl_intCast D hDb, if_neg hne]

/-- The rounding error of the expression of `getNumericValue` for a duty within
the period. -/
theorem ratio_rounding (P D : ℤ) (hP0 : 0 < P) (hD0 : 0 ≤ D) (hDP : D ≤ P) :
    |flt (dbl (dbl (1 - dbl ((D : ℚ) / (P : ℚ))) * 100)) - (1 - (D : ℚ) / (P : ℚ)) * 100|
      ≤ (2 : ℚ) ^ (-17 : ℤ) := by
  have hPq : (0 : ℚ) < (P : ℚ) := by exact_mod_cast hP0
  have hDq : (0 : ℚ) ≤ (D : ℚ) := by exact_mod_cast hD0
  have hDPq : (D : ℚ) ≤ (P : ℚ) := by exact_mod_cast hDP
  have hq0 : (0 : ℚ) ≤ (D : ℚ) / (P : ℚ) := div_nonneg hDq hPq.le
  have hq1 : (D : ℚ) / (P : ℚ) ≤ 1 := by rw [div_le_one hPq]; exact hDPq
  set q : ℚ := (D : ℚ) / (P : ℚ) with hq
  have ha0 : 0 ≤ dbl q := dbl_nonneg hq0
  have ha1 : dbl q ≤ 1 := by
    have := dbl_mono hq0 hq1
    rwa [dbl_one] at this
  have haerr : |dbl q - q| ≤ (2 : ℚ) ^ (-53 : ℤ) := by
    have := roundFmt_sub_le_of_lt 53 (-1022) q 0 (by norm_num)
      (by rw [abs_of_nonneg hq0]; norm_num; linarith)
    simpa [dbl] using this
  obtain ⟨hb0, hb1, hberr⟩ := dbl_one_sub (dbl q) ha0 ha1
  set b : ℚ := dbl (1 - dbl q) with hb
  have hc100 : dbl (100 : ℚ) = 100 := by
    have := dbl_intCast 100 (by norm_num)
    simpa using this
  have hm0 : 0 ≤ b * 100 := by positivity
  have hm1 : b * 100 ≤ 100 := by linarith
  have hc0 : 0 ≤ dbl (b * 100) := dbl_nonneg hm0
  have hc1 : dbl (b * 100) ≤ 100 := by
    have := dbl_mono hm0 hm1
    rwa [hc100] at this
  have hcerr : |dbl (b * 100) - b * 100| ≤ (2 : ℚ) ^ (-47 : ℤ) := by
    have := roundFmt_sub_le_of_lt 53 (-1022) (b * 100) 6 (by norm_num)
      (by rw [abs_of_nonneg hm0]; norm_num; linarith)
    simpa [dbl] using this
  set c : ℚ := dbl (b * 100) with hc
  have hferr : |flt c - c| ≤ (2 : ℚ) ^ (-18 : ℤ) := by
    have := roundFmt_sub_le_of_lt 24 (-126) c 6 (by norm_num)
      (by rw [abs_of_nonneg hc0]; norm_num; linarith)
    simpa [flt] using this
  rw [abs_le] at haerr hberr hcerr hferr ⊢
  have e53 : (2 : ℚ) ^ (-53 : ℤ) = 1 / 9007199254740992 := by norm_num
  have e47 : (2 : ℚ) ^ (-47 : ℤ) = 1 / 140737488355328 := by norm_num
  have e18 : (2 : ℚ) ^ (-18 : ℤ) = 1 / 262144 := by norm_num
  have e17 : (2 : ℚ) ^ (-17 : ℤ) = 1 / 131072 := by norm_num
  rw [e53] at haerr hberr
  rw [e47] at hcerr
  rw [e18] at hferr
  rw [e17]
  constructor <;> linarith [haerr.1, haerr.2, hberr.1, hberr.2, hcerr.1, hcerr.2, hferr.1, hferr.2]

/-- From the bound on the duty written to the bound on the ratio. -/
theorem ratio_of_duty_bound (P v : ℤ) (p : ℚ) (hP0 : 0 < P)
    (hb : |(v : ℚ) - (P : ℚ) * (1 - p / 100)| ≤ 1 / 2 + |(P : ℚ)| / 2 ^ 23) :
    |(1 - (v : ℚ) / (P : ℚ)) * 100 - p| ≤ 50 / (P : ℚ) + 100 / 2 ^ 23 := by
  have hPq : (0 : ℚ) < (P : ℚ) := by exact_mod_cast hP0
  rw [abs_of_pos hPq] at hb
  have e : (1 - (v : ℚ) / (P : ℚ)) * 100 - p
      = -(100 / (P : ℚ)) * ((v : ℚ) - (P : ℚ) * (1 - p / 100)) := by
    field_simp
    ring
  rw [e, abs_mul, abs_neg, abs_of_pos (by positivity : (0 : ℚ) < 100 / (P : ℚ))]
  have h100 : (0 : ℚ) ≤ 100 / (P : ℚ) := by positivity
  calc 100 / (P : ℚ) * |(v : ℚ) - (P : ℚ) * (1 - p / 100)|
      ≤ 100 / (P : ℚ) * (1 / 2 + (P : ℚ) / 2 ^ 23) := mul_le_mul_of_nonneg_left hb h100
    _ = 50 / (P : ℚ) + 100 / 2 ^ 23 := by
      field_simp
      ring

theorem flt_21_percent : flt (21 / 100) = 14092861 / 67108864 := by
  have := roundFmt_eq_of_near 24 (-126) (21 / 100 : ℚ) (-3) 14092861
    (by norm_num) (by norm_num) (by norm_num) (by norm_num) (by norm_num [abs_lt])
  rw [flt, this]
  norm_num

theorem dbl_factor_21 : dbl (1 - flt (21 / 100)) = 53016003 / 67108864 := by
  rw [flt_21_percent]
  have := roundFmt_exact 53 (-1022) 53016003 (-26) (by norm_num) (by norm_num)
  rw [dbl, show (1 : ℚ) - 14092861 / 67108864 = ((53016003 : ℤ) : ℚ) * (2 : ℚ) ^ (-26 : ℤ) by
    norm_num, this]
  norm_num

theorem dutyFromPercent_500000_21 : dutyFromPercent 500000 21 = some 395000 := by
  unfold dutyFromPercent
  rw [dbl_factor_21, dbl_intCast 500000 (by norm_num)]
  have := roundFmt_exact 53 (-1022) 828375046875 (-21) (by norm_num) (by norm_num)
  rw [dbl, show ((500000 : ℤ) : ℚ) * (53016003 / 67108864)
      = ((828375046875 : ℤ) : ℚ) * (2 : ℚ) ^ (-21 : ℤ) by norm_num, this,
    cround_eq_of_near _ 395000 (by norm_num [abs_lt])]
  exact castInt64_intCast _ (by norm_num) (by norm_num)

theorem ratio_395000 :
    flt (dbl (dbl (1 - dbl (((395000 : ℤ) : ℚ) / ((500000 : ℤ) : ℚ))) * 100)) = 21 := by
  have h1 := roundFmt_eq_of_near 53 (-1022) (79 / 100 : ℚ) (-1) 7115687411245384
    (by norm_num) (by norm_num) (by norm_num) (by norm_num) (by norm_num [abs_lt])
  have h2 := roundFmt_exact 53 (-1022) 1891511843495608 (-53) (by norm_num) (by norm_num)
  have h3 := roundFmt_exact 53 (-1022) 5910974510923775 (-48) (by norm_num) (by norm_num)
  have h4 := roundFmt_eq_of_near 24 (-126) (5910974510923775 / 281474976710656 : ℚ) 4 11010048
    (by norm_num) (by norm_num) (by norm_num) (by norm_num) (by norm_num [abs_lt])
  have e1 : dbl (((395000 : ℤ) : ℚ) / ((500000 : ℤ) : ℚ)) = 7115687411245384 / 9007199254740992 := by
    rw [show ((395000 : ℤ) : ℚ) / ((500000 : ℤ) : ℚ) = 79 / 100 by norm_num, dbl, h1]
    norm_num
  have e2 : dbl (1 - 7115687411245384 / 9007199254740992 : ℚ)
      = 1891511843495608 / 9007199254740992 := by
    rw [show (1 - 7115687411245384 / 9007199254740992 : ℚ)
      = ((1891511843495608 : ℤ) : ℚ) * (2 : ℚ) ^ (-53 : ℤ) by norm_num, dbl, h2]
    norm_num
  have e3 : dbl ((1891511843495608 / 9007199254740992 : ℚ) * 100)
      = 5910974510923775 / 281474976710656 := by
    rw [show ((1891511843495608 / 9007199254740992 : ℚ) * 100)
      = ((5910974510923775 : ℤ) : ℚ) * (2 : ℚ) ^ (-48 : ℤ) by norm_num, dbl, h3]
    norm_num
  rw [e1, e2, e3, flt, h4]
  norm_num

theorem ratio_125000 :
    flt (dbl (dbl (1 - dbl (((125000 : ℤ) : ℚ) / ((500000 : ℤ) : ℚ))) * 100)) = 75 := by
  have h1 := roundFmt_exact 53 (-1022) 1 (-2) (by norm_num) (by norm_num)
  have h2 := roundFmt_exact 53 (-1022) 3 (-2) (by norm_num) (by norm_num)
  have e1 : dbl (((125000 : ℤ) : ℚ) / ((500000 : ℤ) : ℚ)) = 1 / 4 := by
    rw [show ((125000 : ℤ) : ℚ) / ((500000 : ℤ) : ℚ) = ((1 : ℤ) : ℚ) * (2 : ℚ) ^ (-2 : ℤ) by
      norm_num, dbl, h1]
    norm_num
  have e2 : dbl (1 - 1 / 4 : ℚ) = 3 / 4 := by
    rw [show (1 - 1 / 4 : ℚ) = ((3 : ℤ) : ℚ) * (2 : ℚ) ^ (-2 : ℤ) by norm_num, dbl, h2]
    norm_num
  have e3 : dbl ((3 / 4 : ℚ) * 100) = 75 := by
    have := dbl_intCast 75 (by norm_num)
    rw [show ((3 / 4 : ℚ) * 100) = ((75 : ℤ) : ℚ) by norm_num, this]
    norm_num
  have e4 : flt (75 : ℚ) = 75 := by
    have := flt_intCast 75 (by norm_num)
    simpa using this
  rw [e1, e2, e3, e4]

/-- C25, a percentage at which the bound `50/P` fails: with a period of
`10^9` ns, `setDutyPercent(20.0)` writes 799999997, and `(1 - duty/P) * 100`
then differs from 20 by `3 * 10^-7`, more than `50/P = 5 * 10^-8`. -/
theorem C25_ratio_bound_counterexample :
    (sampleState "1000000000" "0").periodFile.HoldsInt 1000000000 ∧
    ∃ st', setDutyPercent sampleDef (sampleState "1000000000" "0") (F32.finite 20)
        = some (true, st') ∧
      st'.dutyFile.HoldsInt 799999997 ∧
      ¬ (|(1 - (799999997 : ℚ) / 1000000000) * 100 - 20| ≤ 50 / 1000000000) := by
  have hh : (sampleState "1000000000" "0").periodFile.HoldsInt 1000000000 :=
    ⟨rfl, by decide⟩
  have ht : toString (799999997 : ℤ) = "799999997" := by decide
  refine ⟨hh, ?_⟩
  rw [setDutyPercent_inside sampleDef _ 20 (by norm_num) (by norm_num) rfl,
    getNumericPeriodValue_holds sampleDef _ 1000000000 hh, dutyFromPercent_1e9_20]
  refine ⟨_, rfl, ?_, ?_⟩
  · show ((sampleState "1000000000" "0").dutyFile.write (toString (799999997 : ℤ))).HoldsInt _
    rw [ht]
    exact ⟨rfl, by decide⟩
  · norm_num [abs_le]

/-- C25 (amended): `getNumericValue` returns the `float` nearest to the `double`
evaluation of `(1 - duty/period) * 100` on the numeric period and duty reads,
within `2^-17` of the exact value when `0 ≤ duty ≤ period`; and for every
period `P` with `0 < P < 2^53` and every `p` in `[0, 100]`, after a successful
`setDutyPercent(p)` the exact value `(1 - duty/P) * 100` differs from `p` by at
most `50/P + 100/2^23`, and the `float` that `getNumericValue` returns by at
most `2^-17` more. -/
theorem C25_getNumericValue_inverts (d : BlackDef) (st : BlackPWM) (p : ℚ) (P : ℤ)
    (h0 : 0 ≤ p) (h1 : p ≤ 100) (hP : st.periodFile.HoldsInt P) (hP0 : 0 < P)
    (hPb : P < 2 ^ 53) (hr : st.dutyFile.canRead = true) (hw : st.dutyFile.canWrite = true) :
    (∀ (s : BlackPWM) (Q D : ℤ), s.periodFile.HoldsInt Q → s.dutyFile.HoldsInt D →
      Q ≠ 0 → |Q| < 2 ^ 53 → |D| < 2 ^ 53 →
        (getNumericValue d s).1 =
            F32.finite (flt (dbl (dbl (1 - dbl ((D : ℚ) / (Q : ℚ))) * 100))) ∧
        (0 < Q → 0 ≤ D → D ≤ Q →
          |flt (dbl (dbl (1 - dbl ((D : ℚ) / (Q : ℚ))) * 100)) - (1 - (D : ℚ) / (Q : ℚ)) * 100|
            ≤ (2 : ℚ) ^ (-17 : ℤ))) ∧
    ∃ (v : ℤ) (st' : BlackPWM),
      setDutyPercent d st (F32.finite p) = some (true, st') ∧
      st'.dutyFile.HoldsInt v ∧ st'.periodFile.HoldsInt P ∧ 0 ≤ v ∧ v ≤ P ∧
      |(1 - (v : ℚ) / (P : ℚ)) * 100 - p| ≤ 50 / (P : ℚ) + 100 / 2 ^ 23 ∧
      ∃ g : ℚ, (getNumericValue d st').1 = F32.finite g ∧
        |g - p| ≤ 50 / (P : ℚ) + 100 / 2 ^ 23 + (2 : ℚ) ^ (-17 : ℤ) := by
  constructor
  · intro s Q D hQ hD hQ0 hQb hDb
    exact ⟨getNumericValue_eq d s Q D hQ hD hQ0 hQb hDb,
      fun a b c => ratio_rounding Q D a b c⟩
  · have habs : |P| < 2 ^ 53 := by rw [abs_of_pos hP0]; exact hPb
    obtain ⟨v, hv, hb⟩ := dutyFromPercent_bound P p habs h0 h1
    obtain ⟨v2, hv2, hv0, hvP⟩ := dutyFromPercent_range P p hP0.le hPb h0 h1
    have hvv : v2 = v := by
      rw [hv] at hv2; exact (Option.some.inj hv2).symm
    subst hvv
    have hD : (st.dutyFile.write (toString v2)).HoldsInt v2 :=
      holdsInt_written_int st.dutyFile v2 hr hv0 (by omega)
    have hrat := ratio_of_duty_bound P v2 p hP0 hb
    have hrnd := ratio_rounding P v2 hP0 hv0 hvP
    refine ⟨v2,
      { ((st.setOutOfRange false).setPeriodFileError (!st.periodFile.canRead)).setDutyFileError
          false with
        dutyFile := st.dutyFile.write (toString v2) }, ?_, hD, hP, hv0, hvP, hrat,
      flt (dbl (dbl (1 - dbl ((v2 : ℚ) / (P : ℚ))) * 100)), ?_, ?_⟩
    · rw [setDutyPercent_inside d st p h0 h1 hw, getNumericPeriodValue_holds d st P hP, hv]
      rfl
    · exact getNumericValue_eq d _ P v2 hP hD (by omega) habs
        (by rw [abs_of_nonneg hv0]; omega)
    · have := abs_add (flt (dbl (dbl (1 - dbl ((v2 : ℚ) / (P : ℚ))) * 100))
          - (1 - (v2 : ℚ) / (P : ℚ)) * 100) ((1 - (v2 : ℚ) / (P : ℚ)) * 100 - p)
      rw [sub_add_sub_cancel] at this
      linarith

/-- C25, worked examples: with a period of 500000 ns, `setDutyPercent(21.0)`
writes 395000 and `getNumericValue` then returns 21; a period of 500000 with a
duty of 125000 gives 75. -/
theorem C25_witness :
    (∃ (v : ℤ) (st' : BlackPWM),
      setDutyPercent sampleDef (sampleState "500000" "0") (F32.finite 21) = some (true, st') ∧
      st'.dutyFile.HoldsInt v ∧ st'.periodFile.HoldsInt 500000 ∧ 0 ≤ v ∧ v ≤ 500000 ∧
      |(1 - (v : ℚ) / ((500000 : ℤ) : ℚ)) * 100 - 21| ≤ 50 / ((500000 : ℤ) : ℚ) + 100 / 2 ^ 23 ∧
      ∃ g : ℚ, (getNumericValue sampleDef st').1 = F32.finite g ∧
        |g - 21| ≤ 50 / ((500000 : ℤ) : ℚ) + 100 / 2 ^ 23 + (2 : ℚ) ^ (-17 : ℤ)) ∧
    dutyFromPercent 500000 21 = some 395000 ∧
    (getNumericValue sampleDef (sampleState "500000" "395000")).1 = F32.finite 21 ∧
    (getNumericValue sampleDef (sampleState "500000" "125000")).1 = F32.finite 75 :=
  ⟨(C25_getNumericValue_inverts sampleDef (sampleState "500000" "0") 21 500000
      (by norm_num) (by norm_num) ⟨rfl, by decide⟩ (by norm_num) (by norm_num) rfl rfl).2,
    dutyFromPercent_500000_21,
    by
      rw [getNumericValue_eq sampleDef _ 500000 395000 ⟨rfl, by decide⟩ ⟨rfl, by decide⟩
        (by norm_num) (by norm_num) (by norm_num), ratio_395000],
    by
      rw [getNumericValue_eq sampleDef _ 500000 125000 ⟨rfl, by decide⟩ ⟨rfl, by decide⟩
        (by norm_num) (by norm_num) (by norm_num), ratio_125000]⟩

/-! ### Units above the millisecond -/

/-- The conversion of one unit for the two integer values next to the documented
ones: a unit of value `0` has the factor `10^9`, so `setPeriodTime(1, unit)` is
in range and writes 1000000000; a unit of value `1` has the factor `10^10`, so
the call is out of range and writes nothing. -/
theorem setPeriodTime_one_unit (st : BlackPWM) (hw : st.periodFile.canWrite = true) :
    setPeriodTime st 1 0 =
        some (true,
          { (st.setOutOfRange false).setPeriodFileError false with
            periodFile := st.periodFile.write "1000000000" }) ∧
    setPeriodTime st 1 1 = some (false, st.setOutOfRange true) := by
  have ht : toString (1000000000 : ℕ) = "1000000000" := by decide
  have h0 : (scaled 1 0).bind castUInt64 = some 1000000000 := by
    have := writeThis_exact 1 9 (by norm_num) (by norm_num)
    simpa using this
  have h1 : (scaled 1 1).bind castUInt64 = some 10000000000 := by
    have := writeThis_exact 1 10 (by norm_num) (by norm_num)
    simpa using this
  constructor
  · rw [setPeriodTime_written st 1 0 1000000000 h0 (le_refl _) hw, ht]
  · exact setPeriodTime_outOfRange st 1 1 10000000000 h1 (by norm_num)

/-- The same for `setSpaceRatioTime`. -/
theorem setSpaceRatioTime_one_unit (st : BlackPWM) (hw : st.dutyFile.canWrite = true) :
    setSpaceRatioTime st 1 0 =
        some (true,
          { st.setDutyFileError false with dutyFile := st.dutyFile.write "1000000000" }) ∧
    setSpaceRatioTime st 1 1 = some (false, st.setOutOfRange true) := by
  have ht : toString (1000000000 : ℕ) = "1000000000" := by decide
  have h0 : spaceWriteThis 1 0 = some 1000000000 := by
    have := spaceWriteThis_exact 1 9 (by norm_num) (by norm_num)
    simpa using this
  have h1 : spaceWriteThis 1 1 = some 10000000000 := by
    have := spaceWriteThis_exact 1 10 (by norm_num) (by norm_num)
    simpa using this
  constructor
  · unfold setSpaceRatioTime
    rw [h0, Option.map_some', if_neg (by norm_num), writeDuty, if_pos hw, ht]
  · unfold setSpaceRatioTime
    rw [h1, Option.map_some', if_pos (by norm_num)]

end BlackLib
